import Mathlib

/-!
Verification of the Catan rules engine (`src/catan/__init__.py`).

The Python engine is shallowly embedded: every mutable component of the
`Catan` object becomes a field of `Catan.GameState`, every rules-engine
method becomes a Lean function on `GameState`, methods that can `raise`
return `Except Err _`, and the two random draws the engine makes during
play (the weighted robber steal) are threaded as an explicit `pick`
parameter.  Python `dict`/`set` fields are represented by association
lists / duplicate-free lists: the engine only ever adds an element that
is absent and removes an element it previously added, so list
representations are exact for the round-trip and invariant statements
proved below.  Python lists that are popped from the back (the action
stack, the development-card deck used with `list.pop()`) are embedded
with their top at the head of the Lean list; this is noted at each
definition.
-/

set_option maxRecDepth 4000

namespace Catan

/-- Colors of players, mirroring `class Color(Enum)`. -/
inductive Color where
  | blue | orange | red | white
deriving DecidableEq, Inhabited, Fintype

/-- `class BuildingType(Enum)`. -/
inductive BuildingType where
  | settlement | city
deriving DecidableEq, Inhabited, Fintype

/-- `class TileType(Enum)`: DESERT, HILLS, FOREST, MOUNTAINS, FIELDS, PASTURE. -/
inductive TileType where
  | desert | hills | forest | mountains | fields | pasture
deriving DecidableEq, Inhabited, Fintype

/-- `class HarborType(Enum)`: BRICK, LUMBER, ORE, GRAIN, WOOL, GENERIC. -/
inductive HarborType where
  | brick | lumber | ore | grain | wool | generic
deriving DecidableEq, Inhabited, Fintype

/-- `class ResourceType(Enum)`: BRICK, LUMBER, ORE, GRAIN, WOOL. -/
inductive ResourceType where
  | brick | lumber | ore | grain | wool
deriving DecidableEq, Inhabited, Fintype

/-- `class DevelopmentCardType(Enum)`. -/
inductive DevelopmentCardType where
  | knight | roadBuilding | yearOfPlenty | monopoly | victoryPoint
deriving DecidableEq, Inhabited, Fintype

/-- `HarborType(resource_type.value)`: the harbor type with the same index. -/
def ResourceType.harbor : ResourceType → HarborType
  | .brick => .brick
  | .lumber => .lumber
  | .ore => .ore
  | .grain => .grain
  | .wool => .wool

/-- `ResourceType(tile_type.value - 1)`.  The source only evaluates this on
non-desert tiles (tokens are validated to never sit on the desert); the
desert case here is an arbitrary default that no reachable computation uses. -/
def TileType.res : TileType → ResourceType
  | .desert => .brick
  | .hills => .brick
  | .forest => .lumber
  | .mountains => .ore
  | .fields => .grain
  | .pasture => .wool

/-- The fixed iteration order `list(ResourceType)` of the Python enum. -/
def resourceTypes : List ResourceType :=
  [.brick, .lumber, .ore, .grain, .wool]

/-- The fixed iteration order `list(Color)`. -/
def allColors : List Color :=
  [.blue, .orange, .red, .white]

/-- The fixed iteration order `list(TileType)`. -/
def allTileTypes : List TileType :=
  [.desert, .hills, .forest, .mountains, .fields, .pasture]

/-- The fixed iteration order `list(HarborType)`. -/
def allHarborTypes : List HarborType :=
  [.brick, .lumber, .ore, .grain, .wool, .generic]

/-- `@dataclass Building`: color plus building type (settlement by default). -/
structure Building where
  color : Color
  building_type : BuildingType := .settlement
deriving DecidableEq, Inhabited

/-- `@dataclass DevelopmentCard`: card type plus its `playable` flag. -/
structure DevelopmentCard where
  development_card_type : DevelopmentCardType
  playable : Bool := false
deriving DecidableEq, Inhabited

/-- A per-resource-type integer table, embedding Python
`dict[ResourceType, int]` values such as `resource_amounts`. -/
structure Resources where
  brick : Int := 0
  lumber : Int := 0
  ore : Int := 0
  grain : Int := 0
  wool : Int := 0
deriving DecidableEq, Inhabited

namespace Resources

/-- Dictionary lookup `d[resource_type]`. -/
def get (r : Resources) : ResourceType → Int
  | .brick => r.brick
  | .lumber => r.lumber
  | .ore => r.ore
  | .grain => r.grain
  | .wool => r.wool

/-- Dictionary update `d[resource_type] = z`. -/
def set (r : Resources) : ResourceType → Int → Resources
  | .brick, z => { r with brick := z }
  | .lumber, z => { r with lumber := z }
  | .ore, z => { r with ore := z }
  | .grain, z => { r with grain := z }
  | .wool, z => { r with wool := z }

/-- `d[resource_type] += z`. -/
def bump (r : Resources) (t : ResourceType) (z : Int) : Resources :=
  r.set t (r.get t + z)

/-- Pointwise addition: adding a whole amounts dictionary. -/
def add (r q : Resources) : Resources :=
  ⟨r.brick + q.brick, r.lumber + q.lumber, r.ore + q.ore,
   r.grain + q.grain, r.wool + q.wool⟩

/-- Pointwise subtraction: removing a whole amounts dictionary. -/
def sub (r q : Resources) : Resources :=
  ⟨r.brick - q.brick, r.lumber - q.lumber, r.ore - q.ore,
   r.grain - q.grain, r.wool - q.wool⟩

/-- `sum(d.values())`. -/
def total (r : Resources) : Int :=
  r.brick + r.lumber + r.ore + r.grain + r.wool

/-- The amounts dictionary `{t: z}` holding a single key. -/
def single (t : ResourceType) (z : Int) : Resources :=
  bump {} t z

/-- `dict.fromkeys(ResourceType, z)`. -/
def const (z : Int) : Resources :=
  ⟨z, z, z, z, z⟩

end Resources

/-- `ROAD_COST = {LUMBER: 1, BRICK: 1}`. -/
def ROAD_COST : Resources := { lumber := 1, brick := 1 }

/-- `SETTLEMENT_COST = {LUMBER: 1, BRICK: 1, GRAIN: 1, WOOL: 1}`. -/
def SETTLEMENT_COST : Resources := { lumber := 1, brick := 1, grain := 1, wool := 1 }

/-- `CITY_COST = {GRAIN: 2, ORE: 3}`. -/
def CITY_COST : Resources := { grain := 2, ore := 3 }

/-- `DEVELOPMENT_CARD_COST = {GRAIN: 1, WOOL: 1, ORE: 1}`. -/
def DEVELOPMENT_CARD_COST : Resources := { grain := 1, wool := 1, ore := 1 }

/-- `@dataclass Player`: the per-player mutable state. -/
structure Player where
  color : Color
  resource_amounts : Resources := {}
  development_cards : List DevelopmentCard := []
  settlements_left : Int := 5
  cities_left : Int := 4
  roads_left : Int := 15
  harbor_types : List HarborType := []
  knights_played : Int := 0
  longest_road : Int := 0
  victory_points : Int := 0
deriving DecidableEq, Inhabited

/-- A total map from colors, embedding the per-color dictionaries
`_connected_edges`, `_connected_vertices`, `_building_vertices` (the Python
dictionaries hold only the participating colors; entries of absent colors
are never touched, so carrying all four is exact). -/
structure CMap (α : Type) where
  blue : α
  orange : α
  red : α
  white : α
deriving DecidableEq, Inhabited

namespace CMap

/-- Lookup by color. -/
def get (m : CMap α) : Color → α
  | .blue => m.blue
  | .orange => m.orange
  | .red => m.red
  | .white => m.white

/-- Pointwise update at one color. -/
def set (m : CMap α) : Color → α → CMap α
  | .blue, a => { m with blue := a }
  | .orange, a => { m with orange := a }
  | .red, a => { m with red := a }
  | .white, a => { m with white := a }

/-- `m[c] = f(m[c])`. -/
def modify (m : CMap α) (c : Color) (f : α → α) : CMap α :=
  m.set c (f (m.get c))

/-- The constant map. -/
def const (a : α) : CMap α := ⟨a, a, a, a⟩

end CMap

/-- Python `set.add`: append an element if it is absent (list model of a set). -/
def addIfAbsent [DecidableEq α] (l : List α) (x : α) : List α :=
  if x ∈ l then l else l ++ [x]

/-- Python `set.remove` / `list.remove`: drop the first occurrence. -/
def eraseFirst [DecidableEq α] : List α → α → List α
  | [], _ => []
  | y :: ys, x => if y = x then ys else y :: eraseFirst ys x

/-- Remove each listed element in turn (the undo loops that call
`set.remove` once per recorded element). -/
def eraseAll [DecidableEq α] (l : List α) (xs : List α) : List α :=
  xs.foldl eraseFirst l

/-- The loop `for x in xs: if x not in cur: added.append(x); cur.add(x)`;
returns the elements actually added together with the grown set. -/
def addNew [DecidableEq α] (cur : List α) (xs : List α) : List α × List α :=
  xs.foldl
    (fun p x => if x ∈ p.2 then p else (p.1 ++ [x], p.2 ++ [x]))
    ([], cur)

/-- Update the element at an index, if present (`l[i] = f(l[i])`). -/
def listModify (l : List α) (i : Nat) (f : α → α) : List α :=
  match l.get? i with
  | none => l
  | some a => l.set i (f a)

/-- Remove the first element of a list satisfying a predicate
(`list.remove(value)` on the development-card hand). -/
def removeFirstP : List DevelopmentCard → (DevelopmentCard → Bool) → List DevelopmentCard
  | [], _ => []
  | c :: cs, p => if p c then cs else c :: removeFirstP cs p

/-- `_CatanBoard._TILE_IDX_TO_ADJ_VERTEX_IDXS`. -/
def tileAdjVerticesTable : List (List Nat) :=
  [[0, 1, 30, 47, 28, 29],
   [2, 3, 32, 31, 30, 1],
   [4, 5, 6, 33, 32, 3],
   [6, 7, 8, 35, 34, 33],
   [8, 9, 10, 11, 36, 35],
   [36, 11, 12, 13, 38, 37],
   [38, 13, 14, 15, 16, 39],
   [40, 39, 16, 17, 18, 41],
   [42, 41, 18, 19, 20, 21],
   [44, 43, 42, 21, 22, 23],
   [26, 45, 44, 23, 24, 25],
   [28, 47, 46, 45, 26, 27],
   [30, 31, 48, 53, 46, 47],
   [32, 33, 34, 49, 48, 31],
   [34, 35, 36, 37, 50, 49],
   [50, 37, 38, 39, 40, 51],
   [52, 51, 40, 41, 42, 43],
   [46, 53, 52, 43, 44, 45],
   [48, 49, 50, 51, 52, 53]]

/-- `_CatanBoard._VERTEX_IDX_TO_ADJ_EDGE_IDXS`. -/
def vertexAdjEdgesTable : List (List Nat) :=
  [[0, 1], [1, 30, 2], [2, 3], [3, 31, 4], [4, 5], [5, 6], [6, 32, 7],
   [7, 8], [8, 33, 9], [9, 10], [10, 11], [11, 34, 12], [12, 13],
   [13, 35, 14], [14, 15], [15, 16], [16, 36, 17], [17, 18], [18, 37, 19],
   [19, 20], [20, 21], [21, 38, 22], [22, 23], [23, 39, 24], [24, 25],
   [25, 26], [26, 40, 27], [27, 28], [28, 41, 29], [29, 0], [42, 30, 43],
   [43, 44, 60], [44, 31, 45], [45, 32, 46], [61, 46, 47], [47, 33, 48],
   [49, 48, 34], [62, 49, 50], [51, 50, 35], [52, 51, 36], [53, 63, 52],
   [54, 53, 37], [38, 55, 54], [56, 55, 64], [57, 56, 39], [40, 58, 57],
   [59, 65, 58], [41, 42, 59], [66, 60, 67], [67, 61, 68], [68, 62, 69],
   [70, 69, 63], [71, 70, 64], [65, 66, 71]]

/-- `_CatanBoard._VERTEX_IDX_TO_HARBOR_IDX` as a lookup. -/
def vertexHarborIdx : Nat → Option Nat
  | 0 => some 0
  | 2 => some 1
  | 3 => some 1
  | 6 => some 2
  | 7 => some 2
  | 9 => some 3
  | 10 => some 3
  | 12 => some 4
  | 13 => some 4
  | 16 => some 5
  | 17 => some 5
  | 19 => some 6
  | 20 => some 6
  | 22 => some 7
  | 23 => some 7
  | 26 => some 8
  | 27 => some 8
  | 29 => some 0
  | _ => none

/-- `VERTEX_IDXS = range(54)`. -/
def VERTEX_IDXS : List Nat := List.range 54

/-- `EDGE_IDXS = range(72)`. -/
def EDGE_IDXS : List Nat := List.range 72

/-- `TILE_IDXS = range(19)`. -/
def TILE_IDXS : List Nat := List.range 19

/-- `TOKENS = [*range(2, 7), *range(8, 13)]`. -/
def TOKENS : List Nat := [2, 3, 4, 5, 6, 8, 9, 10, 11, 12]

/-- Edges adjacent to a vertex, read from the static table. -/
def vertexAdjEdges (v : Nat) : List Nat :=
  (vertexAdjEdgesTable.get? v).getD []

/-- Vertices adjacent to a tile, read from the static table. -/
def tileAdjVertices (t : Nat) : List Nat :=
  (tileAdjVerticesTable.get? t).getD []

/-- The construction `adj_vertex_idxs` of an edge: all vertices whose
edge list contains this edge, in ascending vertex order (mirrors the
comprehension in `_CatanBoard.__init__`). -/
def edgeAdjVertices (e : Nat) : List Nat :=
  VERTEX_IDXS.filter (fun v => e ∈ vertexAdjEdges v)

/-- `edge.adj_edges`: for each adjacent vertex in order, that vertex's
edges other than this one. -/
def edgeAdjEdges (e : Nat) : List Nat :=
  (edgeAdjVertices e).flatMap (fun v => (vertexAdjEdges v).filter (· ≠ e))

/-- `vertex.adj_tiles`: tiles whose vertex tuple contains this vertex. -/
def vertexAdjTiles (v : Nat) : List Nat :=
  TILE_IDXS.filter (fun t => v ∈ tileAdjVertices t)

/-- `vertex.adj_vertices`: for each adjacent edge, the vertices other than
this one whose edge list contains it (mirrors the nested comprehension). -/
def vertexAdjVertices (v : Nat) : List Nat :=
  (vertexAdjEdges v).flatMap
    (fun e => VERTEX_IDXS.filter (fun w => e ∈ vertexAdjEdges w ∧ w ≠ v))

/-- `BASE_TILE_TYPES`. -/
def BASE_TILE_TYPES : List TileType :=
  [.desert] ++ List.replicate 3 .hills ++ List.replicate 4 .forest ++
    List.replicate 3 .mountains ++ List.replicate 4 .fields ++
    List.replicate 4 .pasture

/-- `BASE_HARBOR_TYPES`. -/
def BASE_HARBOR_TYPES : List HarborType :=
  allHarborTypes ++ List.replicate 3 .generic

/-- `BASE_DEVELOPMENT_CARD_TYPES`. -/
def BASE_DEVELOPMENT_CARD_TYPES : List DevelopmentCardType :=
  List.replicate 14 .knight ++ List.replicate 2 .roadBuilding ++
    List.replicate 2 .yearOfPlenty ++ List.replicate 2 .monopoly ++
    List.replicate 5 .victoryPoint

/-- The action tuples the engine consumes, mirroring the `Action` enum
together with each action's `extra` payload as dispatched in
`Catan.do_action` (the unimplemented domestic trade and the no-op
victory-point dispatch are not modelled). -/
inductive Act where
  | endTurn
  | buildSetUp (vertexIdx edgeIdx : Nat)
  | produceResources (token : Nat)
  | discardHalf (color : Color) (amounts : List Int)
  | moveRobber (tileIdx : Nat) (colorToTakeFrom : Option Color)
  | playKnight (tileIdx : Nat) (colorToTakeFrom : Option Color)
  | playRoadBuilding (edgeIdx1 : Nat) (edgeIdx2 : Option Nat)
  | playYearOfPlenty (r1 : ResourceType) (r2 : Option ResourceType)
  | playMonopoly (r : ResourceType)
  | tradeMaritime (rOut rIn : ResourceType)
  | buildRoad (edgeIdx : Nat)
  | buildSettlement (vertexIdx : Nat)
  | buildCity (vertexIdx : Nat)
  | buyDevelopmentCard
deriving DecidableEq, Inhabited

/-- The exception taxonomy of the engine. -/
inductive Err where
  | buildLocation
  | developmentCard
  | invalidResources
  | notEnoughGameCards
  | notEnoughPieces
  | phase
  | robber
  | value
deriving DecidableEq, Inhabited

/-- The data `__build_road` appends to the current action-stack record:
the edge, the connected-edge and connected-vertex indices newly added,
the player's previous longest road, and the longest-road-bonus transfer. -/
structure RoadSave where
  edge : Nat
  addedConnectedEdges : List Nat
  addedConnectedVertices : List Nat
  prevLongestRoad : Int
  becameLongestRoadPlayer : Bool
  prevLongestRoadPlayer : Option Color
deriving DecidableEq, Inhabited

/-- The data `__build_settlement` appends to the record. -/
structure SettleSave where
  vertex : Nat
  addedDistanceRuleVertices : List Nat
  addedHarborType : Option HarborType
deriving DecidableEq, Inhabited

/-- The data `_end_turn` appends to the record: previous counters, the
positions (in the ending player's hand) of cards whose playable flag was
flipped, and whether the order was reversed. -/
structure EndTurnSave where
  turnsThatRound : Nat
  prevRound : Nat
  flippedCardIdxs : List Nat
  flippedOrder : Bool
deriving DecidableEq, Inhabited

/-- The per-action saved inverse data pushed by the handlers
(`self._action_stack[-1].append(...)` calls).  Players recorded by the
source as object references are recorded here by color, which is a
bijection because player colors are validated unique at construction. -/
inductive Saved where
  | endTurn (e : EndTurnSave)
  | buildSetUp (settle : SettleSave) (road : RoadSave) (e : EndTurnSave)
      (secondRound : Bool) (res : Resources)
  | produceResources (transfers : List (Color × Resources))
  | discardHalf (color : Color) (res : Resources)
  | moveRobber (tookFrom : Option Color) (tookType : Option ResourceType)
      (prevRobberTile : Nat)
  | playKnight (tookFrom : Option Color) (tookType : Option ResourceType)
      (prevRobberTile : Nat) (becameLargestArmy : Bool)
      (prevLargestArmyPlayer : Option Color)
  | playRoadBuilding (saves : List RoadSave)
  | playYearOfPlenty (res : Resources)
  | playMonopoly (transfers : List (Color × Resources))
  | tradeMaritime (resOut resIn : Resources)
  | buildRoad (save : RoadSave)
  | buildSettlement (save : SettleSave)
  | buildCity (vertex : Nat)
  | buyDevelopmentCard (card : DevelopmentCard)
deriving DecidableEq, Inhabited

/-- One `_action_stack` record: the `[action, extra]` shell pushed by
`do_action` plus, when the handler ran to completion, the saved inverse
data (`none` marks a record whose handler raised after the shell was
pushed). -/
abbrev StackEntry := Act × Option Saved

/-- The mutable state of a `Catan` instance.  Board lists are indexed by
tile/vertex/edge index; `edges` holds each edge's road color, `vertices`
each vertex's building.  `action_stack` and `development_cards` are
Python lists popped from the back and are stored here with their top at
the head. -/
structure GameState where
  edges : List (Option Color)
  vertices : List (Option Building)
  tile_types : List TileType
  has_robber : List Bool
  robber_tile : Nat
  tokens : List (Option Nat)
  harbor_types : List HarborType
  players : List Player
  resource_amounts : Resources
  development_cards : List DevelopmentCard
  largest_army_player : Option Color
  longest_road_player : Option Color
  round : Nat
  turns_this_round : Nat
  connected_edges : CMap (List Nat)
  connected_vertices : CMap (List Nat)
  distance_rule_vertices : List Nat
  building_vertices : CMap (List Nat)
  action_stack : List StackEntry
deriving DecidableEq, Inhabited

namespace GameState

/-- `Catan.turn`: the player whose turn it is (`self.players[0]`). -/
def turn (s : GameState) : Player :=
  s.players.headI

/-- `Catan.is_set_up`: `self.round <= 2`. -/
def is_set_up (s : GameState) : Bool :=
  s.round ≤ 2

/-- `Catan.winner`: the first player with at least 10 victory points. -/
def winner (s : GameState) : Option Color :=
  (s.players.find? (fun p => p.victory_points ≥ 10)).map (·.color)

/-- `Catan.is_game_over`. -/
def is_game_over (s : GameState) : Bool :=
  s.winner.isSome

/-- The road on an edge (`self.edges[e].road`), as its color. -/
def edgeRoad (s : GameState) (e : Nat) : Option Color :=
  (s.edges.get? e).getD none

/-- The building on a vertex (`self.vertices[v].building`). -/
def vertexBuilding (s : GameState) (v : Nat) : Option Building :=
  (s.vertices.get? v).getD none

/-- A vertex's harbor type (`self.vertices[v].harbor_type`). -/
def vertexHarbor (s : GameState) (v : Nat) : Option HarborType :=
  match vertexHarborIdx v with
  | some i => s.harbor_types.get? i
  | none => none

/-- A tile's `has_robber` flag. -/
def tileHasRobber (s : GameState) (t : Nat) : Bool :=
  (s.has_robber.get? t).getD false

/-- A tile's terrain type. -/
def tileType (s : GameState) (t : Nat) : TileType :=
  (s.tile_types.get? t).getD .desert

/-- `self.token_to_tiles[token]`: tiles carrying the token, in index order. -/
def tilesWithToken (s : GameState) (token : Nat) : List Nat :=
  TILE_IDXS.filter (fun t => s.tokens.get? t = some (some token))

/-- The index of the player of a color, mirroring the
`_color_to_player` dictionary (colors are unique by construction). -/
def playerIdx? (s : GameState) (c : Color) : Option Nat :=
  s.players.findIdx? (fun p => p.color = c)

/-- Membership test `color in self._color_to_player`. -/
def hasColor (s : GameState) (c : Color) : Bool :=
  (s.playerIdx? c).isSome

/-- The player of a color, `self._color_to_player[color]`. -/
def playerOf? (s : GameState) (c : Color) : Option Player :=
  s.players.find? (fun p => p.color = c)

/-- Mutate the player at a list index (a Python mutation of the shared
`Player` object). -/
def updatePlayerAt (s : GameState) (i : Nat) (f : Player → Player) : GameState :=
  { s with players := listModify s.players i f }

/-- Mutate the current player (`self.turn`, the head of the list). -/
def updateTurn (s : GameState) (f : Player → Player) : GameState :=
  s.updatePlayerAt 0 f

/-- Mutate the player of a color (the object `self._color_to_player[c]`). -/
def updatePlayerC (s : GameState) (c : Color) (f : Player → Player) : GameState :=
  match s.playerIdx? c with
  | some i => s.updatePlayerAt i f
  | none => s

/-- Write an edge's road. -/
def setEdge (s : GameState) (e : Nat) (r : Option Color) : GameState :=
  { s with edges := s.edges.set e r }

/-- Write a vertex's building. -/
def setVertex (s : GameState) (v : Nat) (b : Option Building) : GameState :=
  { s with vertices := s.vertices.set v b }

/-- Write a tile's `has_robber` flag. -/
def setRobberFlag (s : GameState) (t : Nat) (b : Bool) : GameState :=
  { s with has_robber := s.has_robber.set t b }

end GameState

/-- One side of a resource transfer: the bank (`self`) or the player at a
list index (the `Player` object the source passes around). -/
inductive Party where
  | bank
  | player (i : Nat)
deriving DecidableEq

/-- Apply a function to a party's resource table. -/
def applyParty (s : GameState) (p : Party) (f : Resources → Resources) : GameState :=
  match p with
  | .bank => { s with resource_amounts := f s.resource_amounts }
  | .player i =>
      s.updatePlayerAt i (fun pl => { pl with resource_amounts := f pl.resource_amounts })

/-- `Catan._transfer_resources`: subtract the amounts dictionary from the
giving party and add it to the receiving party. -/
def transfer_resources (s : GameState) (pfrom pto : Party) (ra : Resources) : GameState :=
  applyParty (applyParty s pfrom (fun r => r.sub ra)) pto (fun r => r.add ra)

/-- `Catan._end_turn`: advance counters, flip the ending player's
unplayable non-victory-point cards to playable, rotate the player order,
and reverse it at the set-up boundaries.  Returns the new state together
with the record the source appends to the action stack (flipped cards
are recorded by their positions in the ending player's hand; the source
records the card objects themselves, which is equivalent here because
undo restores flags before any later mutation of the hand is replayed). -/
def end_turn (s : GameState) : GameState × EndTurnSave :=
  let turnsThatRound := s.turns_this_round
  let prevRound := s.round
  let t1 := s.turns_this_round + 1
  let tr : Nat × Nat := if t1 = s.players.length then (0, s.round + 1) else (t1, s.round)
  let hand := s.turn.development_cards
  let flipped : DevelopmentCard → Bool := fun c =>
    c.development_card_type ≠ DevelopmentCardType.victoryPoint && !c.playable
  let flippedIdxs := (List.range hand.length).filter
    (fun i => ((hand.get? i).map flipped).getD false)
  let s1 := s.updateTurn (fun p =>
    { p with development_cards :=
        p.development_cards.map (fun c => if flipped c then { c with playable := true } else c) })
  let players1 := s1.players.drop 1 ++ s1.players.take 1
  let flipOrder : Bool := tr.1 = 0 && (tr.2 = 2 || tr.2 = 3)
  let players2 := if flipOrder then players1.reverse else players1
  (⟨{ s1 with players := players2, turns_this_round := tr.1, round := tr.2 },
    ⟨turnsThatRound, prevRound, flippedIdxs, flipOrder⟩⟩ : GameState × EndTurnSave)

/-- `Catan._undo_end_turn`: reverse the order flip, rotate back, clear the
recorded playable flags, and restore the counters. -/
def undo_end_turn (s : GameState) (e : EndTurnSave) : GameState :=
  let players1 := if e.flippedOrder then s.players.reverse else s.players
  let players2 := players1.drop (players1.length - 1) ++ players1.take (players1.length - 1)
  let s1 := { s with players := players2 }
  let unflip : List DevelopmentCard → List DevelopmentCard := fun hand =>
    e.flippedCardIdxs.foldl
      (fun h i => listModify h i (fun c => { c with playable := false })) hand
  let s2 := s1.updateTurn (fun p => { p with development_cards := unflip p.development_cards })
  { s2 with round := e.prevRound, turns_this_round := e.turnsThatRound }

/-- `Catan._Catan__build_settlement` (the private placement step): place
the settlement, extend the distance-rule set, grant the victory point and
any new harbor, and return the data recorded for undo. -/
def place_settlement (s : GameState) (v : Nat) : GameState × SettleSave :=
  let col := s.turn.color
  let s1 := s.updateTurn (fun p => { p with settlements_left := p.settlements_left - 1 })
  let s2 := s1.setVertex v (some ⟨col, .settlement⟩)
  let s3 := { s2 with building_vertices := s2.building_vertices.modify col (addIfAbsent · v) }
  let addedD := addNew s3.distance_rule_vertices (vertexAdjVertices v)
  let s4 := { s3 with distance_rule_vertices := addedD.2 }
  let s5 := s4.updateTurn (fun p => { p with victory_points := p.victory_points + 1 })
  let addedHarbor : Option HarborType :=
    match s5.vertexHarbor v with
    | some h => if h ∈ s5.turn.harbor_types then none else some h
    | none => none
  let s6 :=
    match addedHarbor with
    | some h => s5.updateTurn (fun p => { p with harbor_types := p.harbor_types ++ [h] })
    | none => s5
  (s6, ⟨v, addedD.1, addedHarbor⟩)

/-- `Catan._get_longest_road_from_edge`: the recursive depth-first count.
The `visited` set is shared down and across sibling recursive calls
exactly as the mutated Python set is, so it is threaded through the fold;
`fuel` bounds the recursion depth and every actual call receives more
fuel than there are edges, which the Python recursion never exceeds
because each call marks a previously unvisited edge. -/
def dfsRoad (s : GameState) (col : Color) :
    Nat → Nat → Option Nat → List Nat → Int × List Nat
  | 0, e, _, visited => (1, addIfAbsent visited e)
  | fuel + 1, e, prev, visited =>
    let visited := addIfAbsent visited e
    let validVertices := (edgeAdjVertices e).filter (fun v =>
      (match prev with
       | none => true
       | some pe => v ∉ edgeAdjVertices pe) &&
      (match s.vertexBuilding v with
       | none => true
       | some b => b.color = col))
    let cands := validVertices.flatMap (fun v =>
      (vertexAdjEdges v).filter (fun f => s.edgeRoad f = some col))
    let step := cands.foldl
      (fun (p : Int × List Nat) f =>
        if f ∈ p.2 then p
        else
          let r := dfsRoad s col fuel f (some e) p.2
          (max p.1 r.1, r.2))
      ((0 : Int), visited)
    (1 + step.1, step.2)

/-- The component scan in `__build_road`: a stack-driven walk over the
same-color component of the new edge, taking the maximum of the
depth-first count started (with a fresh visited set) from every edge
popped.  The Python list used as a stack is modelled with its top at the
head; `fuel` bounds the iteration count, which the walk never exceeds
because every push requires the pushed edge to be unvisited. -/
def componentMax (s : GameState) (col : Color) :
    Nat → List Nat → List Nat → Int → Int
  | 0, _, _, best => best
  | _ + 1, [], _, best => best
  | fuel + 1, e :: rest, visited, best =>
    let r := (dfsRoad s col 100 e none []).1
    let best := max best r
    let visited := addIfAbsent visited e
    let pushes := (edgeAdjEdges e).filter
      (fun f => s.edgeRoad f = some col && f ∉ visited)
    componentMax s col fuel (pushes.reverse ++ rest) visited best

/-- The longest-road bonus transfer of `__build_road`: charge the old
holder, record the new one, award the points. -/
def awardRoadBonus (s : GameState) (col : Color) (holder : Option Color) : GameState :=
  let s6 :=
    match holder with
    | some c' => s.updatePlayerC c' (fun p => { p with victory_points := p.victory_points - 2 })
    | none => s
  let s7 := { s6 with longest_road_player := some col }
  s7.updateTurn (fun p => { p with victory_points := p.victory_points + 2 })

/-- The largest-army bonus transfer of `_play_knight`: charge the old
holder, record the new one, award the points. -/
def awardArmyBonus (s : GameState) (col : Color) (holder : Option Color) : GameState :=
  let s4 :=
    match holder with
    | some c' => s.updatePlayerC c' (fun p => { p with victory_points := p.victory_points - 2 })
    | none => s
  let s5 := { s4 with largest_army_player := some col }
  s5.updateTurn (fun p => { p with victory_points := p.victory_points + 2 })

/-- `Catan._Catan__build_road` (the private placement step): place the
road, extend the connected-edge and connected-vertex sets, recompute the
longest road of the component of the new edge, raise the player's stored
`longest_road`, and arbitrate the longest-road bonus.  Returns the data
recorded for undo. -/
def place_road (s : GameState) (e : Nat) : GameState × RoadSave :=
  let col := s.turn.color
  let s1 := s.updateTurn (fun p => { p with roads_left := p.roads_left - 1 })
  let s2 := s1.setEdge e (some col)
  let addedCE := addNew (s2.connected_edges.get col) (edgeAdjEdges e)
  let s3 := { s2 with connected_edges := s2.connected_edges.set col addedCE.2 }
  let addedCV := addNew (s3.connected_vertices.get col) (edgeAdjVertices e)
  let s4 := { s3 with connected_vertices := s3.connected_vertices.set col addedCV.2 }
  let longest := componentMax s4 col 400 [e] [] 0
  let prevLongest := s4.turn.longest_road
  let s5 := s4.updateTurn (fun p => { p with longest_road := max p.longest_road longest })
  let newLen := s5.turn.longest_road
  let holder := s5.longest_road_player
  let holderLen := ((s5.playerOf? (holder.getD col)).map (·.longest_road)).getD 0
  let transferBonus : Bool :=
    newLen ≥ 5 &&
      (holder = none || (holder ≠ some col && newLen > holderLen))
  if transferBonus then
    (awardRoadBonus s5 col holder, ⟨e, addedCE.1, addedCV.1, prevLongest, true, holder⟩)
  else
    (s5, ⟨e, addedCE.1, addedCV.1, prevLongest, false, none⟩)

/-- The road-adjacency test of `_build_road`: some adjacent edge carries a
same-color road, or some adjacent vertex carries a building (of any kind)
of the player's color. -/
def roadConnectionOk (s : GameState) (col : Color) (e : Nat) : Bool :=
  (edgeAdjEdges e).any (fun f => s.edgeRoad f = some col) ||
    (edgeAdjVertices e).any (fun v =>
      match s.vertexBuilding v with
      | some b => b.color = col
      | none => false)

/-- `Catan._build_road`: validate the index, piece count, occupancy,
connection and resources (each raise precedes every mutation), then pay
the road cost and run the placement step. -/
def build_road (s : GameState) (e : Nat) : Except Err (GameState × RoadSave) :=
  if e ≥ 72 then .error .value
  else
  let player := s.turn
  if player.roads_left = 0 then .error .notEnoughPieces
  else if s.edgeRoad e ≠ none then .error .buildLocation
  else if ¬ roadConnectionOk s player.color e then .error .buildLocation
  else if ¬ (player.resource_amounts.get .lumber ≥ 1 ∧
             player.resource_amounts.get .brick ≥ 1) then .error .invalidResources
  else
    let s1 := transfer_resources s (.player 0) .bank ROAD_COST
    .ok (place_road s1 e)

/-- `Catan._build_settlement`: validate the index, piece count, occupancy,
tracked connection, distance rule and resources, then pay the settlement
cost and run the placement step. -/
def build_settlement (s : GameState) (v : Nat) : Except Err (GameState × SettleSave) :=
  if v ≥ 54 then .error .value
  else
  let player := s.turn
  if player.settlements_left = 0 then .error .notEnoughPieces
  else if s.vertexBuilding v ≠ none then .error .buildLocation
  else if v ∉ s.connected_vertices.get player.color then .error .buildLocation
  else if v ∈ s.distance_rule_vertices then .error .buildLocation
  else if ¬ (player.resource_amounts.get .lumber ≥ 1 ∧
             player.resource_amounts.get .brick ≥ 1 ∧
             player.resource_amounts.get .grain ≥ 1 ∧
             player.resource_amounts.get .wool ≥ 1) then .error .invalidResources
  else
    let s1 := transfer_resources s (.player 0) .bank SETTLEMENT_COST
    .ok (place_settlement s1 v)

/-- `Catan._build_city`: validate the index, piece count, the presence of
the player's own settlement and the resources, then pay the city cost,
return the settlement piece, upgrade the building and grant the point. -/
def build_city (s : GameState) (v : Nat) : Except Err (GameState × Nat) :=
  if v ≥ 54 then .error .value
  else
  let player := s.turn
  if player.cities_left = 0 then .error .notEnoughPieces
  else if s.vertexBuilding v ≠ some ⟨player.color, .settlement⟩ then .error .buildLocation
  else if ¬ (player.resource_amounts.get .grain ≥ 2 ∧
             player.resource_amounts.get .ore ≥ 3) then .error .invalidResources
  else
    let s1 := transfer_resources s (.player 0) .bank CITY_COST
    let s2 := s1.updateTurn (fun p =>
      { p with settlements_left := p.settlements_left + 1, cities_left := p.cities_left - 1 })
    let upgraded := listModify s2.vertices v (Option.map (fun b => { b with building_type := .city }))
    let s3 := { s2 with vertices := upgraded }
    let s4 := s3.updateTurn (fun p => { p with victory_points := p.victory_points + 1 })
    .ok (s4, v)

/-- `Catan._build_set_up`: validate indices, phase, occupancy, the
distance rule (directly against neighbouring buildings) and
vertex-adjacency of the edge; then place the settlement and the road,
grant the round-2 starting resources, and end the turn. -/
def build_set_up (s : GameState) (v e : Nat) :
    Except Err (GameState × SettleSave × RoadSave × EndTurnSave × Bool × Resources) :=
  if v ≥ 54 then .error .value
  else if e ≥ 72 then .error .value
  else if ¬ s.is_set_up then .error .phase
  else if s.vertexBuilding v ≠ none then .error .buildLocation
  else if ¬ (vertexAdjVertices v).all (fun w => s.vertexBuilding w = none) then
    .error .buildLocation
  else if s.edgeRoad e ≠ none then .error .buildLocation
  else if e ∉ vertexAdjEdges v then .error .buildLocation
  else
    let ps := place_settlement s v
    let pr := place_road ps.1 e
    let secondRound : Bool := pr.1.round = 2
    let res : Resources :=
      if secondRound then
        (vertexAdjTiles v).foldl
          (fun r t => if pr.1.tileType t ≠ .desert then r.bump (pr.1.tileType t).res 1 else r)
          {}
      else {}
    let s3 := transfer_resources pr.1 .bank (.player 0) res
    let et := end_turn s3
    .ok (et.1, ps.2, pr.2, et.2, secondRound, res)

/-- `Catan._buy_development_card`: validate deck and resources, pay the
cost, move the top deck card into the hand, and count a victory-point
card immediately. -/
def buy_development_card (s : GameState) : Except Err (GameState × DevelopmentCard) :=
  match s.development_cards with
  | [] => .error .notEnoughGameCards
  | card :: deckRest =>
    let player := s.turn
    if ¬ (player.resource_amounts.get .grain ≥ 1 ∧
          player.resource_amounts.get .wool ≥ 1 ∧
          player.resource_amounts.get .ore ≥ 1) then .error .invalidResources
    else
      let s1 := transfer_resources s (.player 0) .bank DEVELOPMENT_CARD_COST
      let s2 := { s1 with development_cards := deckRest }
      let s3 := s2.updateTurn (fun p =>
        { p with development_cards := p.development_cards ++ [card] })
      let s4 :=
        if card.development_card_type = .victoryPoint then
          s3.updateTurn (fun p => { p with victory_points := p.victory_points + 1 })
        else s3
      .ok (s4, card)

/-- `Catan._discard_half`: validate the color, the discarded total
(`sum(amounts)` against half the hand, rounded down) and per-type
sufficiency over `zip(ResourceType, amounts)`, then transfer to the bank. -/
def discard_half (s : GameState) (c : Color) (amounts : List Int) :
    Except Err (GameState × Color × Resources) :=
  match s.playerIdx? c with
  | none => .error .value
  | some i =>
    let player := (s.players.get? i).getD default
    if amounts.sum ≠ Int.fdiv player.resource_amounts.total 2 then .error .value
    else
      let pairs := resourceTypes.zip amounts
      if ¬ pairs.all (fun q => player.resource_amounts.get q.1 ≥ q.2) then .error .value
      else
        let res := pairs.foldl (fun r q => r.set q.1 q.2) {}
        .ok (transfer_resources s (.player i) .bank res, c, res)

/-- `Catan._maritime_trade`: reject trading a type for itself or an
exhausted bank type, compute the 2/3/4 harbor rate, check the balance,
and perform the two transfers. -/
def maritime_trade (s : GameState) (rOut rIn : ResourceType) :
    Except Err (GameState × Resources × Resources) :=
  if rOut = rIn then .error .value
  else if s.resource_amounts.get rIn = 0 then .error .notEnoughGameCards
  else
    let player := s.turn
    let rate : Int :=
      if rOut.harbor ∈ player.harbor_types then 2
      else if HarborType.generic ∈ player.harbor_types then 3
      else 4
    if player.resource_amounts.get rOut < rate then .error .invalidResources
    else
      let out := Resources.single rOut rate
      let inn := Resources.single rIn 1
      let s1 := transfer_resources s (.player 0) .bank out
      let s2 := transfer_resources s1 .bank (.player 0) inn
      .ok (s2, out, inn)

/-- The opponent colors with a building on a tile
(`colors_on_tile` in `_move_robber` and `legal_robber_moves`). -/
def colorsOnTile (s : GameState) (t : Nat) (mover : Color) : List Color :=
  (tileAdjVertices t).filterMap (fun v =>
    match s.vertexBuilding v with
    | some b => if b.color ≠ mover then some b.color else none
    | none => none)

/-- Whether the player of a color holds any resource (the
`any(amount > 0 ...)` scans of `_move_robber`). -/
def victimHasRes (s : GameState) (c : Color) : Bool :=
  match s.playerOf? c with
  | some p => resourceTypes.any (fun rt => p.resource_amounts.get rt > 0)
  | none => false

/-- The mutation tail of `Catan._move_robber` (the robber relocation that
follows the validations and the optional steal), shared by its branches:
record the previous tile, clear and set the `has_robber` flags, and move
`robber_tile`. -/
def finishRobberMove (s : GameState) (tookFrom : Option Color)
    (tookType : Option ResourceType) (t : Nat) :
    GameState × Option Color × Option ResourceType × Nat :=
  let prevTile := s.robber_tile
  let s2 := s.setRobberFlag prevTile false
  let s3 := s2.setRobberFlag t true
  ({ s3 with robber_tile := t }, tookFrom, tookType, prevTile)

/-- `Catan._move_robber`: validate the indices, the victim choice and the
robber target, optionally steal one resource (the weighted random draw is
the `pick` parameter, which the source draws only from types the victim
holds), and move the robber.  Every raise precedes every mutation. -/
def move_robber (pick : ResourceType) (s : GameState) (t : Nat)
    (victim : Option Color) :
    Except Err (GameState × Option Color × Option ResourceType × Nat) :=
  if t ≥ 19 then .error .value
  else if victim.any (fun c => ¬ s.hasColor c) then .error .value
  else if victim = some s.turn.color then .error .value
  else if t = s.robber_tile then .error .robber
  else
    match victim with
    | some c =>
      if c ∉ colorsOnTile s t s.turn.color then .error .value
      else if resourceTypes.any (fun rt =>
          ((s.playerOf? c).getD default).resource_amounts.get rt > 0) then
        .ok (finishRobberMove
          (transfer_resources s (.player ((s.playerIdx? c).getD s.players.length))
            (.player 0) (.single pick 1))
          (some c) (some pick) t)
      else .ok (finishRobberMove s none none t)
    | none =>
      if (colorsOnTile s t s.turn.color).any (fun c => victimHasRes s c) then
        .error .value
      else .ok (finishRobberMove s none none t)

/-- `Catan._play_knight`: require a playable knight, move the robber
(sharing its whole contract), consume the card, count the knight, and
arbitrate the largest-army bonus. -/
def play_knight (pick : ResourceType) (s : GameState) (t : Nat)
    (victim : Option Color) :
    Except Err (GameState × Option Color × Option ResourceType × Nat × Bool × Option Color) :=
  if (⟨.knight, true⟩ : DevelopmentCard) ∉ s.turn.development_cards then
    .error .developmentCard
  else
    match move_robber pick s t victim with
    | .error err => .error err
    | .ok (s1, tookFrom, tookType, prevTile) =>
      let s2 := s1.updateTurn (fun p =>
        { p with development_cards := removeFirstP p.development_cards (· = ⟨.knight, true⟩) })
      let s3 := s2.updateTurn (fun p => { p with knights_played := p.knights_played + 1 })
      let newCount := s3.turn.knights_played
      let col := s3.turn.color
      let holder := s3.largest_army_player
      let holderCount := ((s3.playerOf? (holder.getD col)).map (·.knights_played)).getD 0
      let transferBonus : Bool :=
        newCount ≥ 3 &&
          (holder = none || (holder ≠ some col && newCount > holderCount))
      if transferBonus then
        .ok (awardArmyBonus s3 col holder, tookFrom, tookType, prevTile, true, holder)
      else
        .ok (s3, tookFrom, tookType, prevTile, false, none)

/-- `Catan._play_monopoly`: require a playable monopoly, consume it, and
pull every other player's whole holding of the chosen type. -/
def play_monopoly (s : GameState) (r : ResourceType) :
    Except Err (GameState × List (Color × Resources)) :=
  let player := s.turn
  if (⟨.monopoly, true⟩ : DevelopmentCard) ∉ player.development_cards then
    .error .developmentCard
  else
    let s1 := s.updateTurn (fun p =>
      { p with development_cards := removeFirstP p.development_cards (· = ⟨.monopoly, true⟩) })
    let idxs := (List.range s1.players.length).drop 1
    let step := idxs.foldl
      (fun (q : GameState × List (Color × Resources)) i =>
        let other := (q.1.players.get? i).getD default
        let res := Resources.single r (other.resource_amounts.get r)
        (transfer_resources q.1 (.player i) (.player 0) res,
         q.2 ++ [(other.color, res)]))
      (s1, [])
    .ok step

/-- `Catan._play_road_building`: validate indices, the playable card, the
piece count (one or two edges must exactly use the remaining supply when
fewer than two remain), and both edges' occupancy/adjacency against the
pre-build state (the second edge may connect through the first), then
consume the card and run one or two placement steps. -/
def play_road_building (s : GameState) (e1 : Nat) (e2 : Option Nat) :
    Except Err (GameState × List RoadSave) :=
  if e1 ≥ 72 then .error .value
  else if e2.any (fun e => e ≥ 72) then .error .value
  else
  let player := s.turn
  if (⟨.roadBuilding, true⟩ : DevelopmentCard) ∉ player.development_cards then
    .error .developmentCard
  else if player.roads_left = 0 then .error .notEnoughPieces
  else if (e2 = none) ≠ (player.roads_left = 1) then .error .value
  else if s.edgeRoad e1 ≠ none then .error .buildLocation
  else if ¬ roadConnectionOk s player.color e1 then .error .buildLocation
  else if (match e2 with
           | some f =>
             s.edgeRoad f ≠ none ||
               ¬ ((edgeAdjEdges f).any (fun g => s.edgeRoad g = some player.color || g = e1) ||
                  (edgeAdjVertices f).any (fun v =>
                    match s.vertexBuilding v with
                    | some b => b.color = player.color
                    | none => false))
           | none => false : Bool) then .error .buildLocation
  else
    let s1 := s.updateTurn (fun p =>
      { p with development_cards :=
          removeFirstP p.development_cards (· = ⟨.roadBuilding, true⟩) })
    let pr1 := place_road s1 e1
    match e2 with
    | some f =>
      let pr2 := place_road pr1.1 f
      .ok (pr2.1, [pr1.2, pr2.2])
    | none => .ok (pr1.1, [pr1.2])

/-- `Catan._play_year_of_plenty`: require a playable card, force a single
draw exactly when the bank holds one card in total, check bank supply of
the requested type(s), consume the card and grant the resources. -/
def play_year_of_plenty (s : GameState) (r1 : ResourceType) (r2 : Option ResourceType) :
    Except Err (GameState × Resources) :=
  let player := s.turn
  if (⟨.yearOfPlenty, true⟩ : DevelopmentCard) ∉ player.development_cards then
    .error .developmentCard
  else if (r2 = none) ≠ (s.resource_amounts.total = 1) then .error .value
  else
    let ra := match r2 with
      | some r => (Resources.single r1 1).bump r 1
      | none => Resources.single r1 1
    if ¬ (s.resource_amounts.get r1 ≥ ra.get r1 ∧
          (∀ r ∈ r2.toList, s.resource_amounts.get r ≥ ra.get r)) then
      .error .notEnoughGameCards
    else
      let s1 := s.updateTurn (fun p =>
        { p with development_cards :=
            removeFirstP p.development_cards (· = ⟨.yearOfPlenty, true⟩) })
      .ok (transfer_resources s1 .bank (.player 0) ra, ra)

/-- The accumulation `color_amounts[building.color] += yield` of
`_produce_resources`: an insertion-ordered association list standing for
the `defaultdict(int)`. -/
def assocBump (l : List (Color × Int)) (c : Color) (z : Int) : List (Color × Int) :=
  match l with
  | [] => [(c, z)]
  | (c', z') :: rest =>
    if c' = c then (c', z' + z) :: rest else (c', z') :: assocBump rest c z

/-- The per-tile demand table of `_produce_resources`: one per settlement,
two per city, accumulated over the tile's adjacent vertices. -/
def tileColorAmounts (s : GameState) (t : Nat) : List (Color × Int) :=
  (tileAdjVertices t).foldl
    (fun l v =>
      match s.vertexBuilding v with
      | some b => assocBump l b.color (if b.building_type = .city then 2 else 1)
      | none => l)
    []

/-- `Catan._produce_resources`: for each non-robbed tile carrying the
token (in tile-index order, each seeing the bank as the previous tile
left it), skip the tile entirely when the bank cannot cover the total
demand and more than one color claims it, and otherwise give every
claimant `min(amount, bank-before-this-tile)` of the tile's resource. -/
def produce_resources (s : GameState) (token : Nat) :
    Except Err (GameState × List (Color × Resources)) :=
  if token ∉ TOKENS then .error .value
  else
    let step := (s.tilesWithToken token).foldl
      (fun (q : GameState × List (Color × Resources)) t =>
        if q.1.tileHasRobber t then q
        else
          let rt := (q.1.tileType t).res
          let colorAmounts := tileColorAmounts q.1 t
          let left := q.1.resource_amounts.get rt
          if left < (colorAmounts.map (·.2)).sum ∧ colorAmounts.length > 1 then q
          else
            colorAmounts.foldl
              (fun (q' : GameState × List (Color × Resources)) ca =>
                let i := (q'.1.playerIdx? ca.1).getD q'.1.players.length
                let res := Resources.single rt (min ca.2 left)
                (transfer_resources q'.1 .bank (.player i) res, q'.2 ++ [(ca.1, res)]))
              q)
      (s, [])
    .ok step

/-- The `(err, state)` result of a failed `do_action` call: when
`save_state` is set the `[action, extra]` shell has already been pushed,
so the failing call leaves that partial record on the stack. -/
def pushFail (save_state : Bool) (s : GameState) (a : Act) (err : Err) : Err × GameState :=
  (err, if save_state then { s with action_stack := (a, none) :: s.action_stack } else s)

/-- The state of a successful `do_action` call: with `save_state` set the
completed record (shell plus the handler's saved inverse data) tops the
stack. -/
def pushOk (save_state : Bool) (s : GameState) (a : Act) (s1 : GameState)
    (saved : Saved) : GameState :=
  if save_state then { s1 with action_stack := (a, some saved) :: s.action_stack } else s1

/-- `Catan.do_action`: reject a phase mismatch before touching anything;
afterwards, when `save_state` is set, the `[action, extra]` shell is
pushed before the handler runs, so a handler failure leaves that partial
record on the stack (the error value carries the state the object is
left in).  On success the completed record holds the handler's saved
data. -/
def do_action (pick : ResourceType) (save_state : Bool) (s : GameState) (a : Act) :
    Except (Err × GameState) GameState :=
  if s.is_set_up ≠ (match a with | Act.buildSetUp _ _ => true | _ => false : Bool) then
    .error (.phase, s)
  else
    match a with
    | .endTurn =>
      let q := end_turn s
      .ok (pushOk save_state s .endTurn q.1 (.endTurn q.2))
    | .buildSetUp v e =>
      match build_set_up s v e with
      | .error err => .error (pushFail save_state s (.buildSetUp v e) err)
      | .ok q => .ok (pushOk save_state s (.buildSetUp v e) q.1
          (.buildSetUp q.2.1 q.2.2.1 q.2.2.2.1 q.2.2.2.2.1 q.2.2.2.2.2))
    | .produceResources token =>
      match produce_resources s token with
      | .error err => .error (pushFail save_state s (.produceResources token) err)
      | .ok q => .ok (pushOk save_state s (.produceResources token) q.1
          (.produceResources q.2))
    | .discardHalf c amounts =>
      match discard_half s c amounts with
      | .error err => .error (pushFail save_state s (.discardHalf c amounts) err)
      | .ok q => .ok (pushOk save_state s (.discardHalf c amounts) q.1
          (.discardHalf q.2.1 q.2.2))
    | .moveRobber t victim =>
      match move_robber pick s t victim with
      | .error err => .error (pushFail save_state s (.moveRobber t victim) err)
      | .ok q => .ok (pushOk save_state s (.moveRobber t victim) q.1
          (.moveRobber q.2.1 q.2.2.1 q.2.2.2))
    | .playKnight t victim =>
      match play_knight pick s t victim with
      | .error err => .error (pushFail save_state s (.playKnight t victim) err)
      | .ok q => .ok (pushOk save_state s (.playKnight t victim) q.1
          (.playKnight q.2.1 q.2.2.1 q.2.2.2.1 q.2.2.2.2.1 q.2.2.2.2.2))
    | .playRoadBuilding e1 e2 =>
      match play_road_building s e1 e2 with
      | .error err => .error (pushFail save_state s (.playRoadBuilding e1 e2) err)
      | .ok q => .ok (pushOk save_state s (.playRoadBuilding e1 e2) q.1
          (.playRoadBuilding q.2))
    | .playYearOfPlenty r1 r2 =>
      match play_year_of_plenty s r1 r2 with
      | .error err => .error (pushFail save_state s (.playYearOfPlenty r1 r2) err)
      | .ok q => .ok (pushOk save_state s (.playYearOfPlenty r1 r2) q.1
          (.playYearOfPlenty q.2))
    | .playMonopoly r =>
      match play_monopoly s r with
      | .error err => .error (pushFail save_state s (.playMonopoly r) err)
      | .ok q => .ok (pushOk save_state s (.playMonopoly r) q.1 (.playMonopoly q.2))
    | .tradeMaritime rOut rIn =>
      match maritime_trade s rOut rIn with
      | .error err => .error (pushFail save_state s (.tradeMaritime rOut rIn) err)
      | .ok q => .ok (pushOk save_state s (.tradeMaritime rOut rIn) q.1
          (.tradeMaritime q.2.1 q.2.2))
    | .buildRoad e =>
      match build_road s e with
      | .error err => .error (pushFail save_state s (.buildRoad e) err)
      | .ok q => .ok (pushOk save_state s (.buildRoad e) q.1 (.buildRoad q.2))
    | .buildSettlement v =>
      match build_settlement s v with
      | .error err => .error (pushFail save_state s (.buildSettlement v) err)
      | .ok q => .ok (pushOk save_state s (.buildSettlement v) q.1 (.buildSettlement q.2))
    | .buildCity v =>
      match build_city s v with
      | .error err => .error (pushFail save_state s (.buildCity v) err)
      | .ok q => .ok (pushOk save_state s (.buildCity v) q.1 (.buildCity q.2))
    | .buyDevelopmentCard =>
      match buy_development_card s with
      | .error err => .error (pushFail save_state s .buyDevelopmentCard err)
      | .ok q => .ok (pushOk save_state s .buyDevelopmentCard q.1 (.buyDevelopmentCard q.2))

/-- The undo of one `__build_road` record, shared by the BUILD_ROAD,
ROAD_BUILDING and BUILD_SET_UP branches of `undo_action` (the set-up
branch skips the bonus block, which its call sites control with
`withBonus`). -/
def undoRoadSave (s : GameState) (col : Color) (save : RoadSave)
    (withBonus : Bool) : GameState :=
  let s1 :=
    if withBonus && save.becameLongestRoadPlayer then
      let sA := s.updateTurn (fun p => { p with victory_points := p.victory_points - 2 })
      let sB := { sA with longest_road_player := save.prevLongestRoadPlayer }
      match save.prevLongestRoadPlayer with
      | some c' =>
        sB.updatePlayerC c' (fun p => { p with victory_points := p.victory_points + 2 })
      | none => sB
    else s
  let s2 := s1.updateTurn (fun p => { p with longest_road := save.prevLongestRoad })
  let ce := s2.connected_edges.modify col (eraseAll · save.addedConnectedEdges)
  let s3 := { s2 with connected_edges := ce }
  let cv := s3.connected_vertices.modify col (eraseAll · save.addedConnectedVertices)
  let s4 := { s3 with connected_vertices := cv }
  let s5 := s4.setEdge save.edge none
  s5.updateTurn (fun p => { p with roads_left := p.roads_left + 1 })

/-- The undo of one `__build_settlement` record, shared by the
BUILD_SETTLEMENT and BUILD_SET_UP branches of `undo_action`. -/
def undoSettleSave (s : GameState) (col : Color) (save : SettleSave) : GameState :=
  let s1 :=
    match save.addedHarborType with
    | some h => s.updateTurn (fun p => { p with harbor_types := eraseFirst p.harbor_types h })
    | none => s
  let s2 := s1.updateTurn (fun p => { p with victory_points := p.victory_points - 1 })
  let drv := eraseAll s2.distance_rule_vertices save.addedDistanceRuleVertices
  let s3 := { s2 with distance_rule_vertices := drv }
  let bv := s3.building_vertices.modify col (eraseFirst · save.vertex)
  let s4 := { s3 with building_vertices := bv }
  let s5 := s4.setVertex save.vertex none
  s5.updateTurn (fun p => { p with settlements_left := p.settlements_left + 1 })

/-- The robber-restoring steps shared by the MOVE_ROBBER and KNIGHT
branches of `undo_action`. -/
def undoRobberMove (s : GameState) (tookFrom : Option Color)
    (tookType : Option ResourceType) (prevTile : Nat) : GameState :=
  let s1 := s.setRobberFlag s.robber_tile false
  let s2 := { s1 with robber_tile := prevTile }
  let s3 := s2.setRobberFlag prevTile true
  match tookFrom, tookType with
  | some c, some rt =>
    let i := (s3.playerIdx? c).getD s3.players.length
    transfer_resources s3 (.player 0) (.player i) (.single rt 1)
  | _, _ => s3

/-- The largest-army-bonus restore of the KNIGHT branch of
`undo_action`. -/
def undoArmyBonus (s : GameState) (became : Bool) (prevHolder : Option Color) : GameState :=
  if became then
    let sA := s.updateTurn (fun p => { p with victory_points := p.victory_points - 2 })
    let sB := { sA with largest_army_player := prevHolder }
    match prevHolder with
    | some c' =>
      sB.updatePlayerC c' (fun p => { p with victory_points := p.victory_points + 2 })
    | none => sB
  else s

/-- `Catan.undo_action`: pop the most recent record and apply its exact
inverse; composite records are inverted in reverse order.  `none` models
the crashes of the source (popping an empty stack, or a record whose
handler never completed).  The source's BUILD_SET_UP branch leaves its
longest-road-bonus restore commented out, which this mirrors by passing
`withBonus := false` there. -/
def undo_action (s : GameState) : Option GameState :=
  match s.action_stack with
  | [] => none
  | (a, saved?) :: rest =>
    let s0 := { s with action_stack := rest }
    match a, saved? with
    | .endTurn, some (.endTurn e) => some (undo_end_turn s0 e)
    | .buildSetUp _ _, some (.buildSetUp settleSave roadSave endSave secondRound res) =>
      let s1 := undo_end_turn s0 endSave
      let s2 := if secondRound then transfer_resources s1 (.player 0) .bank res else s1
      let col := s2.turn.color
      let s3 := undoRoadSave s2 col roadSave false
      let s4 := undoSettleSave s3 col settleSave
      some s4
    | .produceResources _, some (.produceResources transfers) =>
      some (transfers.foldl
        (fun s' q =>
          let i := (s'.playerIdx? q.1).getD s'.players.length
          transfer_resources s' (.player i) .bank q.2)
        s0)
    | .discardHalf _ _, some (.discardHalf c res) =>
      let i := (s0.playerIdx? c).getD s0.players.length
      some (transfer_resources s0 .bank (.player i) res)
    | .moveRobber _ _, some (.moveRobber tookFrom tookType prevTile) =>
      some (undoRobberMove s0 tookFrom tookType prevTile)
    | .playKnight _ _, some (.playKnight tookFrom tookType prevTile became prevHolder) =>
      let s1 := undoArmyBonus s0 became prevHolder
      let s2 := s1.updateTurn (fun p => { p with knights_played := p.knights_played - 1 })
      let s3 := s2.updateTurn (fun p =>
        { p with development_cards := p.development_cards ++ [⟨.knight, true⟩] })
      some (undoRobberMove s3 tookFrom tookType prevTile)
    | .playRoadBuilding _ _, some (.playRoadBuilding saves) =>
      let col := s0.turn.color
      let s1 := saves.reverse.foldl (fun s' save => undoRoadSave s' col save true) s0
      some (s1.updateTurn (fun p =>
        { p with development_cards := p.development_cards ++ [⟨.roadBuilding, true⟩] }))
    | .playYearOfPlenty _ _, some (.playYearOfPlenty res) =>
      let s1 := transfer_resources s0 (.player 0) .bank res
      some (s1.updateTurn (fun p =>
        { p with development_cards := p.development_cards ++ [⟨.yearOfPlenty, true⟩] }))
    | .playMonopoly _, some (.playMonopoly transfers) =>
      let s1 := transfers.foldl
        (fun s' q =>
          let i := (s'.playerIdx? q.1).getD s'.players.length
          transfer_resources s' (.player 0) (.player i) q.2)
        s0
      some (s1.updateTurn (fun p =>
        { p with development_cards := p.development_cards ++ [⟨.monopoly, true⟩] }))
    | .tradeMaritime _ _, some (.tradeMaritime resOut resIn) =>
      let s1 := transfer_resources s0 .bank (.player 0) resOut
      some (transfer_resources s1 (.player 0) .bank resIn)
    | .buildRoad _, some (.buildRoad save) =>
      let col := s0.turn.color
      let s1 := undoRoadSave s0 col save true
      some (transfer_resources s1 .bank (.player 0) ROAD_COST)
    | .buildSettlement _, some (.buildSettlement save) =>
      let col := s0.turn.color
      let s1 := undoSettleSave s0 col save
      some (transfer_resources s1 .bank (.player 0) SETTLEMENT_COST)
    | .buildCity _, some (.buildCity v) =>
      let s1 := s0.updateTurn (fun p => { p with victory_points := p.victory_points - 1 })
      let downgraded :=
        listModify s1.vertices v (Option.map (fun b => { b with building_type := .settlement }))
      let s2 := { s1 with vertices := downgraded }
      let s3 := s2.updateTurn (fun p =>
        { p with cities_left := p.cities_left + 1, settlements_left := p.settlements_left - 1 })
      some (transfer_resources s3 .bank (.player 0) CITY_COST)
    | .buyDevelopmentCard, some (.buyDevelopmentCard card) =>
      let s1 :=
        if card.development_card_type = .victoryPoint then
          s0.updateTurn (fun p => { p with victory_points := p.victory_points - 1 })
        else s0
      let s2 := s1.updateTurn (fun p =>
        { p with development_cards := p.development_cards.dropLast })
      let s3 := { s2 with development_cards := card :: s2.development_cards }
      some (transfer_resources s3 .bank (.player 0) DEVELOPMENT_CARD_COST)
    | _, _ => none

/-- The colors a saved record transfers resources through on undo: the
undo is only meaningful when each still names a player (always true in a
real game, where the record was written by the forward action). -/
def savedColorsOk (s : GameState) : Saved → Prop
  | .produceResources transfers => ∀ q ∈ transfers, s.hasColor q.1
  | .discardHalf c _ => s.hasColor c
  | .moveRobber tookFrom _ _ => ∀ c, tookFrom = some c → s.hasColor c
  | .playKnight tookFrom _ _ _ _ => ∀ c, tookFrom = some c → s.hasColor c
  | .playMonopoly transfers => ∀ q ∈ transfers, s.hasColor q.1
  | _ => True

instance (s : GameState) (sv : Saved) : Decidable (savedColorsOk s sv) := by
  cases sv <;> (unfold savedColorsOk; infer_instance)

/-- `savedColorsOk` for the record `undo_action` is about to pop. -/
def stackHeadColorsOk (s : GameState) : Prop :=
  match s.action_stack with
  | (_, some sv) :: _ => savedColorsOk s sv
  | _ => True

instance (s : GameState) : Decidable (stackHeadColorsOk s) := by
  unfold stackHeadColorsOk
  rcases s.action_stack with _ | ⟨⟨a, _ | sv⟩, rest⟩ <;> dsimp only [] <;> infer_instance

/-- Deduplicate keeping first occurrences (the iteration over the Python
set `colors_on_tile`, whose order is unspecified). -/
def dedup [DecidableEq α] : List α → List α
  | [] => []
  | x :: xs => x :: dedup (xs.filter (· ≠ x))
termination_by l => l.length
decreasing_by
  simp only [List.length_cons]
  exact Nat.lt_succ_of_le (List.length_filter_le _ _)

/-- `Catan.legal_robber_moves`: for every tile other than the robber's,
either the no-victim move (when no opponent building touches the tile) or
one move per opponent color on the tile. -/
def legal_robber_moves (s : GameState) : List (Nat × Option Color) :=
  let mover := s.turn.color
  TILE_IDXS.flatMap (fun t =>
    if t = s.robber_tile then []
    else
      match dedup (colorsOnTile s t mover) with
      | [] => [(t, none)]
      | cs => cs.map (fun c => (t, some c)))

/-- The `no_resources` / `one_left_resource_type` scan of the
year-of-plenty branch of `legal_actions`, with its early exit. -/
def yopScan (bank : Resources) : List ResourceType → Bool → Option ResourceType →
    Bool × Option ResourceType
  | [], nr, ol => (nr, ol)
  | rt :: rest, nr, ol =>
    if bank.get rt > 0 then
      if ol ≠ none ∨ bank.get rt > 1 then (false, none)
      else yopScan bank rest false (some rt)
    else yopScan bank rest nr ol

/-- `Catan.legal_actions`: the enumeration of currently legal action
tuples outside the set-up phase, in the source's yield order. -/
def legal_actions (s : GameState) : List Act :=
  if s.is_set_up || s.is_game_over then []
  else
    let player := s.turn
    let col := player.color
    let validEdges := EDGE_IDXS.filter (fun e =>
      s.edgeRoad e = none && e ∈ s.connected_edges.get col)
    let cities : List Act :=
      if player.cities_left > 0 &&
          (player.resource_amounts.get .grain ≥ 2 && player.resource_amounts.get .ore ≥ 3) then
        (VERTEX_IDXS.filter (fun v =>
          s.vertexBuilding v = some ⟨col, .settlement⟩)).map Act.buildCity
      else []
    let settlements : List Act :=
      if player.settlements_left > 0 &&
          (player.resource_amounts.get .lumber ≥ 1 && player.resource_amounts.get .brick ≥ 1 &&
           player.resource_amounts.get .grain ≥ 1 && player.resource_amounts.get .wool ≥ 1) then
        (VERTEX_IDXS.filter (fun v =>
          s.vertexBuilding v = none && v ∉ s.distance_rule_vertices &&
            v ∈ s.connected_vertices.get col)).map Act.buildSettlement
      else []
    let buy : List Act :=
      if s.development_cards ≠ [] &&
          (player.resource_amounts.get .grain ≥ 1 && player.resource_amounts.get .wool ≥ 1 &&
           player.resource_amounts.get .ore ≥ 1) then
        [Act.buyDevelopmentCard]
      else []
    let roads : List Act :=
      if player.roads_left > 0 &&
          (player.resource_amounts.get .lumber ≥ 1 && player.resource_amounts.get .brick ≥ 1) then
        validEdges.map Act.buildRoad
      else []
    let devPlays : List Act :=
      player.development_cards.flatMap (fun card =>
        if ¬ card.playable then []
        else
          match card.development_card_type with
          | .knight =>
            (legal_robber_moves s).map (fun q => Act.playKnight q.1 q.2)
          | .roadBuilding =>
            if player.roads_left = 0 then []
            else
              validEdges.flatMap (fun e1 =>
                if player.roads_left = 1 then [Act.playRoadBuilding e1 none]
                else
                  validEdges.filterMap (fun e2 =>
                    if e1 = e2 then none else some (Act.playRoadBuilding e1 (some e2))))
          | .yearOfPlenty =>
            let scan := yopScan s.resource_amounts resourceTypes true none
            if scan.1 then []
            else
              match scan.2 with
              | some rt => [Act.playYearOfPlenty rt none]
              | none =>
                resourceTypes.flatMap (fun r1 =>
                  if s.resource_amounts.get r1 = 0 then []
                  else
                    resourceTypes.filterMap (fun r2 =>
                      if s.resource_amounts.get r2 >
                          (if r2 = r1 then 1 else 0) then
                        some (Act.playYearOfPlenty r1 (some r2))
                      else none))
          | .monopoly => resourceTypes.map Act.playMonopoly
          | .victoryPoint => [])
    let maritime : List Act :=
      resourceTypes.flatMap (fun rOut =>
        let rate : Int :=
          if rOut.harbor ∈ player.harbor_types then 2
          else if HarborType.generic ∈ player.harbor_types then 3
          else 4
        if player.resource_amounts.get rOut < rate then []
        else
          resourceTypes.filterMap (fun rIn =>
            if rIn = rOut ∨ s.resource_amounts.get rIn = 0 then none
            else some (Act.tradeMaritime rOut rIn)))
    cities ++ settlements ++ buy ++ roads ++ devPlays ++ [Act.endTurn] ++ maritime

/-- `BASE_TOKENS`. -/
def BASE_TOKENS : List (Option Nat) :=
  [some 5, some 2, some 6, some 3, some 8, some 10, some 9, some 12, some 11,
   some 4, some 8, some 10, some 9, some 4, some 5, some 6, some 3, some 11, none]

/-- The state `Catan.__init__` builds from explicit board data with
`shuffle_order=False`: empty board, robber on the desert, full bank, the
given development-card deck (listed top first: the source draws with
`list.pop()` from the back of its shuffled list), round 1, empty tracking
sets and an empty action stack. -/
def initialState (colors : List Color) (tts : List TileType)
    (toks : List (Option Nat)) (hts : List HarborType)
    (deckTypes : List DevelopmentCardType) : GameState where
  edges := List.replicate 72 none
  vertices := List.replicate 54 none
  tile_types := tts
  has_robber := tts.map (fun t => t = TileType.desert)
  robber_tile := tts.indexOf .desert
  tokens := toks
  harbor_types := hts
  players := colors.map (fun c => { color := c })
  resource_amounts := Resources.const 19
  development_cards := deckTypes.map (fun t => ⟨t, false⟩)
  largest_army_player := none
  longest_road_player := none
  round := 1
  turns_this_round := 0
  connected_edges := CMap.const []
  connected_vertices := CMap.const []
  distance_rule_vertices := []
  building_vertices := CMap.const []
  action_stack := []

/-- The validation `Catan.__init__` performs on explicitly supplied
colors, tiles, tokens and harbors, together with the deck being a
permutation of the base development cards (the source always shuffles
`BASE_DEVELOPMENT_CARD_TYPES`). -/
def validInit (colors : List Color) (tts : List TileType)
    (toks : List (Option Nat)) (hts : List HarborType)
    (deckTypes : List DevelopmentCardType) : Prop :=
  2 ≤ colors.length ∧ colors.length ≤ 4 ∧ colors.Nodup ∧
  tts.length = 19 ∧ (∀ tt, tts.count tt = BASE_TILE_TYPES.count tt) ∧
  toks.length = 19 ∧ (∀ tok ∈ TOKENS, toks.count (some tok) = BASE_TOKENS.count (some tok)) ∧
  toks.indexOf none = tts.indexOf .desert ∧
  hts.length = 9 ∧ (∀ h, hts.count h = BASE_HARBOR_TYPES.count h) ∧
  deckTypes.length = 25 ∧
  (∀ d, deckTypes.count d = BASE_DEVELOPMENT_CARD_TYPES.count d)

instance (colors : List Color) (tts : List TileType) (toks : List (Option Nat))
    (hts : List HarborType) (deckTypes : List DevelopmentCardType) :
    Decidable (validInit colors tts toks hts deckTypes) := by
  unfold validInit
  infer_instance

/-- The game states reachable through the engine: a validly constructed
game, followed by successful `do_action` calls and `undo_action` calls.
Undo requires the per-action inverse records, so actions are taken with
`save_state=True` (the discipline under which the engine's undo feature
is meaningful); the robber-steal draw `pick` is arbitrary. -/
inductive Reachable : GameState → Prop where
  | init (colors : List Color) (tts : List TileType) (toks : List (Option Nat))
      (hts : List HarborType) (deckTypes : List DevelopmentCardType) :
      validInit colors tts toks hts deckTypes →
      Reachable (initialState colors tts toks hts deckTypes)
  | step (s s' : GameState) (pick : ResourceType) (a : Act) : Reachable s →
      do_action pick true s a = .ok s' → Reachable s'
  | undo (s s' : GameState) : Reachable s → undo_action s = some s' → Reachable s'

/-- A concrete two-player game built from the unshuffled base layout,
used to evaluate the theorems on a real state. -/
def demoInit : GameState :=
  initialState [Color.blue, Color.orange] BASE_TILE_TYPES BASE_TOKENS
    BASE_HARBOR_TYPES BASE_DEVELOPMENT_CARD_TYPES

/-- `demoInit` after its first legal set-up placement (settlement on
vertex 7, road on edge 7), recorded for undo. -/
def demoAfterSetup : GameState :=
  (do_action ResourceType.brick true demoInit (Act.buildSetUp 7 7)).toOption.getD demoInit

/-- The stat the arbitration compares against: the holder's value, or 0
when there is no holder (never consulted in that case). -/
def holderStat (s : GameState) (holder : Option Color) (g : Player → Int) : Int :=
  ((holder.bind (fun c' => s.playerOf? c')).map g).getD 0

/-- The spec's bonus arbitration rule, written from its words: the
candidate qualifies at the threshold and takes the bonus only from a
strictly smaller holder, never from themselves and never on a tie. -/
def specBonusRule (threshold newStat holderStat : Int) (holder : Option Color)
    (col : Color) : Prop :=
  newStat ≥ threshold ∧ (holder = none ∨ (holder ≠ some col ∧ newStat > holderStat))

/-- The per-tile step of `_produce_resources` (the body of its tile
loop), named for the statements about it. -/
def produceTile (q : GameState × List (Color × Resources)) (t : Nat) :
    GameState × List (Color × Resources) :=
  if q.1.tileHasRobber t then q
  else
    let rt := (q.1.tileType t).res
    let colorAmounts := tileColorAmounts q.1 t
    let left := q.1.resource_amounts.get rt
    if left < (colorAmounts.map (·.2)).sum ∧ colorAmounts.length > 1 then q
    else
      colorAmounts.foldl
        (fun (q' : GameState × List (Color × Resources)) ca =>
          let i := (q'.1.playerIdx? ca.1).getD q'.1.players.length
          let res := Resources.single rt (min ca.2 left)
          (transfer_resources q'.1 .bank (.player i) res, q'.2 ++ [(ca.1, res)]))
        q

/-- The association-list value of a color, 0 when absent. -/
def lookupZ (l : List (Color × Int)) (c : Color) : Int :=
  ((l.find? (fun ca => ca.1 = c)).map (·.2)).getD 0

/-- A color's due yield on a tile, written from the spec's words: one
per settlement, two per city, over the tile's adjacent vertices. -/
def tileDemand (s : GameState) (t : Nat) (c : Color) : Int :=
  ((tileAdjVertices t).map (fun v =>
    match s.vertexBuilding v with
    | some b => if b.color = c then (if b.building_type = .city then 2 else 1) else 0
    | none => 0)).sum

/-- The per-type conserved quantity: the bank's count plus the sum over
all player hands. -/
def resTotal (s : GameState) (rt : ResourceType) : Int :=
  s.resource_amounts.get rt + (s.players.map (fun p => p.resource_amounts.get rt)).sum

/-- A transfer party that actually exists (the source only ever passes
`self` or a live `Player` object). -/
def validParty (s : GameState) : Party → Prop
  | .bank => True
  | .player i => i < s.players.length

/-- Every building on the board belongs to one of the game's players
(true in every state the engine constructs; `_produce_resources` looks
players up by building color). -/
def buildingColorsOk (s : GameState) : Prop :=
  ∀ v b, s.vertexBuilding v = some b → s.hasColor b.color

namespace Resources

theorem get_add (r q : Resources) (t : ResourceType) :
    (r.add q).get t = r.get t + q.get t := by
  cases t <;> rfl

theorem get_sub (r q : Resources) (t : ResourceType) :
    (r.sub q).get t = r.get t - q.get t := by
  cases t <;> rfl

theorem get_const (z : Int) (t : ResourceType) : (const z).get t = z := by
  cases t <;> rfl

theorem sub_add_cancel (r q : Resources) : (r.sub q).add q = r := by
  cases r; cases q
  simp only [sub, add, Resources.mk.injEq]
  omega

theorem add_sub_cancel (r q : Resources) : (r.add q).sub q = r := by
  cases r; cases q
  simp only [sub, add, Resources.mk.injEq]
  omega

end Resources

theorem listModify_cons_succ (x : α) (xs : List α) (i : Nat) (f : α → α) :
    listModify (x :: xs) (i + 1) f = x :: listModify xs i f := by
  simp only [listModify, List.get?_cons_succ]
  cases h : xs.get? i <;> simp [h, List.set]

theorem listModify_cons_zero (x : α) (xs : List α) (f : α → α) :
    listModify (x :: xs) 0 f = f x :: xs := by
  unfold listModify
  simp [List.set]

theorem listModify_length (l : List α) (i : Nat) (f : α → α) :
    (listModify l i f).length = l.length := by
  unfold listModify
  cases h : l.get? i <;> simp

theorem listModify_map_sum (g : α → Int) (f : α → α) :
    ∀ (l : List α) (i : Nat) (a : α), l.get? i = some a →
      ((listModify l i f).map g).sum = (l.map g).sum + (g (f a) - g a)
  | [], i, a, h => by simp at h
  | x :: xs, 0, a, h => by
    simp only [List.get?] at h
    cases h
    simp [listModify_cons_zero]
    ring
  | x :: xs, i + 1, a, h => by
    simp only [List.get?] at h
    rw [listModify_cons_succ]
    simp only [List.map_cons, List.sum_cons, listModify_map_sum g f xs i a h]
    ring

theorem listModify_map_eq (g : α → β) (f : α → α) (h : ∀ a, g (f a) = g a) :
    ∀ (l : List α) (i : Nat), (listModify l i f).map g = l.map g
  | [], _ => by simp [listModify]
  | x :: xs, 0 => by simp [listModify_cons_zero, h]
  | x :: xs, i + 1 => by
    rw [listModify_cons_succ]
    simp [listModify_map_eq g f h xs i]

theorem applyParty_players_length (s : GameState) (p : Party) (f : Resources → Resources) :
    (applyParty s p f).players.length = s.players.length := by
  cases p <;> simp [applyParty, GameState.updatePlayerAt, listModify_length]

theorem transfer_players_length (s : GameState) (pf pt : Party) (ra : Resources) :
    (transfer_resources s pf pt ra).players.length = s.players.length := by
  simp [transfer_resources, applyParty_players_length]

theorem resTotal_applyParty_bank (s : GameState) (f : Resources → Resources) (rt : ResourceType) :
    resTotal (applyParty s .bank f) rt =
      resTotal s rt + ((f s.resource_amounts).get rt - s.resource_amounts.get rt) := by
  simp [applyParty, resTotal]
  ring

theorem resTotal_applyParty_player (s : GameState) (i : Nat) (f : Resources → Resources)
    (rt : ResourceType) (a : Player) (h : s.players.get? i = some a) :
    resTotal (applyParty s (.player i) f) rt =
      resTotal s rt + ((f a.resource_amounts).get rt - a.resource_amounts.get rt) := by
  simp only [applyParty, GameState.updatePlayerAt, resTotal]
  rw [listModify_map_sum (fun p => p.resource_amounts.get rt) _ s.players i a h]
  ring

theorem resTotal_transfer (s : GameState) (pf pt : Party) (ra : Resources)
    (hf : validParty s pf) (ht : validParty s pt) (rt : ResourceType) :
    resTotal (transfer_resources s pf pt ra) rt = resTotal s rt := by
  unfold transfer_resources
  cases pf with
  | bank =>
    cases pt with
    | bank =>
      rw [resTotal_applyParty_bank, resTotal_applyParty_bank]
      simp [Resources.get_add, Resources.get_sub]
    | player j =>
      rcases h' : (applyParty s Party.bank fun r => r.sub ra).players.get? j with _ | b
      · exfalso
        have hlen := List.get?_eq_none.mp h'
        rw [applyParty_players_length] at hlen
        exact absurd ht (by simp [validParty]; omega)
      · rw [resTotal_applyParty_player _ _ _ _ _ h', resTotal_applyParty_bank]
        simp [Resources.get_add, Resources.get_sub]
  | player i =>
    have hi : s.players.get? i ≠ none := by
      rw [Ne, List.get?_eq_none]
      simp only [validParty] at hf
      omega
    rcases h : s.players.get? i with _ | a
    · exact absurd h hi
    cases pt with
    | bank =>
      rw [resTotal_applyParty_bank, resTotal_applyParty_player _ _ _ _ _ h]
      simp [Resources.get_add, Resources.get_sub]
    | player j =>
      have hj : (applyParty s (Party.player i) fun r => r.sub ra).players.get? j ≠ none := by
        rw [Ne, List.get?_eq_none, applyParty_players_length]
        simp only [validParty] at ht
        omega
      rcases h' : (applyParty s (Party.player i) fun r => r.sub ra).players.get? j with _ | b
      · exact absurd h' hj
      rw [resTotal_applyParty_player _ _ _ _ _ h', resTotal_applyParty_player _ _ _ _ _ h]
      simp [Resources.get_add, Resources.get_sub]

theorem resTotal_setVertex (s : GameState) (v : Nat) (b : Option Building) (rt : ResourceType) :
    resTotal (s.setVertex v b) rt = resTotal s rt := rfl

theorem resTotal_setEdge (s : GameState) (e : Nat) (r : Option Color) (rt : ResourceType) :
    resTotal (s.setEdge e r) rt = resTotal s rt := rfl

theorem resTotal_setRobberFlag (s : GameState) (t : Nat) (b : Bool) (rt : ResourceType) :
    resTotal (s.setRobberFlag t b) rt = resTotal s rt := rfl

theorem resTotal_upd_drv (s : GameState) (X : List Nat) (rt : ResourceType) :
    resTotal { s with distance_rule_vertices := X } rt = resTotal s rt := rfl

theorem resTotal_upd_bv (s : GameState) (X : CMap (List Nat)) (rt : ResourceType) :
    resTotal { s with building_vertices := X } rt = resTotal s rt := rfl

theorem resTotal_upd_ce (s : GameState) (X : CMap (List Nat)) (rt : ResourceType) :
    resTotal { s with connected_edges := X } rt = resTotal s rt := rfl

theorem resTotal_upd_cv (s : GameState) (X : CMap (List Nat)) (rt : ResourceType) :
    resTotal { s with connected_vertices := X } rt = resTotal s rt := rfl

theorem resTotal_upd_lrp (s : GameState) (X : Option Color) (rt : ResourceType) :
    resTotal { s with longest_road_player := X } rt = resTotal s rt := rfl

theorem resTotal_upd_lap (s : GameState) (X : Option Color) (rt : ResourceType) :
    resTotal { s with largest_army_player := X } rt = resTotal s rt := rfl

theorem resTotal_upd_deck (s : GameState) (X : List DevelopmentCard) (rt : ResourceType) :
    resTotal { s with development_cards := X } rt = resTotal s rt := rfl

theorem resTotal_upd_robber (s : GameState) (X : Nat) (rt : ResourceType) :
    resTotal { s with robber_tile := X } rt = resTotal s rt := rfl

theorem resTotal_upd_vertices (s : GameState) (X : List (Option Building)) (rt : ResourceType) :
    resTotal { s with vertices := X } rt = resTotal s rt := rfl

theorem resTotal_upd_stack (s : GameState) (X : List StackEntry) (rt : ResourceType) :
    resTotal { s with action_stack := X } rt = resTotal s rt := rfl

theorem resTotal_updatePlayerAt_frame (s : GameState) (i : Nat) (f : Player → Player)
    (rt : ResourceType) (h : ∀ p, (f p).resource_amounts = p.resource_amounts) :
    resTotal (s.updatePlayerAt i f) rt = resTotal s rt := by
  simp only [GameState.updatePlayerAt, resTotal]
  rw [listModify_map_eq (fun p => p.resource_amounts.get rt) f (fun a => by simp [h])]

theorem resTotal_updateTurn_frame (s : GameState) (f : Player → Player)
    (rt : ResourceType) (h : ∀ p, (f p).resource_amounts = p.resource_amounts) :
    resTotal (s.updateTurn f) rt = resTotal s rt :=
  resTotal_updatePlayerAt_frame s 0 f rt h

theorem resTotal_updatePlayerC_frame (s : GameState) (c : Color) (f : Player → Player)
    (rt : ResourceType) (h : ∀ p, (f p).resource_amounts = p.resource_amounts) :
    resTotal (s.updatePlayerC c f) rt = resTotal s rt := by
  unfold GameState.updatePlayerC
  split
  · rw [resTotal_updatePlayerAt_frame _ _ _ _ h]
  · rfl

theorem resTotal_uT_vp (s : GameState) (g : Player → Int) (rt : ResourceType) :
    resTotal (s.updateTurn (fun p => { p with victory_points := g p })) rt = resTotal s rt :=
  resTotal_updateTurn_frame _ _ _ (fun _ => rfl)

theorem resTotal_uT_sl (s : GameState) (g : Player → Int) (rt : ResourceType) :
    resTotal (s.updateTurn (fun p => { p with settlements_left := g p })) rt = resTotal s rt :=
  resTotal_updateTurn_frame _ _ _ (fun _ => rfl)

theorem resTotal_uT_rl (s : GameState) (g : Player → Int) (rt : ResourceType) :
    resTotal (s.updateTurn (fun p => { p with roads_left := g p })) rt = resTotal s rt :=
  resTotal_updateTurn_frame _ _ _ (fun _ => rfl)

theorem resTotal_uT_lr (s : GameState) (g : Player → Int) (rt : ResourceType) :
    resTotal (s.updateTurn (fun p => { p with longest_road := g p })) rt = resTotal s rt :=
  resTotal_updateTurn_frame _ _ _ (fun _ => rfl)

theorem resTotal_uT_kp (s : GameState) (g : Player → Int) (rt : ResourceType) :
    resTotal (s.updateTurn (fun p => { p with knights_played := g p })) rt = resTotal s rt :=
  resTotal_updateTurn_frame _ _ _ (fun _ => rfl)

theorem resTotal_uT_ht (s : GameState) (g : Player → List HarborType) (rt : ResourceType) :
    resTotal (s.updateTurn (fun p => { p with harbor_types := g p })) rt = resTotal s rt :=
  resTotal_updateTurn_frame _ _ _ (fun _ => rfl)

theorem resTotal_uT_dc (s : GameState) (g : Player → List DevelopmentCard) (rt : ResourceType) :
    resTotal (s.updateTurn (fun p => { p with development_cards := g p })) rt = resTotal s rt :=
  resTotal_updateTurn_frame _ _ _ (fun _ => rfl)

theorem resTotal_uT_city (s : GameState) (g1 g2 : Player → Int) (rt : ResourceType) :
    resTotal (s.updateTurn
      (fun p => { p with settlements_left := g1 p, cities_left := g2 p })) rt = resTotal s rt :=
  resTotal_updateTurn_frame _ _ _ (fun _ => rfl)

theorem resTotal_uT_city' (s : GameState) (g1 g2 : Player → Int) (rt : ResourceType) :
    resTotal (s.updateTurn
      (fun p => { p with cities_left := g1 p, settlements_left := g2 p })) rt = resTotal s rt :=
  resTotal_updateTurn_frame _ _ _ (fun _ => rfl)

theorem resTotal_uC_vp (s : GameState) (c : Color) (g : Player → Int) (rt : ResourceType) :
    resTotal (s.updatePlayerC c (fun p => { p with victory_points := g p })) rt = resTotal s rt :=
  resTotal_updatePlayerC_frame _ _ _ _ (fun _ => rfl)

theorem resTotal_place_settlement (s : GameState) (v : Nat) (rt : ResourceType) :
    resTotal (place_settlement s v).1 rt = resTotal s rt := by
  unfold place_settlement
  lift_lets
  extract_lets col s1 s2 s3 addedD s4 s5 addedHarbor s6
  show resTotal s6 rt = resTotal s rt
  have h6 : s6 = match addedHarbor with
    | some h => s5.updateTurn (fun p => { p with harbor_types := p.harbor_types ++ [h] })
    | none => s5 := rfl
  have h5 : s5 = s4.updateTurn (fun p => { p with victory_points := p.victory_points + 1 }) := rfl
  have h4 : s4 = { s3 with distance_rule_vertices := addedD.2 } := rfl
  have h3 : s3 =
      { s2 with building_vertices := s2.building_vertices.modify col (addIfAbsent · v) } := rfl
  have h2 : s2 = s1.setVertex v (some ⟨col, .settlement⟩) := rfl
  have h1 : s1 = s.updateTurn (fun p => { p with settlements_left := p.settlements_left - 1 }) := rfl
  have tail : resTotal s5 rt = resTotal s rt := by
    rw [h5, resTotal_uT_vp, h4, resTotal_upd_drv, h3, resTotal_upd_bv, h2,
      resTotal_setVertex, h1, resTotal_uT_sl]
  rw [h6]
  cases addedHarbor with
  | none => exact tail
  | some h =>
    rw [show (match (some h : Option HarborType) with
      | some h => s5.updateTurn (fun p => { p with harbor_types := p.harbor_types ++ [h] })
      | none => s5) =
        s5.updateTurn (fun p => { p with harbor_types := p.harbor_types ++ [h] }) from rfl]
    rw [resTotal_uT_ht]
    exact tail

theorem resTotal_awardRoadBonus (s : GameState) (col : Color) (holder : Option Color)
    (rt : ResourceType) :
    resTotal (awardRoadBonus s col holder) rt = resTotal s rt := by
  unfold awardRoadBonus
  dsimp only []
  rw [resTotal_uT_vp, resTotal_upd_lrp]
  cases holder with
  | none => rfl
  | some c' => exact resTotal_uC_vp _ _ _ _

theorem resTotal_awardArmyBonus (s : GameState) (col : Color) (holder : Option Color)
    (rt : ResourceType) :
    resTotal (awardArmyBonus s col holder) rt = resTotal s rt := by
  unfold awardArmyBonus
  dsimp only []
  rw [resTotal_uT_vp, resTotal_upd_lap]
  cases holder with
  | none => rfl
  | some c' => exact resTotal_uC_vp _ _ _ _

theorem resTotal_place_road (s : GameState) (e : Nat) (rt : ResourceType) :
    resTotal (place_road s e).1 rt = resTotal s rt := by
  unfold place_road
  lift_lets
  extract_lets col s1 s2 addedCE s3 addedCV s4 longest prevLongest s5 newLen holder
    holderLen transferBonus
  have h5 : s5 = s4.updateTurn (fun p => { p with longest_road := max p.longest_road longest }) := rfl
  have h4 : s4 = { s3 with connected_vertices := s3.connected_vertices.set col addedCV.2 } := rfl
  have h3 : s3 = { s2 with connected_edges := s2.connected_edges.set col addedCE.2 } := rfl
  have h2 : s2 = s1.setEdge e (some col) := rfl
  have h1 : s1 = s.updateTurn (fun p => { p with roads_left := p.roads_left - 1 }) := rfl
  have tail : resTotal s5 rt = resTotal s rt := by
    rw [h5, resTotal_uT_lr, h4, resTotal_upd_cv, h3, resTotal_upd_ce, h2,
      resTotal_setEdge, h1, resTotal_uT_rl]
  split
  · show resTotal (awardRoadBonus s5 col holder) rt = resTotal s rt
    rw [resTotal_awardRoadBonus]
    exact tail
  · exact tail

theorem map_sum_rotate (l : List α) (k : Nat) (g : α → Int) :
    ((l.drop k ++ l.take k).map g).sum = (l.map g).sum := by
  rw [List.map_append, List.sum_append, add_comm, ← List.sum_append, ← List.map_append,
    List.take_append_drop]

theorem map_sum_reverse (l : List α) (g : α → Int) :
    ((l.reverse).map g).sum = (l.map g).sum := by
  rw [List.map_reverse, List.sum_reverse]

theorem resTotal_upd_players (s : GameState) (X : List Player) (a b : Nat) (rt : ResourceType)
    (h : (X.map (fun p => p.resource_amounts.get rt)).sum =
      (s.players.map (fun p => p.resource_amounts.get rt)).sum) :
    resTotal { s with players := X, turns_this_round := a, round := b } rt = resTotal s rt := by
  show s.resource_amounts.get rt + (X.map (fun p => p.resource_amounts.get rt)).sum = _
  rw [h]
  rfl

theorem resTotal_end_turn (s : GameState) (rt : ResourceType) :
    resTotal (end_turn s).1 rt = resTotal s rt := by
  unfold end_turn
  lift_lets
  extract_lets turnsThatRound prevRound t1 tr hand flipped flippedIdxs s1 players1 flipOrder
    players2
  show resTotal { s1 with players := players2, turns_this_round := tr.1, round := tr.2 } rt =
    resTotal s rt
  have hsum : (players2.map (fun p => p.resource_amounts.get rt)).sum =
      (s1.players.map (fun p => p.resource_amounts.get rt)).sum := by
    have h2 : players2 = if flipOrder then players1.reverse else players1 := rfl
    have h1 : players1 = s1.players.drop 1 ++ s1.players.take 1 := rfl
    rw [h2]
    split
    · rw [map_sum_reverse, h1, map_sum_rotate]
    · rw [h1, map_sum_rotate]
  rw [resTotal_upd_players _ _ _ _ _ hsum]
  have h1 : s1 = s.updateTurn (fun p =>
      { p with development_cards :=
          p.development_cards.map (fun c => if flipped c then { c with playable := true } else c) }) :=
    rfl
  rw [h1, resTotal_uT_dc]

theorem resTotal_undo_end_turn (s : GameState) (e : EndTurnSave) (rt : ResourceType) :
    resTotal (undo_end_turn s e) rt = resTotal s rt := by
  unfold undo_end_turn
  lift_lets
  extract_lets players1 players2 s1 unflip s2
  show resTotal { s2 with round := e.prevRound, turns_this_round := e.turnsThatRound } rt =
    resTotal s rt
  have hframe :
      resTotal { s2 with round := e.prevRound, turns_this_round := e.turnsThatRound } rt =
        resTotal s2 rt := rfl
  rw [hframe]
  have h2 : s2 = s1.updateTurn (fun p => { p with development_cards := unflip p.development_cards }) :=
    rfl
  rw [h2, resTotal_uT_dc]
  have h1 : s1 = { s with players := players2 } := rfl
  rw [h1]
  show s.resource_amounts.get rt + (players2.map (fun p => p.resource_amounts.get rt)).sum = _
  have h2' : players2 = players1.drop (players1.length - 1) ++ players1.take (players1.length - 1) :=
    rfl
  have h1' : players1 = if e.flippedOrder then s.players.reverse else s.players := rfl
  rw [h2', map_sum_rotate, h1']
  have : ((if e.flippedOrder then s.players.reverse else s.players).map
      (fun p => p.resource_amounts.get rt)).sum =
      (s.players.map (fun p => p.resource_amounts.get rt)).sum := by
    split
    · rw [map_sum_reverse]
    · rfl
  rw [this]
  rfl

theorem playerIdx?_lt_length (s : GameState) (c : Color) (i : Nat)
    (h : s.playerIdx? c = some i) : i < s.players.length :=
  (List.findIdx?_eq_some_iff_findIdx_eq.mp h).1

theorem resTotal_build_road (s : GameState) (e : Nat) (s' : GameState) (save : RoadSave)
    (hp : 0 < s.players.length) (h : build_road s e = .ok (s', save)) (rt : ResourceType) :
    resTotal s' rt = resTotal s rt := by
  unfold build_road at h
  dsimp only [] at h
  repeat' split at h
  all_goals first
    | exact Except.noConfusion h
    | (injection h with h'
       have h1 : _ = s' := congrArg Prod.fst h'
       rw [← h1, resTotal_place_road]
       exact resTotal_transfer _ _ _ _ (by exact hp) (by trivial) rt)

theorem resTotal_build_settlement (s : GameState) (v : Nat) (s' : GameState) (save : SettleSave)
    (hp : 0 < s.players.length) (h : build_settlement s v = .ok (s', save)) (rt : ResourceType) :
    resTotal s' rt = resTotal s rt := by
  unfold build_settlement at h
  dsimp only [] at h
  repeat' split at h
  all_goals first
    | exact Except.noConfusion h
    | (injection h with h'
       have h1 : _ = s' := congrArg Prod.fst h'
       rw [← h1, resTotal_place_settlement]
       exact resTotal_transfer _ _ _ _ (by exact hp) (by trivial) rt)

theorem resTotal_build_city (s : GameState) (v : Nat) (s' : GameState) (w : Nat)
    (hp : 0 < s.players.length) (h : build_city s v = .ok (s', w)) (rt : ResourceType) :
    resTotal s' rt = resTotal s rt := by
  unfold build_city at h
  dsimp only [] at h
  repeat' split at h
  all_goals first
    | exact Except.noConfusion h
    | (injection h with h'
       have h1 : _ = s' := congrArg Prod.fst h'
       rw [← h1, resTotal_uT_vp, resTotal_upd_vertices, resTotal_uT_city]
       exact resTotal_transfer _ _ _ _ (by exact hp) (by trivial) rt)

theorem resTotal_buy_development_card (s : GameState) (s' : GameState) (card : DevelopmentCard)
    (hp : 0 < s.players.length) (h : buy_development_card s = .ok (s', card)) (rt : ResourceType) :
    resTotal s' rt = resTotal s rt := by
  unfold buy_development_card at h
  dsimp only [] at h
  repeat' split at h
  all_goals first
    | exact Except.noConfusion h
    | (injection h with h'
       have h1 : _ = s' := congrArg Prod.fst h'
       rw [← h1]
       first
         | rw [resTotal_uT_vp, resTotal_uT_dc, resTotal_upd_deck]
         | rw [resTotal_uT_dc, resTotal_upd_deck]
       exact resTotal_transfer _ _ _ _ (by exact hp) (by trivial) rt)

theorem resTotal_discard_half (s : GameState) (c : Color) (amounts : List Int)
    (s' : GameState) (c' : Color) (res : Resources)
    (h : discard_half s c amounts = .ok (s', c', res)) (rt : ResourceType) :
    resTotal s' rt = resTotal s rt := by
  unfold discard_half at h
  dsimp only [] at h
  split at h
  · exact Except.noConfusion h
  case _ i hidx =>
    repeat' split at h
    all_goals first
      | exact Except.noConfusion h
      | (injection h with h'
         have h1 : _ = s' := congrArg Prod.fst h'
         rw [← h1]
         exact resTotal_transfer _ _ _ _
           (by exact playerIdx?_lt_length s c i hidx) (by trivial) rt)

theorem resTotal_maritime_trade (s : GameState) (rOut rIn : ResourceType)
    (s' : GameState) (o i : Resources) (hp : 0 < s.players.length)
    (h : maritime_trade s rOut rIn = .ok (s', o, i)) (rt : ResourceType) :
    resTotal s' rt = resTotal s rt := by
  unfold maritime_trade at h
  dsimp only [] at h
  repeat' split at h
  all_goals first
    | exact Except.noConfusion h
    | (injection h with h'
       have h1 : _ = s' := congrArg Prod.fst h'
       rw [← h1, resTotal_transfer _ _ _ _ (by trivial)
         (by rw [validParty, transfer_players_length]; exact hp)]
       exact resTotal_transfer _ _ _ _ (by exact hp) (by trivial) rt)

theorem resTotal_play_year_of_plenty (s : GameState) (r1 : ResourceType)
    (r2 : Option ResourceType) (s' : GameState) (res : Resources) (hp : 0 < s.players.length)
    (h : play_year_of_plenty s r1 r2 = .ok (s', res)) (rt : ResourceType) :
    resTotal s' rt = resTotal s rt := by
  unfold play_year_of_plenty at h
  dsimp only [] at h
  repeat' split at h
  all_goals first
    | exact Except.noConfusion h
    | (injection h with h'
       have h1 : _ = s' := congrArg Prod.fst h'
       rw [← h1, resTotal_transfer _ _ _ _ (by trivial)
         (by rw [validParty]; simpa [GameState.updateTurn, GameState.updatePlayerAt,
           listModify_length] using hp)]
       exact resTotal_uT_dc _ _ _)

theorem findIdx?_eq_of_map_eq (p : α → Bool) :
    ∀ (l1 l2 : List α) (i : Nat), l1.map p = l2.map p → l1.findIdx? p i = l2.findIdx? p i
  | [], [], _, _ => rfl
  | [], _ :: _, _, h => by simp at h
  | _ :: _, [], _, h => by simp at h
  | a :: l1, b :: l2, i, h => by
    simp only [List.map_cons, List.cons.injEq] at h
    show (if p a then some i else l1.findIdx? p (i + 1)) =
      (if p b then some i else l2.findIdx? p (i + 1))
    rw [h.1, findIdx?_eq_of_map_eq p l1 l2 (i + 1) h.2]

theorem playerIdx?_eq_of_colors_eq (s s' : GameState) (c : Color)
    (h : s'.players.map Player.color = s.players.map Player.color) :
    s'.playerIdx? c = s.playerIdx? c := by
  unfold GameState.playerIdx?
  apply findIdx?_eq_of_map_eq
  have : ∀ l : List Player,
      l.map (fun p => decide (p.color = c)) =
        (l.map Player.color).map (fun d => decide (d = c)) := by
    intro l
    rw [List.map_map]
    rfl
  rw [this, this, h]

theorem applyParty_colors (s : GameState) (p : Party) (f : Resources → Resources) :
    (applyParty s p f).players.map Player.color = s.players.map Player.color := by
  cases p with
  | bank => rfl
  | player i =>
    show (listModify s.players i
      (fun pl => { pl with resource_amounts := f pl.resource_amounts })).map Player.color = _
    rw [listModify_map_eq Player.color
      (fun pl => { pl with resource_amounts := f pl.resource_amounts }) (fun a => rfl)]

theorem transfer_colors (s : GameState) (pf pt : Party) (ra : Resources) :
    (transfer_resources s pf pt ra).players.map Player.color = s.players.map Player.color := by
  unfold transfer_resources
  rw [applyParty_colors, applyParty_colors]

theorem transfer_playerIdx? (s : GameState) (pf pt : Party) (ra : Resources) (c : Color) :
    (transfer_resources s pf pt ra).playerIdx? c = s.playerIdx? c :=
  playerIdx?_eq_of_colors_eq _ _ _ (transfer_colors s pf pt ra)

theorem transfer_vertices (s : GameState) (pf pt : Party) (ra : Resources) :
    (transfer_resources s pf pt ra).vertices = s.vertices := by
  unfold transfer_resources applyParty
  cases pf <;> cases pt <;> rfl

theorem transfer_tile_fields (s : GameState) (pf pt : Party) (ra : Resources) :
    (transfer_resources s pf pt ra).has_robber = s.has_robber ∧
      (transfer_resources s pf pt ra).tile_types = s.tile_types ∧
      (transfer_resources s pf pt ra).tokens = s.tokens := by
  unfold transfer_resources applyParty
  cases pf <;> cases pt <;> exact ⟨rfl, rfl, rfl⟩

theorem getD_playerIdx_lt (s : GameState) (c : Color) (h : s.hasColor c) :
    (s.playerIdx? c).getD s.players.length < s.players.length := by
  unfold GameState.hasColor at h
  cases hh : s.playerIdx? c with
  | none => rw [hh] at h; simp at h
  | some i =>
    simp only [Option.getD_some]
    exact playerIdx?_lt_length s c i hh

theorem resTotal_finishRobberMove (s : GameState) (tf : Option Color)
    (tt : Option ResourceType) (t : Nat) (rt : ResourceType) :
    resTotal (finishRobberMove s tf tt t).1 rt = resTotal s rt := rfl

theorem resTotal_move_robber (pick : ResourceType) (s : GameState) (t : Nat)
    (victim : Option Color) (s' : GameState) (tf : Option Color) (tt : Option ResourceType)
    (pt : Nat) (hp : 0 < s.players.length)
    (h : move_robber pick s t victim = .ok (s', tf, tt, pt)) (rt : ResourceType) :
    resTotal s' rt = resTotal s rt := by
  unfold move_robber at h
  split at h
  · exact Except.noConfusion h
  split at h
  · exact Except.noConfusion h
  rename_i hvic
  split at h
  · exact Except.noConfusion h
  split at h
  · exact Except.noConfusion h
  split at h
  · split at h
    · exact Except.noConfusion h
    split at h
    · injection h with h'
      have h1 : _ = s' := congrArg Prod.fst h'
      rw [← h1, resTotal_finishRobberMove]
      refine resTotal_transfer _ _ _ _ ?_ ?_ rt
      · apply getD_playerIdx_lt
        by_contra hc
        apply hvic
        simp only [Option.any, decide_eq_true_eq]
        exact hc
      · exact hp
    · injection h with h'
      have h1 : _ = s' := congrArg Prod.fst h'
      rw [← h1, resTotal_finishRobberMove]
  · split at h
    · exact Except.noConfusion h
    · injection h with h'
      have h1 : _ = s' := congrArg Prod.fst h'
      rw [← h1, resTotal_finishRobberMove]

theorem resTotal_play_knight (pick : ResourceType) (s : GameState) (t : Nat)
    (victim : Option Color) (s' : GameState) (tf : Option Color) (tt : Option ResourceType)
    (pt : Nat) (ba : Bool) (ph : Option Color) (hp : 0 < s.players.length)
    (h : play_knight pick s t victim = .ok (s', tf, tt, pt, ba, ph)) (rt : ResourceType) :
    resTotal s' rt = resTotal s rt := by
  unfold play_knight at h
  dsimp only [] at h
  split at h
  · exact Except.noConfusion h
  split at h
  · exact Except.noConfusion h
  rename_i s1 tf1 tt1 pt1 heq
  have tail : ∀ X : GameState,
      resTotal ((X.updateTurn (fun p =>
          { p with development_cards := removeFirstP p.development_cards (· = ⟨.knight, true⟩) })).updateTurn
        (fun p => { p with knights_played := p.knights_played + 1 })) rt = resTotal X rt := by
    intro X
    rw [resTotal_uT_kp, resTotal_uT_dc]
  split at h
  · injection h with h'
    have h1 : _ = s' := congrArg Prod.fst h'
    rw [← h1, resTotal_awardArmyBonus, tail]
    exact resTotal_move_robber pick s t victim s1 tf1 tt1 pt1 hp heq rt
  · injection h with h'
    have h1 : _ = s' := congrArg Prod.fst h'
    rw [← h1, tail]
    exact resTotal_move_robber pick s t victim s1 tf1 tt1 pt1 hp heq rt

theorem resTotal_monopoly_fold (g : Nat → GameState → Resources) :
    ∀ (l : List Nat) (q : GameState × List (Color × Resources)) (rt : ResourceType),
      0 < q.1.players.length → (∀ i ∈ l, i < q.1.players.length) →
      resTotal (l.foldl
        (fun (q' : GameState × List (Color × Resources)) i =>
          (transfer_resources q'.1 (.player i) (.player 0) (g i q'.1),
           q'.2 ++ [(((q'.1.players.get? i).getD default).color, g i q'.1)])) q).1 rt =
        resTotal q.1 rt := by
  intro l
  induction l with
  | nil => intro q rt _ _; rfl
  | cons i l ih =>
    intro q rt hp hl
    rw [List.foldl_cons, ih _ rt ?_ ?_]
    · exact resTotal_transfer _ _ _ _ (by exact hl i (by simp)) (by exact hp) rt
    · show 0 < (transfer_resources _ _ _ _).players.length
      rw [transfer_players_length]
      exact hp
    · intro j hj
      show j < (transfer_resources _ _ _ _).players.length
      rw [transfer_players_length]
      exact hl j (by simp [hj])

theorem resTotal_play_monopoly (s : GameState) (r : ResourceType) (s' : GameState)
    (ts : List (Color × Resources)) (hp : 0 < s.players.length)
    (h : play_monopoly s r = .ok (s', ts)) (rt : ResourceType) :
    resTotal s' rt = resTotal s rt := by
  unfold play_monopoly at h
  dsimp only [] at h
  split at h
  · exact Except.noConfusion h
  injection h with h'
  have h1 : _ = s' := congrArg Prod.fst h'
  rw [← h1]
  have hlen : ∀ f : Player → Player, (s.updateTurn f).players.length = s.players.length := by
    intro f
    simp [GameState.updateTurn, GameState.updatePlayerAt, listModify_length]
  refine Eq.trans (resTotal_monopoly_fold
    (fun i st => Resources.single r (((st.players.get? i).getD default).resource_amounts.get r))
    _ _ rt ?_ ?_) ?_
  · show 0 < (s.updateTurn _).players.length
    rw [hlen]
    exact hp
  · intro i hi
    show i < (s.updateTurn _).players.length
    rw [hlen]
    have := List.mem_range.mp (List.mem_of_mem_drop hi)
    rwa [hlen] at this
  · exact resTotal_uT_dc _ _ _

theorem resTotal_play_road_building (s : GameState) (e1 : Nat) (e2 : Option Nat)
    (s' : GameState) (saves : List RoadSave)
    (h : play_road_building s e1 e2 = .ok (s', saves)) (rt : ResourceType) :
    resTotal s' rt = resTotal s rt := by
  unfold play_road_building at h
  dsimp only [] at h
  repeat' split at h
  all_goals first
    | exact Except.noConfusion h
    | (injection h with h'
       have h1 : _ = s' := congrArg Prod.fst h'
       rw [← h1, resTotal_place_road, resTotal_place_road, resTotal_uT_dc])
    | (injection h with h'
       have h1 : _ = s' := congrArg Prod.fst h'
       rw [← h1, resTotal_place_road, resTotal_uT_dc])

theorem players_length_updateTurn (s : GameState) (f : Player → Player) :
    (s.updateTurn f).players.length = s.players.length := by
  simp [GameState.updateTurn, GameState.updatePlayerAt, listModify_length]

theorem players_length_updatePlayerC (s : GameState) (c : Color) (f : Player → Player) :
    (s.updatePlayerC c f).players.length = s.players.length := by
  unfold GameState.updatePlayerC
  split
  · simp [GameState.updatePlayerAt, listModify_length]
  · rfl

theorem place_settlement_players_length (s : GameState) (v : Nat) :
    (place_settlement s v).1.players.length = s.players.length := by
  unfold place_settlement
  lift_lets
  extract_lets col s1 s2 s3 addedD s4 s5 addedHarbor s6
  show s6.players.length = _
  have h6 : s6 = match addedHarbor with
    | some h => s5.updateTurn (fun p => { p with harbor_types := p.harbor_types ++ [h] })
    | none => s5 := rfl
  have h5 : s5 = s4.updateTurn (fun p => { p with victory_points := p.victory_points + 1 }) := rfl
  have h1 : s1 = s.updateTurn (fun p => { p with settlements_left := p.settlements_left - 1 }) := rfl
  have base : s5.players.length = s.players.length := by
    rw [h5, players_length_updateTurn]
    show s1.players.length = _
    rw [h1, players_length_updateTurn]
  rw [h6]
  cases addedHarbor with
  | none => exact base
  | some hb =>
    show (s5.updateTurn _).players.length = _
    rw [players_length_updateTurn]
    exact base

theorem players_length_awardRoadBonus (s : GameState) (col : Color)
    (holder : Option Color) :
    (awardRoadBonus s col holder).players.length = s.players.length := by
  unfold awardRoadBonus
  dsimp only []
  rw [players_length_updateTurn]
  dsimp only []
  cases holder with
  | none => rfl
  | some c' => exact players_length_updatePlayerC _ _ _

theorem players_length_awardArmyBonus (s : GameState) (col : Color)
    (holder : Option Color) :
    (awardArmyBonus s col holder).players.length = s.players.length := by
  unfold awardArmyBonus
  dsimp only []
  rw [players_length_updateTurn]
  dsimp only []
  cases holder with
  | none => rfl
  | some c' => exact players_length_updatePlayerC _ _ _

theorem place_road_players_length (s : GameState) (e : Nat) :
    (place_road s e).1.players.length = s.players.length := by
  unfold place_road
  lift_lets
  extract_lets col s1 s2 addedCE s3 addedCV s4 longest prevLongest s5 newLen holder
    holderLen transferBonus
  have h5 : s5 = s4.updateTurn (fun p => { p with longest_road := max p.longest_road longest }) := rfl
  have h1 : s1 = s.updateTurn (fun p => { p with roads_left := p.roads_left - 1 }) := rfl
  have base : s5.players.length = s.players.length := by
    rw [h5, players_length_updateTurn]
    show s1.players.length = _
    rw [h1, players_length_updateTurn]
  split
  · show (awardRoadBonus s5 col holder).players.length = _
    rw [players_length_awardRoadBonus]
    exact base
  · exact base

theorem resTotal_build_set_up (s : GameState) (v e : Nat) (s' : GameState)
    (ss : SettleSave) (rs : RoadSave) (es : EndTurnSave) (b : Bool) (res : Resources)
    (hp : 0 < s.players.length)
    (h : build_set_up s v e = .ok (s', ss, rs, es, b, res)) (rt : ResourceType) :
    resTotal s' rt = resTotal s rt := by
  unfold build_set_up at h
  dsimp only [] at h
  repeat' split at h
  all_goals first
    | exact Except.noConfusion h
    | (injection h with h'
       have h1 : _ = s' := congrArg Prod.fst h'
       rw [← h1, resTotal_end_turn,
         resTotal_transfer _ _ _ _ (by trivial)
           (by show 0 < _
               rw [place_road_players_length, place_settlement_players_length]
               exact hp),
         resTotal_place_road, resTotal_place_settlement])

theorem hasColor_transfer (s : GameState) (pf pt : Party) (ra : Resources) (c : Color) :
    (transfer_resources s pf pt ra).hasColor c = s.hasColor c := by
  unfold GameState.hasColor
  rw [transfer_playerIdx?]

theorem vertexBuilding_transfer (s : GameState) (pf pt : Party) (ra : Resources) (v : Nat) :
    (transfer_resources s pf pt ra).vertexBuilding v = s.vertexBuilding v := by
  unfold GameState.vertexBuilding
  rw [transfer_vertices]

theorem assocBump_mem_keys (c : Color) (z : Int) :
    ∀ (l : List (Color × Int)) (ca : Color × Int), ca ∈ assocBump l c z →
      ca.1 = c ∨ ∃ z', (ca.1, z') ∈ l
  | [], ca, h => by
    simp only [assocBump, List.mem_singleton] at h
    left
    rw [h]
  | (c', z') :: rest, ca, h => by
    unfold assocBump at h
    split at h
    · rcases List.mem_cons.mp h with h1 | h1
      · right
        exact ⟨z', by simp [congrArg Prod.fst h1]⟩
      · right
        exact ⟨ca.2, by simp [h1]⟩
    · rcases List.mem_cons.mp h with h1 | h1
      · right
        exact ⟨z', by simp [congrArg Prod.fst h1]⟩
      · rcases assocBump_mem_keys c z rest ca h1 with h2 | ⟨z'', h2⟩
        · left
          exact h2
        · right
          exact ⟨z'', by simp [h2]⟩

theorem tileColorAmounts_mem (s : GameState) (t : Nat) (ca : Color × Int)
    (h : ca ∈ tileColorAmounts s t) :
    ∃ v b, s.vertexBuilding v = some b ∧ b.color = ca.1 := by
  unfold tileColorAmounts at h
  suffices H : ∀ (vs : List Nat) (acc : List (Color × Int)),
      ca ∈ vs.foldl (fun l v =>
        match s.vertexBuilding v with
        | some b => assocBump l b.color (if b.building_type = .city then 2 else 1)
        | none => l) acc →
      (∃ v b, s.vertexBuilding v = some b ∧ b.color = ca.1) ∨ ∃ z', (ca.1, z') ∈ acc by
    rcases H (tileAdjVertices t) [] h with h1 | ⟨z', h1⟩
    · exact h1
    · simp at h1
  intro vs
  induction vs with
  | nil => intro acc hm; exact Or.inr ⟨ca.2, hm⟩
  | cons v vs ih =>
    intro acc hm
    rw [List.foldl_cons] at hm
    rcases hb : s.vertexBuilding v with _ | b
    · rw [hb] at hm
      exact ih acc hm
    · rw [hb] at hm
      rcases ih _ hm with h1 | ⟨z', h1⟩
      · exact Or.inl h1
      · rcases assocBump_mem_keys _ _ _ _ h1 with h2 | ⟨z'', h2⟩
        · exact Or.inl ⟨v, b, hb, h2.symm⟩
        · exact Or.inr ⟨z'', h2⟩

theorem vertexBuilding_eq_of (s s' : GameState) (h : s'.vertices = s.vertices) (v : Nat) :
    s'.vertexBuilding v = s.vertexBuilding v := by
  unfold GameState.vertexBuilding
  rw [h]

theorem hasColor_eq_of (s s' : GameState) (h : ∀ c, s'.playerIdx? c = s.playerIdx? c)
    (c : Color) : s'.hasColor c = s.hasColor c := by
  unfold GameState.hasColor
  rw [h]

theorem produce_inner_fold (g : Color × Int → Resources) :
    ∀ (cas : List (Color × Int)) (q : GameState × List (Color × Resources)),
      (∀ ca ∈ cas, (q.1 : GameState).hasColor ca.1) →
      (∀ rt, resTotal (cas.foldl
        (fun (q' : GameState × List (Color × Resources)) ca =>
          (transfer_resources q'.1 .bank
            (.player ((q'.1.playerIdx? ca.1).getD q'.1.players.length)) (g ca),
           q'.2 ++ [(ca.1, g ca)])) q).1 rt = resTotal q.1 rt) ∧
      (cas.foldl
        (fun (q' : GameState × List (Color × Resources)) ca =>
          (transfer_resources q'.1 .bank
            (.player ((q'.1.playerIdx? ca.1).getD q'.1.players.length)) (g ca),
           q'.2 ++ [(ca.1, g ca)])) q).1.vertices = q.1.vertices ∧
      (∀ c, (cas.foldl
        (fun (q' : GameState × List (Color × Resources)) ca =>
          (transfer_resources q'.1 .bank
            (.player ((q'.1.playerIdx? ca.1).getD q'.1.players.length)) (g ca),
           q'.2 ++ [(ca.1, g ca)])) q).1.playerIdx? c = q.1.playerIdx? c) := by
  intro cas
  induction cas with
  | nil => exact fun q _ => ⟨fun rt => rfl, rfl, fun c => rfl⟩
  | cons ca cas ih =>
    intro q hcol
    have step := ih (transfer_resources q.1 .bank
        (.player ((q.1.playerIdx? ca.1).getD q.1.players.length)) (g ca), q.2 ++ [(ca.1, g ca)])
      (by
        intro ca' hca'
        show ((transfer_resources _ _ _ _).playerIdx? ca'.1).isSome = true
        rw [transfer_playerIdx?]
        exact hcol ca' (by simp [hca']))
    refine ⟨fun rt => ?_, ?_, fun c => ?_⟩
    · rw [List.foldl_cons]
      rw [step.1 rt]
      exact resTotal_transfer _ _ _ _ (by trivial)
        (by exact getD_playerIdx_lt _ _ (hcol ca (by simp))) rt
    · rw [List.foldl_cons, step.2.1, transfer_vertices]
    · rw [List.foldl_cons, step.2.2 c, transfer_playerIdx?]

theorem resTotal_produce_resources (s : GameState) (token : Nat) (s' : GameState)
    (ts : List (Color × Resources)) (hb : buildingColorsOk s)
    (h : produce_resources s token = .ok (s', ts)) (rt : ResourceType) :
    resTotal s' rt = resTotal s rt := by
  unfold produce_resources at h
  split at h
  · exact Except.noConfusion h
  dsimp only [] at h
  injection h with h'
  have h1 : _ = s' := congrArg Prod.fst h'
  rw [← h1]
  suffices H : ∀ (tls : List Nat) (q : GameState × List (Color × Resources)),
      buildingColorsOk q.1 →
      resTotal (tls.foldl
        (fun (q : GameState × List (Color × Resources)) t =>
          if q.1.tileHasRobber t then q
          else
            let rtt := (q.1.tileType t).res
            let colorAmounts := tileColorAmounts q.1 t
            let left := q.1.resource_amounts.get rtt
            if left < (colorAmounts.map (·.2)).sum ∧ colorAmounts.length > 1 then q
            else
              colorAmounts.foldl
                (fun (q' : GameState × List (Color × Resources)) ca =>
                  let i := (q'.1.playerIdx? ca.1).getD q'.1.players.length
                  let res := Resources.single rtt (min ca.2 left)
                  (transfer_resources q'.1 .bank (.player i) res, q'.2 ++ [(ca.1, res)]))
                q) q).1 rt = resTotal q.1 rt by
    exact H _ _ hb
  intro tls
  induction tls with
  | nil => intro q _; rfl
  | cons t tls ih =>
    intro q hq
    rw [List.foldl_cons]
    by_cases hr : q.1.tileHasRobber t
    · rw [if_pos hr]
      exact ih q hq
    rw [if_neg hr]
    dsimp only []
    by_cases hs : q.1.resource_amounts.get (q.1.tileType t).res <
        ((tileColorAmounts q.1 t).map (·.2)).sum ∧ (tileColorAmounts q.1 t).length > 1
    · rw [if_pos hs]
      exact ih q hq
    rw [if_neg hs]
    have inner := produce_inner_fold
      (fun ca => Resources.single (q.1.tileType t).res
        (min ca.2 (q.1.resource_amounts.get (q.1.tileType t).res)))
      (tileColorAmounts q.1 t) q
      (by
        intro ca hca
        obtain ⟨v, b, hvb, hbc⟩ := tileColorAmounts_mem q.1 t ca hca
        rw [← hbc]
        exact hq v b hvb)
    beta_reduce at inner
    rw [ih _ ?_]
    · exact inner.1 rt
    · intro v b hvb
      rw [vertexBuilding_eq_of _ _ inner.2.1 v] at hvb
      rw [hasColor_eq_of _ _ inner.2.2 b.color]
      exact hq v b hvb

/-- Pushing the saved record on the action stack leaves every resource
count unchanged. -/
theorem resTotal_pushOk (sv : Bool) (s : GameState) (a : Act) (s1 : GameState)
    (saved : Saved) (rt : ResourceType) :
    resTotal (pushOk sv s a s1 saved) rt = resTotal s1 rt := by
  unfold pushOk; split <;> rfl

/-- Dispatch-level conservation: every successful `do_action` preserves
every per-resource total (bank plus all hands). -/
theorem resTotal_do_action (pick : ResourceType) (sv : Bool) (s : GameState) (a : Act)
    (s' : GameState) (hp : 0 < s.players.length) (hb : buildingColorsOk s)
    (h : do_action pick sv s a = .ok s') (rt : ResourceType) :
    resTotal s' rt = resTotal s rt := by
  unfold do_action at h
  split at h
  · exact Except.noConfusion h
  cases a with
  | endTurn =>
    dsimp only [] at h
    injection h with h'
    rw [← h', resTotal_pushOk]
    exact resTotal_end_turn s rt
  | buildSetUp v e =>
    dsimp only [] at h
    split at h
    · exact Except.noConfusion h
    rename_i q heq
    injection h with h'
    rw [← h', resTotal_pushOk]
    exact resTotal_build_set_up s v e q.1 q.2.1 q.2.2.1 q.2.2.2.1 q.2.2.2.2.1
      q.2.2.2.2.2 hp heq rt
  | produceResources token =>
    dsimp only [] at h
    split at h
    · exact Except.noConfusion h
    rename_i q heq
    injection h with h'
    rw [← h', resTotal_pushOk]
    exact resTotal_produce_resources s token q.1 q.2 hb heq rt
  | discardHalf c amounts =>
    dsimp only [] at h
    split at h
    · exact Except.noConfusion h
    rename_i q heq
    injection h with h'
    rw [← h', resTotal_pushOk]
    exact resTotal_discard_half s c amounts q.1 q.2.1 q.2.2 heq rt
  | moveRobber t victim =>
    dsimp only [] at h
    split at h
    · exact Except.noConfusion h
    rename_i q heq
    injection h with h'
    rw [← h', resTotal_pushOk]
    exact resTotal_move_robber pick s t victim q.1 q.2.1 q.2.2.1 q.2.2.2 hp heq rt
  | playKnight t victim =>
    dsimp only [] at h
    split at h
    · exact Except.noConfusion h
    rename_i q heq
    injection h with h'
    rw [← h', resTotal_pushOk]
    exact resTotal_play_knight pick s t victim q.1 q.2.1 q.2.2.1 q.2.2.2.1
      q.2.2.2.2.1 q.2.2.2.2.2 hp heq rt
  | playRoadBuilding e1 e2 =>
    dsimp only [] at h
    split at h
    · exact Except.noConfusion h
    rename_i q heq
    injection h with h'
    rw [← h', resTotal_pushOk]
    exact resTotal_play_road_building s e1 e2 q.1 q.2 heq rt
  | playYearOfPlenty r1 r2 =>
    dsimp only [] at h
    split at h
    · exact Except.noConfusion h
    rename_i q heq
    injection h with h'
    rw [← h', resTotal_pushOk]
    exact resTotal_play_year_of_plenty s r1 r2 q.1 q.2 hp heq rt
  | playMonopoly r =>
    dsimp only [] at h
    split at h
    · exact Except.noConfusion h
    rename_i q heq
    injection h with h'
    rw [← h', resTotal_pushOk]
    exact resTotal_play_monopoly s r q.1 q.2 hp heq rt
  | tradeMaritime rOut rIn =>
    dsimp only [] at h
    split at h
    · exact Except.noConfusion h
    rename_i q heq
    injection h with h'
    rw [← h', resTotal_pushOk]
    exact resTotal_maritime_trade s rOut rIn q.1 q.2.1 q.2.2 hp heq rt
  | buildRoad e =>
    dsimp only [] at h
    split at h
    · exact Except.noConfusion h
    rename_i q heq
    injection h with h'
    rw [← h', resTotal_pushOk]
    exact resTotal_build_road s e q.1 q.2 hp heq rt
  | buildSettlement v =>
    dsimp only [] at h
    split at h
    · exact Except.noConfusion h
    rename_i q heq
    injection h with h'
    rw [← h', resTotal_pushOk]
    exact resTotal_build_settlement s v q.1 q.2 hp heq rt
  | buildCity v =>
    dsimp only [] at h
    split at h
    · exact Except.noConfusion h
    rename_i q heq
    injection h with h'
    rw [← h', resTotal_pushOk]
    exact resTotal_build_city s v q.1 q.2 hp heq rt
  | buyDevelopmentCard =>
    dsimp only [] at h
    split at h
    · exact Except.noConfusion h
    rename_i q heq
    injection h with h'
    rw [← h', resTotal_pushOk]
    exact resTotal_buy_development_card s q.1 q.2 hp heq rt

/-- Mutating one player with a color-preserving function keeps the color
list. -/
theorem colors_updatePlayerAt (s : GameState) (i : Nat) (f : Player → Player)
    (hf : ∀ p, (f p).color = p.color) :
    (s.updatePlayerAt i f).players.map Player.color = s.players.map Player.color :=
  listModify_map_eq Player.color f hf s.players i

/-- Mutating the current player with a color-preserving function keeps
the color list. -/
theorem colors_updateTurn (s : GameState) (f : Player → Player)
    (hf : ∀ p, (f p).color = p.color) :
    (s.updateTurn f).players.map Player.color = s.players.map Player.color :=
  listModify_map_eq Player.color f hf s.players 0

/-- Mutating a player by color with a color-preserving function keeps
the color list. -/
theorem colors_updatePlayerC (s : GameState) (c : Color) (f : Player → Player)
    (hf : ∀ p, (f p).color = p.color) :
    (s.updatePlayerC c f).players.map Player.color = s.players.map Player.color := by
  unfold GameState.updatePlayerC
  split
  · exact listModify_map_eq Player.color f hf s.players _
  · rfl

/-- `playerIdx?` is stable under color-preserving turn mutation. -/
theorem playerIdx?_updateTurn (s : GameState) (f : Player → Player)
    (hf : ∀ p, (f p).color = p.color) (c : Color) :
    (s.updateTurn f).playerIdx? c = s.playerIdx? c :=
  playerIdx?_eq_of_colors_eq s _ c (colors_updateTurn s f hf)

/-- `_undo_end_turn` keeps the number of players. -/
theorem players_length_undo_end_turn (s : GameState) (e : EndTurnSave) :
    (undo_end_turn s e).players.length = s.players.length := by
  unfold undo_end_turn
  dsimp only []
  rw [players_length_updateTurn]
  dsimp only []
  simp only [List.length_append, List.length_drop, List.length_take]
  split
  · simp only [List.length_reverse]; omega
  · omega

/-- Undoing a road record keeps the number of players. -/
theorem players_length_undoRoadSave (s : GameState) (col : Color) (save : RoadSave)
    (wb : Bool) : (undoRoadSave s col save wb).players.length = s.players.length := by
  unfold undoRoadSave
  simp only [GameState.setEdge, players_length_updateTurn]
  split
  · split
    · simp only [players_length_updatePlayerC, players_length_updateTurn]
    · simp only [players_length_updateTurn]
  · rfl

/-- Undoing a settlement record keeps the number of players. -/
theorem players_length_undoSettleSave (s : GameState) (col : Color) (save : SettleSave) :
    (undoSettleSave s col save).players.length = s.players.length := by
  unfold undoSettleSave
  simp only [GameState.setVertex, players_length_updateTurn]
  split
  · simp only [players_length_updateTurn]
  · rfl

/-- The largest-army restore keeps the number of players. -/
theorem players_length_undoArmyBonus (s : GameState) (became : Bool)
    (prevHolder : Option Color) :
    (undoArmyBonus s became prevHolder).players.length = s.players.length := by
  unfold undoArmyBonus
  dsimp only []
  split
  · split
    · simp only [players_length_updatePlayerC, players_length_updateTurn]
    · simp only [players_length_updateTurn]
  · rfl

/-- The largest-army restore keeps the color list. -/
theorem colors_undoArmyBonus (s : GameState) (became : Bool) (prevHolder : Option Color) :
    (undoArmyBonus s became prevHolder).players.map Player.color =
      s.players.map Player.color := by
  unfold undoArmyBonus
  dsimp only []
  split
  · split
    · rw [colors_updatePlayerC _ _
        (fun p => { p with victory_points := p.victory_points + 2 }) (fun p => rfl)]
      exact colors_updateTurn _
        (fun p => { p with victory_points := p.victory_points - 2 }) (fun p => rfl)
    · exact colors_updateTurn _
        (fun p => { p with victory_points := p.victory_points - 2 }) (fun p => rfl)
  · rfl

/-- The largest-army restore keeps `playerIdx?`. -/
theorem playerIdx?_undoArmyBonus (s : GameState) (became : Bool)
    (prevHolder : Option Color) (c : Color) :
    (undoArmyBonus s became prevHolder).playerIdx? c = s.playerIdx? c :=
  playerIdx?_eq_of_colors_eq s _ c (colors_undoArmyBonus s became prevHolder)

/-- Undoing a road record moves victory points and piece counts, never
resources. -/
theorem resTotal_upd_cecv (s : GameState) (X Y : CMap (List Nat)) (rt : ResourceType) :
    resTotal { s with connected_edges := X, connected_vertices := Y } rt =
      resTotal s rt := rfl

theorem resTotal_upd_bvdrv (s : GameState) (X : CMap (List Nat)) (Y : List Nat)
    (rt : ResourceType) :
    resTotal { s with building_vertices := X, distance_rule_vertices := Y } rt =
      resTotal s rt := rfl

theorem resTotal_undoRoadSave (s : GameState) (col : Color) (save : RoadSave)
    (wb : Bool) (rt : ResourceType) :
    resTotal (undoRoadSave s col save wb) rt = resTotal s rt := by
  unfold undoRoadSave
  dsimp only []
  rw [resTotal_uT_rl, resTotal_setEdge, resTotal_upd_cecv, resTotal_uT_lr]
  split
  · split
    · rw [resTotal_uC_vp, resTotal_upd_lrp, resTotal_uT_vp]
    · rw [resTotal_upd_lrp, resTotal_uT_vp]
  · rfl

/-- Undoing a settlement record moves no resources. -/
theorem resTotal_undoSettleSave (s : GameState) (col : Color) (save : SettleSave)
    (rt : ResourceType) :
    resTotal (undoSettleSave s col save) rt = resTotal s rt := by
  unfold undoSettleSave
  dsimp only []
  rw [resTotal_uT_sl, resTotal_setVertex, resTotal_upd_bvdrv, resTotal_uT_vp]
  split
  · rw [resTotal_uT_ht]
  · rfl

/-- The largest-army restore moves no resources. -/
theorem resTotal_undoArmyBonus (s : GameState) (became : Bool)
    (prevHolder : Option Color) (rt : ResourceType) :
    resTotal (undoArmyBonus s became prevHolder) rt = resTotal s rt := by
  unfold undoArmyBonus
  dsimp only []
  split
  · split
    · rw [resTotal_uC_vp, resTotal_upd_lap, resTotal_uT_vp]
    · rw [resTotal_upd_lap, resTotal_uT_vp]
  · rfl

/-- Putting the robber back and handing the stolen card back conserves
every total, provided the recorded victim still names a player. -/
theorem resTotal_undoRobberMove (s : GameState) (tf : Option Color)
    (tt : Option ResourceType) (pt : Nat) (hp : 0 < s.players.length)
    (hc : ∀ c, tf = some c → s.hasColor c) (rt : ResourceType) :
    resTotal (undoRobberMove s tf tt pt) rt = resTotal s rt := by
  unfold undoRobberMove
  dsimp only []
  split
  · rename_i c rty
    exact Eq.trans (resTotal_transfer _ _ _ _ (by exact hp)
      (by exact getD_playerIdx_lt _ c (hc c rfl)) rt) rfl
  all_goals rfl

/-- Undoing the recorded produce transfers conserves every total, as long
as every recorded color still names a player. -/
theorem resTotal_produce_undo_fold (l : List (Color × Resources)) :
    ∀ (st s : GameState), st.players.length = s.players.length →
      (∀ c, st.playerIdx? c = s.playerIdx? c) →
      (∀ q ∈ l, s.hasColor q.1) → ∀ rt : ResourceType,
      resTotal (l.foldl (fun s' q =>
        transfer_resources s' (.player ((s'.playerIdx? q.1).getD s'.players.length))
          .bank q.2) st) rt = resTotal st rt := by
  induction l with
  | nil => intro st s h1 h2 h3 rt; rfl
  | cons q l ih =>
    intro st s h1 h2 h3 rt
    have hst : st.hasColor q.1 := by
      unfold GameState.hasColor
      rw [h2]
      exact h3 q (List.mem_cons_self q l)
    rw [List.foldl_cons]
    refine Eq.trans (ih _ s ?_ ?_ ?_ rt) ?_
    · rw [transfer_players_length]; exact h1
    · intro c; rw [transfer_playerIdx?]; exact h2 c
    · intro q' hq'; exact h3 q' (List.mem_cons_of_mem q hq')
    · exact resTotal_transfer _ _ _ _ (by exact getD_playerIdx_lt st q.1 hst) (by trivial) rt

/-- Undoing the recorded monopoly transfers conserves every total. -/
theorem resTotal_monopoly_undo_fold (l : List (Color × Resources)) :
    ∀ (st s : GameState), st.players.length = s.players.length →
      (∀ c, st.playerIdx? c = s.playerIdx? c) → 0 < s.players.length →
      (∀ q ∈ l, s.hasColor q.1) → ∀ rt : ResourceType,
      resTotal (l.foldl (fun s' q =>
        transfer_resources s' (.player 0)
          (.player ((s'.playerIdx? q.1).getD s'.players.length)) q.2) st) rt =
        resTotal st rt := by
  induction l with
  | nil => intro st s h1 h2 hp h3 rt; rfl
  | cons q l ih =>
    intro st s h1 h2 hp h3 rt
    have hst : st.hasColor q.1 := by
      unfold GameState.hasColor
      rw [h2]
      exact h3 q (List.mem_cons_self q l)
    rw [List.foldl_cons]
    refine Eq.trans (ih _ s ?_ ?_ hp ?_ rt) ?_
    · rw [transfer_players_length]; exact h1
    · intro c; rw [transfer_playerIdx?]; exact h2 c
    · intro q' hq'; exact h3 q' (List.mem_cons_of_mem q hq')
    · exact resTotal_transfer _ _ _ _ (by rw [validParty, h1]; exact hp)
        (by exact getD_playerIdx_lt st q.1 hst) rt

/-- Undoing a list of road records moves no resources. -/
theorem resTotal_undoRoadSave_fold (l : List RoadSave) (col : Color) :
    ∀ (st : GameState) (rt : ResourceType),
      resTotal (l.foldl (fun s' save => undoRoadSave s' col save true) st) rt =
        resTotal st rt := by
  induction l with
  | nil => intro st rt; rfl
  | cons x l ih =>
    intro st rt
    rw [List.foldl_cons, ih, resTotal_undoRoadSave]

/-- Undo-level conservation: every successful `undo_action` preserves
every per-resource total, provided the record's colors still name
players. -/
theorem resTotal_undo_action (s s' : GameState) (hp : 0 < s.players.length)
    (hrec : stackHeadColorsOk s) (h : undo_action s = some s') (rt : ResourceType) :
    resTotal s' rt = resTotal s rt := by
  unfold undo_action at h
  split at h
  · exact Option.noConfusion h
  rename_i a saved? rest heq
  dsimp only [] at h
  unfold stackHeadColorsOk at hrec
  rw [heq] at hrec
  split at h
  · rename_i e
    injection h with h'
    rw [← h']
    exact Eq.trans (resTotal_undo_end_turn _ e rt) rfl
  · rename_i settleSave roadSave endSave secondRound res
    injection h with h'
    rw [← h', resTotal_undoSettleSave, resTotal_undoRoadSave]
    split
    · exact Eq.trans (resTotal_transfer _ _ _ _
        (by rw [validParty, players_length_undo_end_turn]; exact hp) (by trivial) rt)
        (Eq.trans (resTotal_undo_end_turn _ _ rt) rfl)
    · exact Eq.trans (resTotal_undo_end_turn _ _ rt) rfl
  · rename_i ts
    injection h with h'
    rw [← h']
    exact Eq.trans (resTotal_produce_undo_fold ts
      ({ s with action_stack := rest } : GameState) s rfl (fun c => rfl)
      (show ∀ q ∈ ts, s.hasColor q.1 from hrec) rt) rfl
  · rename_i c res
    injection h with h'
    rw [← h']
    exact Eq.trans (resTotal_transfer _ _ _ _ (by trivial)
      (by exact getD_playerIdx_lt _ c (show s.hasColor c from hrec)) rt) rfl
  · rename_i tf tt pt
    injection h with h'
    rw [← h']
    exact Eq.trans (resTotal_undoRobberMove
      ({ s with action_stack := rest } : GameState) tf tt pt hp
      (show ∀ c, tf = some c → s.hasColor c from hrec) rt) rfl
  · rename_i tf tt pt became ph
    injection h with h'
    rw [← h']
    refine Eq.trans (resTotal_undoRobberMove _ tf tt pt ?_ ?_ rt) ?_
    · rw [players_length_updateTurn, players_length_updateTurn, players_length_undoArmyBonus]
      exact hp
    · intro c hcc
      have hsc : s.hasColor c := (show ∀ c, tf = some c → s.hasColor c from hrec) c hcc
      unfold GameState.hasColor
      rw [playerIdx?_updateTurn _
          (fun p => { p with development_cards :=
            p.development_cards ++ [⟨DevelopmentCardType.knight, true⟩] }) (fun p => rfl),
        playerIdx?_updateTurn _
          (fun p => { p with knights_played := p.knights_played - 1 }) (fun p => rfl),
        playerIdx?_undoArmyBonus]
      exact hsc
    · rw [resTotal_uT_dc, resTotal_uT_kp, resTotal_undoArmyBonus]
      rfl
  · rename_i saves
    injection h with h'
    rw [← h']
    exact Eq.trans (resTotal_uT_dc _ _ rt)
      (Eq.trans (resTotal_undoRoadSave_fold saves.reverse _ _ rt) rfl)
  · rename_i res
    injection h with h'
    rw [← h']
    exact Eq.trans (resTotal_uT_dc _ _ rt)
      (Eq.trans (resTotal_transfer _ _ _ _ (by exact hp) (by trivial) rt) rfl)
  · rename_i ts
    injection h with h'
    rw [← h']
    exact Eq.trans (resTotal_uT_dc _ _ rt)
      (Eq.trans (resTotal_monopoly_undo_fold ts
        ({ s with action_stack := rest } : GameState) s rfl (fun c => rfl) hp
        (show ∀ q ∈ ts, s.hasColor q.1 from hrec) rt) rfl)
  · rename_i resOut resIn
    injection h with h'
    rw [← h']
    exact Eq.trans (resTotal_transfer _ _ _ _
        (by rw [validParty, transfer_players_length]; exact hp) (by trivial) rt)
      (Eq.trans (resTotal_transfer _ _ _ _ (by trivial) (by exact hp) rt) rfl)
  · rename_i save
    injection h with h'
    rw [← h']
    exact Eq.trans (resTotal_transfer _ _ _ _ (by trivial)
        (by rw [validParty, players_length_undoRoadSave]; exact hp) rt)
      (Eq.trans (resTotal_undoRoadSave _ _ _ _ rt) rfl)
  · rename_i save
    injection h with h'
    rw [← h']
    exact Eq.trans (resTotal_transfer _ _ _ _ (by trivial)
        (by rw [validParty, players_length_undoSettleSave]; exact hp) rt)
      (Eq.trans (resTotal_undoSettleSave _ _ _ rt) rfl)
  · rename_i v
    injection h with h'
    rw [← h']
    rw [resTotal_transfer _ _ _ _ (by trivial) (by
      rw [validParty, players_length_updateTurn]
      dsimp only []
      rw [players_length_updateTurn]
      exact hp) rt]
    rw [resTotal_uT_city, resTotal_upd_vertices, resTotal_uT_vp]
    rfl
  · rename_i card
    injection h with h'
    rw [← h']
    rw [resTotal_transfer _ _ _ _ (by trivial) (by
      rw [validParty]
      dsimp only []
      rw [players_length_updateTurn]
      split
      · rw [players_length_updateTurn]; exact hp
      · exact hp) rt]
    rw [resTotal_upd_deck, resTotal_uT_dc]
    split
    · rw [resTotal_uT_vp]
      rfl
    · rfl
  all_goals exact Option.noConfusion h

/-- A list-level sufficient condition for `buildingColorsOk` that a
concrete state can establish by evaluation. -/
theorem buildingColorsOk_of_all (s : GameState)
    (h : s.vertices.all (fun o => match o with
      | some b => s.hasColor b.color
      | none => true)) : buildingColorsOk s := by
  intro v b hvb
  unfold GameState.vertexBuilding at hvb
  cases ho : s.vertices.get? v with
  | none => rw [ho] at hvb; exact Option.noConfusion hvb
  | some o =>
    rw [ho] at hvb
    have hall := List.all_eq_true.mp h _ (List.get?_mem ho)
    rw [show o = some b from hvb] at hall
    exact hall

/-- C2: for every resource type, the bank count plus the sum over all
player hands is preserved by every successfully applied `do_action` and
by every `undo_action`; in particular it stays 19 whenever it was 19
before (the well-formedness hypotheses — at least one player, buildings
owned by players, undo-record colors naming players — hold in every
engine-constructed state). -/
theorem C2_bank_conservation (pick : ResourceType) (sv : Bool) (s : GameState) (a : Act)
    (s1 s2 : GameState) (rt : ResourceType) (hp : 0 < s.players.length)
    (hb : buildingColorsOk s) (hrec : stackHeadColorsOk s)
    (h19 : resTotal s rt = 19) :
    (do_action pick sv s a = .ok s1 → resTotal s1 rt = 19) ∧
    (undo_action s = some s2 → resTotal s2 rt = 19) :=
  ⟨fun h => (resTotal_do_action pick sv s a s1 hp hb h rt).trans h19,
   fun h => (resTotal_undo_action s s2 hp hrec h rt).trans h19⟩

/-- C2 witness: in the concrete base-layout game, the brick total is 19
after the first set-up action, and again after undoing it. -/
theorem C2_bank_conservation_witness :
    resTotal demoAfterSetup ResourceType.brick = 19 ∧
    resTotal ((undo_action demoAfterSetup).getD demoInit) ResourceType.brick = 19 := by
  constructor
  · exact (C2_bank_conservation ResourceType.brick true demoInit (Act.buildSetUp 7 7)
      demoAfterSetup demoInit ResourceType.brick (by decide)
      (buildingColorsOk_of_all _ (by decide)) (by decide) (by decide)).1 (by rfl)
  · exact (C2_bank_conservation ResourceType.brick true demoAfterSetup Act.endTurn
      demoAfterSetup ((undo_action demoAfterSetup).getD demoInit) ResourceType.brick
      (by decide) (buildingColorsOk_of_all _ (by decide)) (by decide) (by decide)).2 (by rfl)

/-- On every error path of `do_action` the returned state is either the
pre-call state or the pre-call state with the partial record shell
pushed. -/
theorem do_action_error (pick : ResourceType) (sv : Bool) (s : GameState) (a : Act)
    (err : Err) (s' : GameState) (h : do_action pick sv s a = .error (err, s')) :
    s' = s ∨ (sv = true ∧ s' = { s with action_stack := (a, none) :: s.action_stack }) := by
  unfold do_action at h
  split at h
  · left
    injection h with h'
    exact (congrArg Prod.snd h').symm
  cases a <;> dsimp only [] at h
  case endTurn => exact Except.noConfusion h
  all_goals
    split at h
    · injection h with h'
      have h2 := congrArg Prod.snd h'
      unfold pushFail at h2
      dsimp only [] at h2
      cases sv
      · left
        simpa using h2.symm
      · right
        exact ⟨rfl, by simpa using h2.symm⟩
    · exact Except.noConfusion h

/-- C3 (amended): when `do_action` reports an error, everything outside
the history stack is exactly as before the call; with `save_state` unset
the state is bit-identical, and with `save_state` set the only possible
difference is the partial `[action, extra]` shell that was pushed before
the handler ran (the phase check fires before the push and leaves even
that off). -/
theorem C3_error_atomicity (pick : ResourceType) (sv : Bool) (s : GameState) (a : Act)
    (err : Err) (s' : GameState) (h : do_action pick sv s a = .error (err, s')) :
    (sv = false → s' = s) ∧
    (s' = s ∨ s' = { s with action_stack := (a, none) :: s.action_stack }) := by
  rcases do_action_error pick sv s a err s' h with h1 | ⟨hsv, h2⟩
  · exact ⟨fun _ => h1, Or.inl h1⟩
  · refine ⟨fun hf => ?_, Or.inr h2⟩
    rw [hsv] at hf
    exact Bool.noConfusion hf

/-- C3 counterexample: a failing set-up placement called with
`save_state` leaves the partial record on the history stack, so the
error state is not the pre-call state. -/
theorem C3_error_atomicity_counterexample :
    do_action ResourceType.brick true demoInit (Act.buildSetUp 7 20) =
      .error (Err.buildLocation,
        { demoInit with action_stack := [(Act.buildSetUp 7 20, none)] }) ∧
    ({ demoInit with action_stack := [(Act.buildSetUp 7 20, none)] } : GameState) ≠
      demoInit :=
  ⟨rfl, by decide⟩

/-- C3 witness: the amended characterization evaluated on the failing
set-up placement. -/
theorem C3_error_atomicity_witness :
    ({ demoInit with action_stack := [(Act.buildSetUp 7 20, none)] } : GameState) =
      demoInit ∨
    ({ demoInit with action_stack := [(Act.buildSetUp 7 20, none)] } : GameState) =
      { demoInit with action_stack :=
          (Act.buildSetUp 7 20, none) :: demoInit.action_stack } :=
  (C3_error_atomicity ResourceType.brick true demoInit (Act.buildSetUp 7 20)
    Err.buildLocation _ (by rfl)).2

/-- C8 (amended): `move_robber` succeeds exactly when the tile index is
valid and differs from the robber's current tile and the victim choice is
coherent: a named victim must be a player other than the mover with a
building on the target tile (an empty-handed victim is accepted — the
steal is silently skipped), and omitting the victim requires that no
opponent with a building on the tile holds any resources. -/
theorem C8_move_robber_contract (pick : ResourceType) (s : GameState) (t : Nat)
    (victim : Option Color) :
    (move_robber pick s t victim).isOk = true ↔
      (t < 19 ∧ t ≠ s.robber_tile ∧
        match victim with
        | some c => s.hasColor c ∧ c ≠ s.turn.color ∧ c ∈ colorsOnTile s t s.turn.color
        | none => ∀ c ∈ colorsOnTile s t s.turn.color, victimHasRes s c = false) := by
  unfold move_robber
  cases victim with
  | some c =>
    dsimp only []
    constructor
    · intro h
      repeat' split at h
      all_goals simp only [Except.isOk] at h
      all_goals try exact Bool.noConfusion h
      all_goals rename_i h1 h2 h3 h4 h5 h6
      all_goals refine ⟨by omega, h4, ?_, fun heq => h3 (by rw [heq]), not_not.mp h5⟩
      all_goals simpa using h2
    · rintro ⟨hlt, hne, hcol, hneq, hmem⟩
      rw [if_neg (by omega), if_neg (by simp [hcol]), if_neg (by simp [hneq]), if_neg hne,
        if_neg (not_not_intro hmem)]
      split <;> rfl
  | none =>
    dsimp only []
    constructor
    · intro h
      repeat' split at h
      all_goals simp only [Except.isOk] at h
      all_goals try exact Bool.noConfusion h
      all_goals rename_i h1 h2 h3 h4 h5
      all_goals refine ⟨by omega, h4, ?_⟩
      all_goals intro cc hcc
      all_goals exact Bool.eq_false_iff.mpr (fun htrue =>
        h5 (List.any_eq_true.mpr ⟨cc, hcc, htrue⟩))
    · rintro ⟨hlt, hne, hall⟩
      rw [if_neg (by omega), if_neg (by simp), if_neg (by simp), if_neg hne,
        if_neg (by
          intro hany
          obtain ⟨cc, hcc, htrue⟩ := List.any_eq_true.mp hany
          rw [hall cc hcc] at htrue
          exact Bool.noConfusion htrue)]
      rfl

/-- C8 counterexample: in the concrete set-up state, blue has a building
on tile 3 and an empty hand, yet orange's `move_robber` naming blue as
the victim succeeds — the call does not fail on an empty-handed victim. -/
theorem C8_move_robber_contract_counterexample :
    (move_robber ResourceType.brick demoAfterSetup 3 (some Color.blue)).isOk = true ∧
    victimHasRes demoAfterSetup Color.blue = false ∧
    Color.blue ∈ colorsOnTile demoAfterSetup 3 demoAfterSetup.turn.color := by decide

/-- `findIdx?` never answers below its accumulator. -/
theorem findIdx?_ge (p : α → Bool) :
    ∀ (l : List α) (j k : Nat), l.findIdx? p j = some k → j ≤ k
  | [], _, _, h => Option.noConfusion h
  | x :: xs, j, k, h => by
    rw [show (x :: xs).findIdx? p j = if p x then some j else xs.findIdx? p (j + 1)
      from rfl] at h
    split at h
    · injection h with h'
      omega
    · have := findIdx?_ge p xs (j + 1) k h
      omega

/-- Modifying the found element changes `find?` by exactly `f`, as long
as `f` preserves the predicate. -/
theorem find?_listModify_findIdx (p : α → Bool) (f : α → α) (hf : ∀ a, p (f a) = p a) :
    ∀ (l : List α) (j i : Nat), l.findIdx? p j = some (i + j) →
      List.find? p (listModify l i f) = (List.find? p l).map f
  | [], _, _, h => Option.noConfusion h
  | x :: xs, j, i, h => by
    rw [show (x :: xs).findIdx? p j = if p x then some j else xs.findIdx? p (j + 1)
      from rfl] at h
    split at h
    · rename_i hx
      injection h with h'
      have hi : i = 0 := by omega
      subst hi
      rw [listModify_cons_zero, List.find?_cons_of_pos _ (by rw [hf]; exact hx),
        List.find?_cons_of_pos _ hx]
      rfl
    · rename_i hx
      have hge := findIdx?_ge p xs (j + 1) (i + j) h
      obtain ⟨i', rfl⟩ : ∃ i', i = i' + 1 := ⟨i - 1, by omega⟩
      rw [listModify_cons_succ, List.find?_cons_of_neg _ hx, List.find?_cons_of_neg _ hx]
      exact find?_listModify_findIdx p f hf xs (j + 1) i'
        (by rw [show i' + (j + 1) = i' + 1 + j from by omega]; exact h)

/-- A list with no predicate index has no predicate witness. -/
theorem find?_eq_none_of_findIdx?_none (p : α → Bool) :
    ∀ (l : List α) (j : Nat), l.findIdx? p j = none → l.find? p = none
  | [], _, _ => rfl
  | x :: xs, j, h => by
    rw [show (x :: xs).findIdx? p j = if p x then some j else xs.findIdx? p (j + 1)
      from rfl] at h
    split at h
    · exact Option.noConfusion h
    · rename_i hx
      rw [List.find?_cons_of_neg _ hx]
      exact find?_eq_none_of_findIdx?_none p xs (j + 1) h

/-- Observations that ignore the modification commute with `find?` over
a `listModify` at any position. -/
theorem find?_listModify_map (p : α → Bool) (f : α → α) (g : α → β)
    (hf : ∀ a, p (f a) = p a) (hg : ∀ a, g (f a) = g a) :
    ∀ (l : List α) (i : Nat),
      ((listModify l i f).find? p).map g = (l.find? p).map g
  | [], _ => rfl
  | x :: xs, 0 => by
    rw [listModify_cons_zero]
    by_cases hx : p x
    · rw [List.find?_cons_of_pos _ (by rw [hf]; exact hx), List.find?_cons_of_pos _ hx]
      simp [hg]
    · rw [List.find?_cons_of_neg _ (by rw [hf]; exact hx), List.find?_cons_of_neg _ hx]
  | x :: xs, i + 1 => by
    rw [listModify_cons_succ]
    by_cases hx : p x
    · rw [List.find?_cons_of_pos _ hx, List.find?_cons_of_pos _ hx]
    · rw [List.find?_cons_of_neg _ hx, List.find?_cons_of_neg _ hx]
      exact find?_listModify_map p f g hf hg xs i

/-- Head observations that ignore the modification pass through
`listModify`. -/
theorem headI_g_listModify [Inhabited α] (g : α → β) (l : List α) (i : Nat) (f : α → α)
    (hf : ∀ a, g (f a) = g a) : g ((listModify l i f).headI) = g l.headI := by
  cases l with
  | nil => rfl
  | cons x xs =>
    cases i with
    | zero => rw [listModify_cons_zero]; exact hf x
    | succ i => rw [listModify_cons_succ]; rfl

/-- The turn player's color survives a color-preserving player mutation. -/
theorem turn_color_updatePlayerAt (s : GameState) (i : Nat) (f : Player → Player)
    (hf : ∀ q, (f q).color = q.color) :
    (s.updatePlayerAt i f).turn.color = s.turn.color :=
  headI_g_listModify Player.color s.players i f hf

/-- `playerOf?` at another color than the turn player's ignores a
color-preserving turn mutation. -/
theorem playerOf?_updateTurn_ne (s : GameState) (f : Player → Player)
    (hf : ∀ q, (f q).color = q.color) (c : Color) (hc : s.turn.color ≠ c) :
    (s.updateTurn f).playerOf? c = s.playerOf? c := by
  unfold GameState.playerOf? GameState.updateTurn GameState.updatePlayerAt
  have hturn : s.turn = s.players.headI := rfl
  rw [hturn] at hc
  rcases hl : s.players with _ | ⟨x, xs⟩
  · rfl
  · rw [hl] at hc
    have hc' : ¬ x.color = c := by simpa using hc
    have hx : ¬ (decide (x.color = c) = true) := by simpa using hc'
    have hfx : ¬ (decide ((f x).color = c) = true) := by simpa [hf] using hc'
    rw [listModify_cons_zero]
    dsimp only []
    have hx' : decide (x.color = c) = false := by simpa using hc'
    have hfx' : decide ((f x).color = c) = false := by simpa [hf] using hc'
    simp only [List.find?, hx', hfx']

/-- Mutating the player of a color changes `playerOf?` at that color by
exactly `f`, for color-preserving `f`. -/
theorem playerOf?_updatePlayerC_self (s : GameState) (c : Color) (f : Player → Player)
    (hf : ∀ q, (f q).color = q.color) :
    (s.updatePlayerC c f).playerOf? c = (s.playerOf? c).map f := by
  unfold GameState.updatePlayerC
  cases hidx : s.playerIdx? c with
  | none =>
    dsimp only []
    have hnone : s.playerOf? c = none :=
      find?_eq_none_of_findIdx?_none _ s.players 0 hidx
    rw [hnone]
    rfl
  | some i =>
    dsimp only []
    exact find?_listModify_findIdx _ f (fun a => by simp [hf]) s.players 0 i
      (by rw [Nat.add_zero]; exact hidx)

/-- Resource-only observations of `playerOf?` are invariant under
`applyParty`. -/
theorem playerOf?_map_applyParty (s : GameState) (pty : Party) (f : Resources → Resources)
    (g : Player → β) (hg : ∀ (q : Player) (r : Resources),
      g { q with resource_amounts := r } = g q) (c : Color) :
    ((applyParty s pty f).playerOf? c).map g = (s.playerOf? c).map g := by
  cases pty with
  | bank => rfl
  | player i =>
    unfold applyParty GameState.updatePlayerAt GameState.playerOf?
    exact find?_listModify_map (fun q => decide (q.color = c))
      (fun pl => { pl with resource_amounts := f pl.resource_amounts }) g
      (fun a => rfl) (fun a => hg a _) s.players i

/-- Resource-only observations of `playerOf?` are invariant under a
transfer. -/
theorem playerOf?_map_transfer (s : GameState) (pf pt : Party) (ra : Resources)
    (g : Player → β) (hg : ∀ (q : Player) (r : Resources),
      g { q with resource_amounts := r } = g q) (c : Color) :
    ((transfer_resources s pf pt ra).playerOf? c).map g = (s.playerOf? c).map g := by
  unfold transfer_resources
  rw [playerOf?_map_applyParty _ _ _ g hg, playerOf?_map_applyParty _ _ _ g hg]

/-- Head observations that ignore the mutation pass through a player
mutation at any index. -/
theorem turn_g_updatePlayerAt (s : GameState) (i : Nat) (f : Player → Player)
    (g : Player → β) (hg : ∀ q, g (f q) = g q) :
    g (s.updatePlayerAt i f).turn = g s.turn :=
  headI_g_listModify g s.players i f hg

/-- Head observations that ignore the mutation pass through a by-color
player mutation. -/
theorem turn_g_updatePlayerC (s : GameState) (c : Color) (f : Player → Player)
    (g : Player → β) (hg : ∀ q, g (f q) = g q) :
    g (s.updatePlayerC c f).turn = g s.turn := by
  unfold GameState.updatePlayerC
  split
  · exact headI_g_listModify g s.players _ f hg
  · rfl

/-- With at least one player, mutating the turn player rewrites the turn
object by exactly `f`. -/
theorem turn_updateTurn_of_pos (s : GameState) (f : Player → Player)
    (hp : 0 < s.players.length) : (s.updateTurn f).turn = f s.turn := by
  unfold GameState.turn GameState.updateTurn GameState.updatePlayerAt
  rcases hl : s.players with _ | ⟨x, xs⟩
  · rw [hl] at hp; simp at hp
  · dsimp only []
    rw [listModify_cons_zero]
    rfl

/-- Mutating another color's player leaves the turn object alone. -/
theorem turn_updatePlayerC_ne (s : GameState) (c : Color) (f : Player → Player)
    (hc : s.turn.color ≠ c) : (s.updatePlayerC c f).turn = s.turn := by
  unfold GameState.updatePlayerC
  cases hidx : s.playerIdx? c with
  | none => rfl
  | some i =>
    dsimp only []
    cases i with
    | zero =>
      exfalso
      unfold GameState.playerIdx? at hidx
      rcases hl : s.players with _ | ⟨x, xs⟩
      · rw [hl] at hidx; exact Option.noConfusion hidx
      · rw [hl] at hidx
        rw [show (x :: xs).findIdx? (fun p => decide (p.color = c)) =
          if decide (x.color = c) then some 0
          else xs.findIdx? (fun p => decide (p.color = c)) 1 from rfl] at hidx
        split at hidx
        · rename_i hx
          apply hc
          rw [show s.turn = s.players.headI from rfl, hl]
          simpa using hx
        · have := findIdx?_ge _ xs 1 0 hidx
          omega
    | succ i =>
      show ({ s with players := listModify s.players (i + 1) f } : GameState).turn = s.turn
      unfold GameState.turn
      dsimp only []
      rcases hl : s.players with _ | ⟨x, xs⟩
      · rfl
      · rw [listModify_cons_succ]
        rfl

/-- The element `findIdx?` points at satisfies the predicate. -/
theorem findIdx?_get (p : α → Bool) :
    ∀ (l : List α) (j k : Nat), l.findIdx? p j = some (k + j) →
      ∀ a, l.get? k = some a → p a = true
  | [], _, _, h => fun a ha => Option.noConfusion h
  | x :: xs, j, k, h => by
    rw [show (x :: xs).findIdx? p j = if p x then some j else xs.findIdx? p (j + 1)
      from rfl] at h
    split at h
    · rename_i hx
      injection h with h'
      have hk : k = 0 := by omega
      subst hk
      intro a ha
      injection ha with ha'
      rw [← ha']
      exact hx
    · rename_i hx
      have hge := findIdx?_ge p xs (j + 1) (k + j) h
      intro a ha
      obtain ⟨k', rfl⟩ : ∃ k', k = k' + 1 := ⟨k - 1, by omega⟩
      exact findIdx?_get p xs (j + 1) k'
        (by rw [show k' + (j + 1) = k' + 1 + j from by omega]; exact h) a ha

/-- `find?` ignores a modification at a position whose element fails the
predicate, for predicate-preserving `f`. -/
theorem find?_listModify_of_not (p : α → Bool) (f : α → α)
    (hpf : ∀ a, p (f a) = p a) :
    ∀ (l : List α) (i : Nat), (∀ a, l.get? i = some a → p a = false) →
      List.find? p (listModify l i f) = List.find? p l
  | [], _, _ => rfl
  | x :: xs, 0, h => by
    rw [listModify_cons_zero]
    have hx : p x = false := h x rfl
    rw [List.find?_cons_of_neg _ (by rw [hpf]; simp [hx]),
      List.find?_cons_of_neg _ (by simp [hx])]
  | x :: xs, i + 1, h => by
    rw [listModify_cons_succ]
    by_cases hx : p x
    · rw [List.find?_cons_of_pos _ hx, List.find?_cons_of_pos _ hx]
    · rw [List.find?_cons_of_neg _ hx, List.find?_cons_of_neg _ hx]
      exact find?_listModify_of_not p f hpf xs i (fun a ha => h a ha)

/-- Mutating one color's player does not move `playerOf?` at another
color, for color-preserving `f`. -/
theorem playerOf?_updatePlayerC_ne (s : GameState) (c : Color) (f : Player → Player)
    (c' : Color) (hcc : c' ≠ c) (hf : ∀ q, (f q).color = q.color) :
    (s.updatePlayerC c f).playerOf? c' = s.playerOf? c' := by
  unfold GameState.updatePlayerC
  cases hidx : s.playerIdx? c with
  | none => rfl
  | some i =>
    dsimp only []
    unfold GameState.updatePlayerAt GameState.playerOf?
    show List.find? (fun q => decide (q.color = c')) (listModify s.players i f) =
      List.find? (fun q => decide (q.color = c')) s.players
    refine find?_listModify_of_not _ f (fun a => by simp [hf]) s.players i ?_
    intro a ha
    have hpa : decide (a.color = c) = true := by
      unfold GameState.playerIdx? at hidx
      exact findIdx?_get (fun q => decide (q.color = c)) s.players 0 i
        (by rw [Nat.add_zero]; exact hidx) a ha
    simp only [decide_eq_true_eq] at hpa
    simp [hpa]
    exact fun h => hcc (h ▸ rfl)

/-- Resource-only turn observations pass through `applyParty`. -/
theorem turn_g_applyParty (s : GameState) (pty : Party) (f : Resources → Resources)
    (g : Player → β) (hg : ∀ (q : Player) (r : Resources),
      g { q with resource_amounts := r } = g q) :
    g (applyParty s pty f).turn = g s.turn := by
  cases pty with
  | bank => rfl
  | player i => exact turn_g_updatePlayerAt s i _ g (fun q => hg q _)

/-- Resource-only turn observations pass through a transfer. -/
theorem turn_g_transfer (s : GameState) (pf pt : Party) (ra : Resources)
    (g : Player → β) (hg : ∀ (q : Player) (r : Resources),
      g { q with resource_amounts := r } = g q) :
    g (transfer_resources s pf pt ra).turn = g s.turn := by
  unfold transfer_resources
  exact Eq.trans (turn_g_applyParty _ _ _ g hg) (turn_g_applyParty _ _ _ g hg)

/-- Resource-only turn observations pass through a successful
`move_robber`. -/
theorem turn_g_move_robber (pick : ResourceType) (s : GameState) (t : Nat)
    (victim : Option Color) (s1 : GameState) (tf : Option Color)
    (tt : Option ResourceType) (pt : Nat) (g : Player → β)
    (hg : ∀ (q : Player) (r : Resources), g { q with resource_amounts := r } = g q)
    (h : move_robber pick s t victim = .ok (s1, tf, tt, pt)) : g s1.turn = g s.turn := by
  unfold move_robber at h
  repeat' split at h
  all_goals first
    | exact Except.noConfusion h
    | (injection h with h'
       have h1 : _ = s1 := congrArg Prod.fst h'
       rw [← h1]
       first
         | exact turn_g_transfer _ _ _ _ g hg
         | rfl)

/-- A successful `move_robber` keeps the number of players. -/
theorem move_robber_players_length (pick : ResourceType) (s : GameState) (t : Nat)
    (victim : Option Color) (s1 : GameState) (tf : Option Color)
    (tt : Option ResourceType) (pt : Nat)
    (h : move_robber pick s t victim = .ok (s1, tf, tt, pt)) :
    s1.players.length = s.players.length := by
  unfold move_robber at h
  repeat' split at h
  all_goals first
    | exact Except.noConfusion h
    | (injection h with h'
       have h1 : _ = s1 := congrArg Prod.fst h'
       rw [← h1]
       first
         | exact transfer_players_length _ _ _ _
         | rfl)

/-- Resource-only `playerOf?` observations pass through a successful
`move_robber`. -/
theorem playerOf?_map_move_robber (pick : ResourceType) (s : GameState) (t : Nat)
    (victim : Option Color) (s1 : GameState) (tf : Option Color)
    (tt : Option ResourceType) (pt : Nat) (g : Player → β)
    (hg : ∀ (q : Player) (r : Resources), g { q with resource_amounts := r } = g q)
    (h : move_robber pick s t victim = .ok (s1, tf, tt, pt)) (c : Color) :
    (s1.playerOf? c).map g = (s.playerOf? c).map g := by
  unfold move_robber at h
  repeat' split at h
  all_goals first
    | exact Except.noConfusion h
    | (injection h with h'
       have h1 : _ = s1 := congrArg Prod.fst h'
       rw [← h1]
       first
         | exact playerOf?_map_transfer _ _ _ _ g hg c
         | rfl)

/-- `awardRoadBonus` records the new holder. -/
theorem lrp_awardRoadBonus (s : GameState) (col : Color) (holder : Option Color) :
    (awardRoadBonus s col holder).longest_road_player = some col := rfl

/-- `awardArmyBonus` records the new holder. -/
theorem lap_awardArmyBonus (s : GameState) (col : Color) (holder : Option Color) :
    (awardArmyBonus s col holder).largest_army_player = some col := rfl

/-- Victory-point-blind turn observations pass through
`awardRoadBonus`. -/
theorem turn_g_awardRoadBonus (s : GameState) (col : Color) (holder : Option Color)
    (g : Player → β) (hg : ∀ (q : Player) (n : Int),
      g { q with victory_points := n } = g q) :
    g (awardRoadBonus s col holder).turn = g s.turn := by
  unfold awardRoadBonus
  dsimp only []
  refine Eq.trans (turn_g_updatePlayerAt _ 0
    (fun p => { p with victory_points := p.victory_points + 2 }) g (fun q => hg q _)) ?_
  cases holder with
  | none => rfl
  | some c' =>
    exact turn_g_updatePlayerC s c'
      (fun p => { p with victory_points := p.victory_points - 2 }) g (fun q => hg q _)

/-- Victory-point-blind turn observations pass through
`awardArmyBonus`. -/
theorem turn_g_awardArmyBonus (s : GameState) (col : Color) (holder : Option Color)
    (g : Player → β) (hg : ∀ (q : Player) (n : Int),
      g { q with victory_points := n } = g q) :
    g (awardArmyBonus s col holder).turn = g s.turn := by
  unfold awardArmyBonus
  dsimp only []
  refine Eq.trans (turn_g_updatePlayerAt _ 0
    (fun p => { p with victory_points := p.victory_points + 2 }) g (fun q => hg q _)) ?_
  cases holder with
  | none => rfl
  | some c' =>
    exact turn_g_updatePlayerC s c'
      (fun p => { p with victory_points := p.victory_points - 2 }) g (fun q => hg q _)

/-- The bonus grants the mover 2 victory points (the charged holder,
when one exists, is another color). -/
theorem vp_awardRoadBonus (s : GameState) (col : Color) (holder : Option Color)
    (hp : 0 < s.players.length)
    (hcc : ∀ c', holder = some c' → s.turn.color ≠ c') :
    (awardRoadBonus s col holder).turn.victory_points = s.turn.victory_points + 2 := by
  unfold awardRoadBonus
  dsimp only []
  cases holder with
  | none =>
    rw [turn_updateTurn_of_pos _ _ (by exact hp)]
    rfl
  | some c' =>
    rw [turn_updateTurn_of_pos _ _ (by
      show 0 < (s.updatePlayerC c' (fun p =>
        { p with victory_points := p.victory_points - 2 })).players.length
      rw [players_length_updatePlayerC]
      exact hp)]
    show (s.updatePlayerC c' (fun p =>
      { p with victory_points := p.victory_points - 2 })).turn.victory_points + 2 =
      s.turn.victory_points + 2
    rw [turn_updatePlayerC_ne s c' _ (hcc c' rfl)]

/-- The bonus grants the mover 2 victory points (army version). -/
theorem vp_awardArmyBonus (s : GameState) (col : Color) (holder : Option Color)
    (hp : 0 < s.players.length)
    (hcc : ∀ c', holder = some c' → s.turn.color ≠ c') :
    (awardArmyBonus s col holder).turn.victory_points = s.turn.victory_points + 2 := by
  unfold awardArmyBonus
  dsimp only []
  cases holder with
  | none =>
    rw [turn_updateTurn_of_pos _ _ (by exact hp)]
    rfl
  | some c' =>
    rw [turn_updateTurn_of_pos _ _ (by
      show 0 < (s.updatePlayerC c' (fun p =>
        { p with victory_points := p.victory_points - 2 })).players.length
      rw [players_length_updatePlayerC]
      exact hp)]
    show (s.updatePlayerC c' (fun p =>
      { p with victory_points := p.victory_points - 2 })).turn.victory_points + 2 =
      s.turn.victory_points + 2
    rw [turn_updatePlayerC_ne s c' _ (hcc c' rfl)]

/-- The bonus deducts 2 victory points from the charged holder. -/
theorem playerOf?_awardRoadBonus_holder (s : GameState) (col : Color) (c' : Color)
    (hne : s.turn.color ≠ c') :
    (awardRoadBonus s col (some c')).playerOf? c' =
      (s.playerOf? c').map (fun p => { p with victory_points := p.victory_points - 2 }) := by
  unfold awardRoadBonus
  dsimp only []
  rw [playerOf?_updateTurn_ne _
    (fun p => { p with victory_points := p.victory_points + 2 }) (fun q => rfl) c'
    (by
      show (s.updatePlayerC c' (fun p =>
        { p with victory_points := p.victory_points - 2 })).turn.color ≠ c'
      rw [turn_updatePlayerC_ne s c' _ hne]
      exact hne)]
  show (s.updatePlayerC c' (fun p =>
    { p with victory_points := p.victory_points - 2 })).playerOf? c' = _
  exact playerOf?_updatePlayerC_self s c' _ (fun q => rfl)

/-- The bonus deducts 2 victory points from the charged holder (army
version). -/
theorem playerOf?_awardArmyBonus_holder (s : GameState) (col : Color) (c' : Color)
    (hne : s.turn.color ≠ c') :
    (awardArmyBonus s col (some c')).playerOf? c' =
      (s.playerOf? c').map (fun p => { p with victory_points := p.victory_points - 2 }) := by
  unfold awardArmyBonus
  dsimp only []
  rw [playerOf?_updateTurn_ne _
    (fun p => { p with victory_points := p.victory_points + 2 }) (fun q => rfl) c'
    (by
      show (s.updatePlayerC c' (fun p =>
        { p with victory_points := p.victory_points - 2 })).turn.color ≠ c'
      rw [turn_updatePlayerC_ne s c' _ hne]
      exact hne)]
  show (s.updatePlayerC c' (fun p =>
    { p with victory_points := p.victory_points - 2 })).playerOf? c' = _
  exact playerOf?_updatePlayerC_self s c' _ (fun q => rfl)

/-- A successful `move_robber` does not touch the largest-army holder. -/
theorem lap_move_robber (pick : ResourceType) (s : GameState) (t : Nat)
    (victim : Option Color) (s1 : GameState) (tf : Option Color)
    (tt : Option ResourceType) (pt : Nat)
    (h : move_robber pick s t victim = .ok (s1, tf, tt, pt)) :
    s1.largest_army_player = s.largest_army_player := by
  unfold move_robber at h
  repeat' split at h
  all_goals first
    | exact Except.noConfusion h
    | (injection h with h'
       have h1 : _ = s1 := congrArg Prod.fst h'
       rw [← h1]
       rfl)

/-- C7: the longest-road and largest-army bonuses obey the spec's
arbitration rule — the candidate qualifies at the threshold (5 road
length, 3 knights), never takes the bonus from themselves, only beats a
holder strictly, and every transfer records the previous holder, moves
the marker, grants the mover 2 victory points and deducts 2 from the
charged holder; without a transfer all of these stay put. -/
theorem C7_bonus_arbitration (s : GameState) (hp : 0 < s.players.length) :
    (∀ e s' save, place_road s e = (s', save) →
      ((save.becameLongestRoadPlayer = true ↔
        specBonusRule 5 s'.turn.longest_road
          (holderStat s s.longest_road_player (fun p => p.longest_road))
          s.longest_road_player s.turn.color) ∧
      save.prevLongestRoadPlayer =
        (if save.becameLongestRoadPlayer then s.longest_road_player else none) ∧
      s'.longest_road_player =
        (if save.becameLongestRoadPlayer then some s.turn.color
         else s.longest_road_player) ∧
      s'.turn.victory_points =
        s.turn.victory_points + (if save.becameLongestRoadPlayer then 2 else 0) ∧
      (∀ c', save.becameLongestRoadPlayer = true → s.longest_road_player = some c' →
        s'.playerOf? c' = (s.playerOf? c').map
          (fun p => { p with victory_points := p.victory_points - 2 })))) ∧
    (∀ pick t victim s' tf tt pt ba ph,
      play_knight pick s t victim = .ok (s', tf, tt, pt, ba, ph) →
      ((ba = true ↔ specBonusRule 3 s'.turn.knights_played
          (holderStat s s.largest_army_player (fun p => p.knights_played))
          s.largest_army_player s.turn.color) ∧
      ph = (if ba then s.largest_army_player else none) ∧
      s'.largest_army_player = (if ba then some s.turn.color
        else s.largest_army_player) ∧
      s'.turn.victory_points = s.turn.victory_points + (if ba then 2 else 0) ∧
      (∀ c', ba = true → s.largest_army_player = some c' →
        (s'.playerOf? c').map (fun p => p.victory_points) =
          (s.playerOf? c').map (fun p => p.victory_points - 2)))) := by
  constructor
  · intro e s' save hpr

    unfold place_road at hpr
    lift_lets at hpr
    extract_lets col s1 s2 addedCE s3 addedCV s4 longest prevLongest s5 newLen holder
      holderLen transferBonus at hpr
    have h5 : s5 = s4.updateTurn (fun p => { p with longest_road := max p.longest_road longest }) := rfl
    have h4 : s4 = { s3 with connected_vertices := s3.connected_vertices.set col addedCV.2 } := rfl
    have h3 : s3 = { s2 with connected_edges := s2.connected_edges.set col addedCE.2 } := rfl
    have h2 : s2 = s1.setEdge e (some col) := rfl
    have h1 : s1 = s.updateTurn (fun p => { p with roads_left := p.roads_left - 1 }) := rfl
    have hcol : col = s.turn.color := rfl
    have hhold : holder = s.longest_road_player := rfl
    have htb : transferBonus =
        (newLen ≥ 5 && (holder = none || (holder ≠ some col && newLen > holderLen))) := rfl
    have hhl : holderLen =
        ((s5.playerOf? (holder.getD col)).map (·.longest_road)).getD 0 := rfl
    have hlen4 : s4.players.length = s.players.length := by
      show (s.updateTurn (fun p => { p with roads_left := p.roads_left - 1 })).players.length =
        s.players.length
      exact players_length_updateTurn s _
    have hlen5 : s5.players.length = s.players.length := by
      rw [h5, players_length_updateTurn]
      exact hlen4
    have hcol4 : s4.turn.color = s.turn.color := by
      show (s.updateTurn (fun p => { p with roads_left := p.roads_left - 1 })).turn.color =
        s.turn.color
      exact turn_g_updatePlayerAt s 0 (fun p => { p with roads_left := p.roads_left - 1 })
        Player.color (fun q => rfl)
    have hcol5 : s5.turn.color = s.turn.color := by
      rw [h5]
      exact Eq.trans (turn_g_updatePlayerAt s4 0
        (fun p => { p with longest_road := max p.longest_road longest })
        Player.color (fun q => rfl)) hcol4
    have hpOf5 : ∀ c', c' ≠ s.turn.color → s5.playerOf? c' = s.playerOf? c' := by
      intro c' hne
      rw [h5, playerOf?_updateTurn_ne s4
        (fun p => { p with longest_road := max p.longest_road longest }) (fun q => rfl) c'
        (by rw [hcol4]; exact fun h => hne h.symm)]
      show (s.updateTurn (fun p => { p with roads_left := p.roads_left - 1 })).playerOf? c' =
        s.playerOf? c'
      exact playerOf?_updateTurn_ne s (fun p => { p with roads_left := p.roads_left - 1 })
        (fun q => rfl) c' (fun h => hne h.symm)
    have hvp5 : s5.turn.victory_points = s.turn.victory_points := by
      rw [h5]
      refine Eq.trans (turn_g_updatePlayerAt s4 0
        (fun p => { p with longest_road := max p.longest_road longest })
        (fun q => q.victory_points) (fun q => rfl)) ?_
      show (s.updateTurn (fun p => { p with roads_left := p.roads_left - 1 })).turn.victory_points =
        s.turn.victory_points
      exact turn_g_updatePlayerAt s 0 (fun p => { p with roads_left := p.roads_left - 1 })
        (fun q => q.victory_points) (fun q => rfl)
    have hcond : transferBonus = true ↔
        specBonusRule 5 newLen (holderStat s s.longest_road_player (fun p => p.longest_road))
          s.longest_road_player s.turn.color := by
      cases hh : s.longest_road_player with
      | none =>
        have hb : holder = none := hhold.trans hh
        rw [htb, hb]
        unfold specBonusRule
        simp
      | some c' =>
        have hb : holder = some c' := hhold.trans hh
        by_cases hcc : c' = s.turn.color
        · rw [htb, hb]
          unfold specBonusRule
          simp [hcol, hcc]
        · have hlen_eq : holderLen =
              holderStat s s.longest_road_player (fun p => p.longest_road) := by
            rw [hhl, hb, hh]
            unfold holderStat
            rw [show ((some c' : Option Color)).getD col = c' from rfl, hpOf5 c' hcc]
            rfl
          rw [htb, hb, hlen_eq]
          unfold specBonusRule
          simp [hcol, hcc, hh]
    split at hpr
    · rename_i htrue
      injection hpr with hs hsave
      subst hs
      subst hsave
      dsimp only []
      have hccl : ∀ c', holder = some c' → s.turn.color ≠ c' := by
        intro c' hc'
        rw [htb, hc'] at htrue
        simp only [Bool.and_eq_true, Bool.or_eq_true, decide_eq_true_eq] at htrue
        rcases htrue.2 with h | h
        · exact absurd h (by simp)
        · intro heq
          exact h.1 (by rw [hcol, ← heq])
      have hlr : (awardRoadBonus s5 col holder).turn.longest_road = newLen :=
        turn_g_awardRoadBonus s5 col holder (fun q => q.longest_road) (fun q n => rfl)
      refine ⟨?_, ?_, ?_, ?_, ?_⟩
      · rw [hlr]
        exact ⟨fun _ => hcond.mp htrue, fun _ => rfl⟩
      · rw [if_pos rfl]
        exact hhold
      · rw [lrp_awardRoadBonus, if_pos rfl, hcol]
      · rw [vp_awardRoadBonus s5 col holder (by rw [hlen5]; exact hp)
          (fun c' hc' => by rw [hcol5]; exact hccl c' hc'), hvp5, if_pos rfl]
      · intro c' _ hsc'
        have hbe : holder = some c' := hhold.trans hsc'
        rw [hbe, playerOf?_awardRoadBonus_holder s5 col c'
          (by rw [hcol5]; exact hccl c' hbe), hpOf5 c' (Ne.symm (hccl c' hbe))]
    · rename_i hfalse
      injection hpr with hs hsave
      subst hs
      subst hsave
      dsimp only []
      refine ⟨?_, ?_, ?_, ?_, ?_⟩
      · constructor
        · intro h
          exact absurd h (by simp)
        · intro hs
          exact absurd (hcond.mpr hs) hfalse
      · rw [if_neg (by simp)]
      · rw [if_neg (by simp)]
        rfl
      · rw [hvp5, if_neg (by simp)]
        omega
      · intro c' h
        exact absurd h (by simp)
  · intro pick t victim s' tf tt pt ba ph hk

    unfold play_knight at hk
    split at hk
    · exact Except.noConfusion hk
    split at hk
    · exact Except.noConfusion hk
    rename_i s1 tf1 tt1 pt1 heq
    lift_lets at hk
    extract_lets s2 s3 newCount colK holderK holderCount transferBonusK at hk
    have h3 : s3 = s2.updateTurn (fun p => { p with knights_played := p.knights_played + 1 }) := rfl
    have h2 : s2 = s1.updateTurn (fun p =>
      { p with development_cards := removeFirstP p.development_cards (· = ⟨.knight, true⟩) }) := rfl
    have hcolK : colK = s3.turn.color := rfl
    have hholdK : holderK = s3.largest_army_player := rfl
    have hnc : newCount = s3.turn.knights_played := rfl
    have htbK : transferBonusK =
        (newCount ≥ 3 && (holderK = none || (holderK ≠ some colK && newCount > holderCount))) := rfl
    have hhcK : holderCount =
        ((s3.playerOf? (holderK.getD colK)).map (·.knights_played)).getD 0 := rfl
    have hlen1 : s1.players.length = s.players.length :=
      move_robber_players_length pick s t victim s1 tf1 tt1 pt1 heq
    have hlen2 : s2.players.length = s.players.length := by
      rw [h2, players_length_updateTurn]
      exact hlen1
    have hlen3 : s3.players.length = s.players.length := by
      rw [h3, players_length_updateTurn]
      exact hlen2
    have hcol1 : s1.turn.color = s.turn.color :=
      turn_g_move_robber pick s t victim s1 tf1 tt1 pt1 Player.color (fun q r => rfl) heq
    have hcol2 : s2.turn.color = s.turn.color := by
      rw [h2]
      exact Eq.trans (turn_g_updatePlayerAt s1 0 (fun p =>
        { p with development_cards := removeFirstP p.development_cards (· = ⟨.knight, true⟩) })
        Player.color (fun q => rfl)) hcol1
    have hcol3 : s3.turn.color = s.turn.color := by
      rw [h3]
      exact Eq.trans (turn_g_updatePlayerAt s2 0
        (fun p => { p with knights_played := p.knights_played + 1 })
        Player.color (fun q => rfl)) hcol2
    have hcolK_s : colK = s.turn.color := hcolK.trans hcol3
    have hlapK : holderK = s.largest_army_player := by
      rw [hholdK, h3]
      show s1.largest_army_player = s.largest_army_player
      exact lap_move_robber pick s t victim s1 tf1 tt1 pt1 heq
    have hkp1 : s1.turn.knights_played = s.turn.knights_played :=
      turn_g_move_robber pick s t victim s1 tf1 tt1 pt1 (fun q => q.knights_played)
        (fun q r => rfl) heq
    have hkp2 : s2.turn.knights_played = s.turn.knights_played := by
      rw [h2]
      exact Eq.trans (turn_g_updatePlayerAt s1 0 (fun p =>
        { p with development_cards := removeFirstP p.development_cards (· = ⟨.knight, true⟩) })
        (fun q => q.knights_played) (fun q => rfl)) hkp1
    have hvp1 : s1.turn.victory_points = s.turn.victory_points :=
      turn_g_move_robber pick s t victim s1 tf1 tt1 pt1 (fun q => q.victory_points)
        (fun q r => rfl) heq
    have hvp3 : s3.turn.victory_points = s.turn.victory_points := by
      rw [h3]
      refine Eq.trans (turn_g_updatePlayerAt s2 0
        (fun p => { p with knights_played := p.knights_played + 1 })
        (fun q => q.victory_points) (fun q => rfl)) ?_
      rw [h2]
      exact Eq.trans (turn_g_updatePlayerAt s1 0 (fun p =>
        { p with development_cards := removeFirstP p.development_cards (· = ⟨.knight, true⟩) })
        (fun q => q.victory_points) (fun q => rfl)) hvp1
    have hpOf3 : ∀ c', c' ≠ s.turn.color →
        (s3.playerOf? c').map (fun p => p.knights_played) =
          (s.playerOf? c').map (fun p => p.knights_played) := by
      intro c' hne
      rw [h3, playerOf?_updateTurn_ne s2
        (fun p => { p with knights_played := p.knights_played + 1 }) (fun q => rfl) c'
        (by rw [hcol2]; exact fun h => hne h.symm),
        h2, playerOf?_updateTurn_ne s1 (fun p =>
          { p with development_cards := removeFirstP p.development_cards (· = ⟨.knight, true⟩) })
        (fun q => rfl) c' (by rw [hcol1]; exact fun h => hne h.symm)]
      exact playerOf?_map_move_robber pick s t victim s1 tf1 tt1 pt1
        (fun q => q.knights_played) (fun q r => rfl) heq c'
    have hpOfVp3 : ∀ c', c' ≠ s.turn.color →
        (s3.playerOf? c').map (fun p => p.victory_points - 2) =
          (s.playerOf? c').map (fun p => p.victory_points - 2) := by
      intro c' hne
      rw [h3, playerOf?_updateTurn_ne s2
        (fun p => { p with knights_played := p.knights_played + 1 }) (fun q => rfl) c'
        (by rw [hcol2]; exact fun h => hne h.symm),
        h2, playerOf?_updateTurn_ne s1 (fun p =>
          { p with development_cards := removeFirstP p.development_cards (· = ⟨.knight, true⟩) })
        (fun q => rfl) c' (by rw [hcol1]; exact fun h => hne h.symm)]
      exact playerOf?_map_move_robber pick s t victim s1 tf1 tt1 pt1
        (fun q => q.victory_points - 2) (fun q r => rfl) heq c'
    have hcondK : transferBonusK = true ↔
        specBonusRule 3 newCount
          (holderStat s s.largest_army_player (fun p => p.knights_played))
          s.largest_army_player s.turn.color := by
      cases hh : s.largest_army_player with
      | none =>
        have hb : holderK = none := hlapK.trans hh
        rw [htbK, hb]
        unfold specBonusRule
        simp
      | some c' =>
        have hb : holderK = some c' := hlapK.trans hh
        by_cases hcc : c' = s.turn.color
        · rw [htbK, hb]
          unfold specBonusRule
          simp [hcolK_s, hcc]
        · have hcount_eq : holderCount =
              holderStat s s.largest_army_player (fun p => p.knights_played) := by
            rw [hhcK, hb, hh]
            unfold holderStat
            rw [show ((some c' : Option Color)).getD colK = c' from rfl]
            show ((s3.playerOf? c').map (fun p => p.knights_played)).getD 0 = _
            rw [hpOf3 c' hcc]
            rfl
          rw [htbK, hb, hcount_eq]
          unfold specBonusRule
          simp [hcolK_s, hcc, hh]
    split at hk
    · rename_i htrueK
      injection hk with hk'
      injection hk' with e1 hk'
      injection hk' with e2 hk'
      injection hk' with e3 hk'
      injection hk' with e4 hk'
      injection hk' with e5 e6
      subst e1
      subst e2
      subst e3
      subst e4
      subst e5
      subst e6
      have hccl : ∀ c', holderK = some c' → s.turn.color ≠ c' := by
        intro c' hc'
        rw [htbK, hc'] at htrueK
        simp only [Bool.and_eq_true, Bool.or_eq_true, decide_eq_true_eq] at htrueK
        rcases htrueK.2 with h | h
        · exact absurd h (by simp)
        · intro heq2
          exact h.1 (by rw [hcolK_s, ← heq2])
      have hkc : (awardArmyBonus s3 colK holderK).turn.knights_played = newCount :=
        turn_g_awardArmyBonus s3 colK holderK (fun q => q.knights_played) (fun q n => rfl)
      refine ⟨?_, ?_, ?_, ?_, ?_⟩
      · rw [hkc]
        exact ⟨fun _ => hcondK.mp htrueK, fun _ => rfl⟩
      · rw [if_pos rfl]
        exact hlapK
      · rw [lap_awardArmyBonus, if_pos rfl, hcolK_s]
      · rw [vp_awardArmyBonus s3 colK holderK (by rw [hlen3]; exact hp)
          (fun c' hc' => by rw [hcol3]; exact hccl c' hc'), hvp3, if_pos rfl]
      · intro c' _ hsc'
        have hbe : holderK = some c' := hlapK.trans hsc'
        rw [hbe, playerOf?_awardArmyBonus_holder s3 colK c'
          (by rw [hcol3]; exact hccl c' hbe), Option.map_map]
        show (s3.playerOf? c').map (fun p => p.victory_points - 2) = _
        exact hpOfVp3 c' (Ne.symm (hccl c' hbe))
    · rename_i hfalseK
      injection hk with hk'
      injection hk' with e1 hk'
      injection hk' with e2 hk'
      injection hk' with e3 hk'
      injection hk' with e4 hk'
      injection hk' with e5 e6
      subst e1
      subst e2
      subst e3
      subst e4
      subst e5
      subst e6
      refine ⟨?_, ?_, ?_, ?_, ?_⟩
      · constructor
        · intro h
          exact absurd h (by simp)
        · intro hs
          rw [show s3.turn.knights_played = newCount from rfl] at hs
          exact absurd (hcondK.mpr hs) hfalseK
      · rw [if_neg (by simp)]
      · rw [if_neg (by simp)]
        exact (hholdK.symm).trans hlapK
      · rw [hvp3, if_neg (by simp)]
        omega
      · intro c' h
        exact absurd h (by simp)

/-- C7 witness: the arbitration characterization evaluated on the first
road placed in the concrete base-layout game. -/
theorem C7_bonus_arbitration_witness :
    (place_road demoInit 0).2.becameLongestRoadPlayer = true ↔
      specBonusRule 5 (place_road demoInit 0).1.turn.longest_road
        (holderStat demoInit demoInit.longest_road_player (fun p => p.longest_road))
        demoInit.longest_road_player demoInit.turn.color :=
  ((C7_bonus_arbitration demoInit (by decide)).1 0 (place_road demoInit 0).1
    (place_road demoInit 0).2 rfl).1

theorem Resources.get_single (t : ResourceType) (z : Int) :
    (Resources.single t z).get t = z := by
  cases t <;> simp [Resources.single, Resources.bump, Resources.get, Resources.set]

theorem produce_resources_eq (s : GameState) (token : Nat) (h : token ∈ TOKENS) :
    produce_resources s token =
      .ok ((s.tilesWithToken token).foldl produceTile (s, [])) := by
  unfold produce_resources
  rw [if_neg (not_not_intro h)]
  dsimp only []
  rfl

theorem lookupZ_assocBump_self (c : Color) (z : Int) :
    ∀ l : List (Color × Int), lookupZ (assocBump l c z) c = lookupZ l c + z
  | [] => by simp [assocBump, lookupZ, List.find?]
  | (c1, z1) :: tl => by
    unfold assocBump
    by_cases hc : c1 = c
    · rw [if_pos hc]
      subst hc
      unfold lookupZ
      rw [List.find?_cons_of_pos _ (by simp), List.find?_cons_of_pos _ (by simp)]
      simp
    · rw [if_neg hc]
      unfold lookupZ
      rw [List.find?_cons_of_neg _ (by simp [hc]), List.find?_cons_of_neg _ (by simp [hc])]
      exact lookupZ_assocBump_self c z tl

theorem lookupZ_assocBump_ne (c : Color) (z : Int) (c0 : Color) (hne : c0 ≠ c) :
    ∀ l : List (Color × Int), lookupZ (assocBump l c z) c0 = lookupZ l c0
  | [] => by simp [assocBump, lookupZ, List.find?, hne, Ne.symm hne]
  | (c1, z1) :: tl => by
    unfold assocBump
    by_cases hc : c1 = c
    · rw [if_pos hc]
      unfold lookupZ
      rw [List.find?_cons_of_neg _ (by simp [hc, Ne.symm hne]),
        List.find?_cons_of_neg _ (by simp [hc, Ne.symm hne])]
    · rw [if_neg hc]
      by_cases hc0 : c1 = c0
      · unfold lookupZ
        rw [List.find?_cons_of_pos _ (by simp [hc0]), List.find?_cons_of_pos _ (by simp [hc0])]
      · unfold lookupZ
        rw [List.find?_cons_of_neg _ (by simp [hc0]), List.find?_cons_of_neg _ (by simp [hc0])]
        exact lookupZ_assocBump_ne c z c0 hne tl

theorem lookupZ_tileColorAmounts (s : GameState) (t : Nat) (c : Color) :
    lookupZ (tileColorAmounts s t) c = tileDemand s t c := by
  unfold tileColorAmounts tileDemand
  suffices H : ∀ (vs : List Nat) (acc : List (Color × Int)),
      lookupZ (vs.foldl (fun l v =>
        match s.vertexBuilding v with
        | some b => assocBump l b.color (if b.building_type = .city then 2 else 1)
        | none => l) acc) c =
      lookupZ acc c + ((vs.map (fun v =>
        match s.vertexBuilding v with
        | some b => if b.color = c then (if b.building_type = .city then 2 else 1) else 0
        | none => 0)).sum) by
    have := H (tileAdjVertices t) []
    simpa [lookupZ, List.find?] using this
  intro vs
  induction vs with
  | nil => intro acc; simp
  | cons v vs ih =>
    intro acc
    rw [List.foldl_cons, List.map_cons, List.sum_cons]
    cases hvb : s.vertexBuilding v with
    | none =>
      dsimp only []
      rw [ih acc]
      ring
    | some b =>
      dsimp only []
      rw [ih _]
      by_cases hbc : b.color = c
      · rw [hbc, lookupZ_assocBump_self, if_pos rfl]
        ring
      · rw [lookupZ_assocBump_ne _ _ _ (fun h => hbc h.symm), if_neg hbc]
        ring

theorem assocBump_pos (c : Color) (z : Int) (hz : 1 ≤ z) :
    ∀ l : List (Color × Int), (∀ ca ∈ l, 1 ≤ ca.2) →
      ∀ ca ∈ assocBump l c z, 1 ≤ ca.2
  | [], _, ca, hca => by
    simp only [assocBump, List.mem_singleton] at hca
    rw [hca]
    exact hz
  | (c1, z1) :: tl, hl, ca, hca => by
    unfold assocBump at hca
    split at hca
    · rcases List.mem_cons.mp hca with h | h
      · rw [h]
        have := hl (c1, z1) (List.mem_cons_self _ _)
        simp at this ⊢
        omega
      · exact hl ca (List.mem_cons_of_mem _ h)
    · rcases List.mem_cons.mp hca with h | h
      · rw [h]
        exact hl (c1, z1) (List.mem_cons_self _ _)
      · exact assocBump_pos c z hz tl (fun x hx => hl x (List.mem_cons_of_mem _ hx)) ca h

theorem tileColorAmounts_pos (s : GameState) (t : Nat) :
    ∀ ca ∈ tileColorAmounts s t, 1 ≤ ca.2 := by
  unfold tileColorAmounts
  suffices H : ∀ (vs : List Nat) (acc : List (Color × Int)),
      (∀ ca ∈ acc, 1 ≤ ca.2) →
      ∀ ca ∈ vs.foldl (fun l v =>
        match s.vertexBuilding v with
        | some b => assocBump l b.color (if b.building_type = .city then 2 else 1)
        | none => l) acc, 1 ≤ ca.2 from
    H (tileAdjVertices t) [] (by simp)
  intro vs
  induction vs with
  | nil => intro acc hacc; simpa using hacc
  | cons v vs ih =>
    intro acc hacc
    rw [List.foldl_cons]
    cases hvb : s.vertexBuilding v with
    | none => exact ih acc hacc
    | some b =>
      refine ih _ ?_
      exact assocBump_pos b.color _ (by split <;> omega) acc hacc

theorem produceFold_snd (rt : ResourceType) (left : Int) :
    ∀ (l : List (Color × Int)) (q : GameState × List (Color × Resources)),
      (l.foldl (fun (q' : GameState × List (Color × Resources)) ca =>
        (transfer_resources q'.1 .bank
          (.player ((q'.1.playerIdx? ca.1).getD q'.1.players.length))
          (Resources.single rt (min ca.2 left)),
         q'.2 ++ [(ca.1, Resources.single rt (min ca.2 left))])) q).2 =
      q.2 ++ l.map (fun ca => (ca.1, Resources.single rt (min ca.2 left)))
  | [], q => by simp
  | ca :: l, q => by
    rw [List.foldl_cons, produceFold_snd rt left l _, List.map_cons]
    simp

theorem produceFold_bank (rt : ResourceType) (left : Int) :
    ∀ (l : List (Color × Int)) (q : GameState × List (Color × Resources)),
      (l.foldl (fun (q' : GameState × List (Color × Resources)) ca =>
        (transfer_resources q'.1 .bank
          (.player ((q'.1.playerIdx? ca.1).getD q'.1.players.length))
          (Resources.single rt (min ca.2 left)),
         q'.2 ++ [(ca.1, Resources.single rt (min ca.2 left))])) q).1.resource_amounts.get rt =
      q.1.resource_amounts.get rt - (l.map (fun ca => min ca.2 left)).sum
  | [], q => by simp
  | ca :: l, q => by
    rw [List.foldl_cons, produceFold_bank rt left l _, List.map_cons, List.sum_cons]
    have hb : (transfer_resources q.1 .bank
        (.player ((q.1.playerIdx? ca.1).getD q.1.players.length))
        (Resources.single rt (min ca.2 left))).resource_amounts =
        q.1.resource_amounts.sub (Resources.single rt (min ca.2 left)) := rfl
    dsimp only []
    rw [hb, Resources.get_sub, Resources.get_single]
    ring

/-- C5: the per-tile production rule — a tile holding the robber yields
nothing; each color's due yield is one per settlement and two per city
(`lookupZ`/`tileDemand`); when the bank cannot cover the total demand and
more than one color claims it the tile is skipped entirely; otherwise
every claimant receives `min(due, bank-before-this-tile)` of the tile's
resource out of the bank — the full due when the bank suffices, and the
whole remaining bank for a lone short claimant. -/
theorem C5_produce_scarcity (s : GameState) (token : Nat)
    (q : GameState × List (Color × Resources)) (t : Nat) (c : Color) :
    (token ∈ TOKENS → produce_resources s token =
      .ok ((s.tilesWithToken token).foldl produceTile (s, []))) ∧
    lookupZ (tileColorAmounts s t) c = tileDemand s t c ∧
    (q.1.tileHasRobber t = true → produceTile q t = q) ∧
    (q.1.tileHasRobber t = false →
      q.1.resource_amounts.get (q.1.tileType t).res <
        ((tileColorAmounts q.1 t).map (·.2)).sum →
      1 < (tileColorAmounts q.1 t).length →
      produceTile q t = q) ∧
    (q.1.tileHasRobber t = false →
      ¬ (q.1.resource_amounts.get (q.1.tileType t).res <
          ((tileColorAmounts q.1 t).map (·.2)).sum ∧
        (tileColorAmounts q.1 t).length > 1) →
      (produceTile q t).2 = q.2 ++ (tileColorAmounts q.1 t).map
          (fun ca => (ca.1, Resources.single (q.1.tileType t).res
            (min ca.2 (q.1.resource_amounts.get (q.1.tileType t).res)))) ∧
      (produceTile q t).1.resource_amounts.get (q.1.tileType t).res =
        q.1.resource_amounts.get (q.1.tileType t).res -
          ((tileColorAmounts q.1 t).map
            (fun ca => min ca.2 (q.1.resource_amounts.get (q.1.tileType t).res))).sum) ∧
    (∀ ca ∈ tileColorAmounts q.1 t,
      ((tileColorAmounts q.1 t).map (·.2)).sum ≤
          q.1.resource_amounts.get (q.1.tileType t).res →
      min ca.2 (q.1.resource_amounts.get (q.1.tileType t).res) = ca.2) ∧
    (∀ z, tileColorAmounts q.1 t = [(c, z)] →
      q.1.resource_amounts.get (q.1.tileType t).res < z →
      Resources.single (q.1.tileType t).res
          (min z (q.1.resource_amounts.get (q.1.tileType t).res)) =
        Resources.single (q.1.tileType t).res
          (q.1.resource_amounts.get (q.1.tileType t).res)) := by
  refine ⟨produce_resources_eq s token, lookupZ_tileColorAmounts s t c, ?_, ?_, ?_, ?_, ?_⟩
  · intro h
    unfold produceTile
    rw [if_pos h]
  · intro h1 h2 h3
    unfold produceTile
    rw [if_neg (by simp [h1])]
    dsimp only []
    rw [if_pos ⟨h2, h3⟩]
  · intro h1 h2
    unfold produceTile
    rw [if_neg (by simp [h1])]
    dsimp only []
    rw [if_neg h2]
    constructor
    · exact produceFold_snd _ _ _ _
    · exact produceFold_bank _ _ _ _
  · intro ca hca hsum
    have h0 : ca.2 ≤ ((tileColorAmounts q.1 t).map (·.2)).sum := by
      refine List.single_le_sum ?_ _ (List.mem_map_of_mem (·.2) hca)
      intro x hx
      obtain ⟨y, hy, hxy⟩ := List.mem_map.mp hx
      have := tileColorAmounts_pos q.1 t y hy
      omega
    exact min_eq_left (le_trans h0 hsum)
  · intro z hz hlt
    exact congrArg _ (min_eq_right (le_of_lt hlt))


/-- C5 witness: the tile loop evaluated on the concrete base-layout game
for token 6. -/
theorem C5_produce_scarcity_witness :
    produce_resources demoInit 6 =
      .ok ((demoInit.tilesWithToken 6).foldl produceTile (demoInit, [])) :=
  (C5_produce_scarcity demoInit 6 (demoInit, []) 0 Color.blue).1 (by decide)

end Catan
